import Mathlib

/-!
# FuxionFlow: inventory, orders and loans

A shallow embedding of the handlers and aggregations of the React pages `Home.js`,
`Partners.js`, `Inventory.js`, `History.js`, `Reports.js` and `Stats.js`, and of the Supabase
tables they read and write.

Modelling conventions.

* A table is the list of its rows; `.eq(col, v)` filters are row predicates, `.update(...)`
  rewrites every matching row, `.insert(...)` appends, `.delete()` removes the matching rows,
  `.single()` succeeds exactly when one row matches.
* Row ids are database keys, modelled by `Nat`. A form field that holds an id or the empty
  selection `''` (and a property that is absent on an object) is an `Option Nat`; `none` is the
  only falsy value such a field takes, so `a || b` on two of them is `a <|> b`.
* Numbers are exact integers: quantities and points are integers in the source, a price is
  counted in the smallest currency unit. Floating point rounding is not modelled.
* Instants (`new Date()`, `completed_at`) and dates are positions on a time line, `Nat`,
  counted in milliseconds where a duration matters. The calendar functions of `date-fns` and
  of the JavaScript engine, which depend on the time zone and on the version of the library,
  are inputs of the functions that use them.
* An object used as a map is the list of its own entries, in insertion order. Where the keys
  are free text (partner names), the properties inherited from `Object.prototype` and the
  order in which `Object.entries` lists the keys are part of the model.
* Every Supabase call may return an error. Each handler takes a record saying which of its
  calls fail; a failed call leaves the table as it was.
* The id that the database gives to an inserted row is an input of the handler.
* The text of a number input is a `String`, read by `parseInt`; the `min` attribute of an
  input is a condition under which the browser runs the submit handler of its form.
* The heights of the PDF export are exact rationals.
-/

namespace FuxionFlow

/-! ## Data model -/

/-- Column `status` of table `orders`. -/
inductive Status where
  | pending
  | delivered
  | cancelled
deriving DecidableEq, Repr

/-- Row of table `products`. -/
structure Product where
  id : Nat
  user_id : Nat
  name : String
  quantity : Int
  price_per_unit : Int
  points_per_unit : Int
deriving DecidableEq, Repr

/-- Row of table `orders`. The totals and `completed_at` are nullable columns. -/
structure Order where
  id : Nat
  user_id : Nat
  customer_id : Option Nat
  delivery_date : Nat
  total_points : Option Int
  total_price : Option Int
  status : Status
  is_paid : Bool
  completed_at : Option Nat
deriving DecidableEq, Repr

/-- Row of table `order_items`. The two snapshots are nullable columns. -/
structure OrderItem where
  order_id : Nat
  product_id : Option Nat
  quantity : Int
  points_at_sale : Option Int
  price_at_sale : Option Int
deriving DecidableEq, Repr

/-- Row of table `loans`. -/
structure Loan where
  id : Nat
  user_id : Nat
  partner_id : Nat
  product_id : Option Nat
  quantity : Int
  points_at_loan : Int
  price_at_loan : Int
  loan_date : Nat
deriving DecidableEq, Repr

/-- The stored tables. -/
structure Db where
  products : List Product
  orders : List Order
  order_items : List OrderItem
  loans : List Loan
deriving DecidableEq, Repr

/-- An order as the pages hold it: the row with its nested `order_items`
(`select('*, order_items(*), ...')`). -/
structure OrderView extends Order where
  order_items : List OrderItem
deriving DecidableEq, Repr

/-- Result of `.single()`: the row when exactly one row matches, an error otherwise. -/
def single {α : Type} : List α → Option α
  | [a] => some a
  | _ => none

/-- The JavaScript `x || d` on numbers: `d` when `x` is `0`, else `x`. -/
def jsOr (x d : Int) : Int := if x = 0 then d else x

/-! ## Home.js -/

namespace Home

/-- An element of the list given to `calculateOrderTotals`: an entry of `selectedProducts`
has `productId`, a fetched `order_items` row has `product_id`. -/
structure Item where
  productId : Option Nat
  product_id : Option Nat
  quantity : Int
deriving DecidableEq, Repr

/-- One entry of the form state `selectedProducts`. -/
structure SelectedProduct where
  productId : Option Nat
  quantity : Int
deriving DecidableEq, Repr

/-- A `selectedProducts` entry seen as an argument of `calculateOrderTotals`. -/
def SelectedProduct.toItem (s : SelectedProduct) : Item :=
  { productId := s.productId, product_id := none, quantity := s.quantity }

/-- A fetched `order_items` row seen as an argument of `calculateOrderTotals`. -/
def ofOrderItem (it : OrderItem) : Item :=
  { productId := none, product_id := it.product_id, quantity := it.quantity }

/-- Value returned by `calculateOrderTotals`. -/
structure Totals where
  totalPoints : Int
  totalPrice : Int
deriving DecidableEq, Repr

/-- The body of the `forEach` of `calculateOrderTotals`. -/
def addItem (products : List Product) (acc : Totals) (item : Item) : Totals :=
  match products.find? (fun p => some p.id == (item.productId <|> item.product_id)) with
  | some product =>
      { totalPoints := acc.totalPoints + product.points_per_unit * item.quantity
        totalPrice := acc.totalPrice + product.price_per_unit * item.quantity }
  | none => acc

/-- Translation of `calculateOrderTotals` (Home.js 61-72); `products` is the page state. -/
def calculateOrderTotals (products : List Product) (orderItems : List Item) : Totals :=
  orderItems.foldl (addItem products) { totalPoints := 0, totalPrice := 0 }

/-- Which Supabase calls of `handleCreateOrder` return an error. -/
structure CreateFaults where
  orderInsert : Bool
  itemsInsert : Bool
  rollbackDelete : Bool
deriving DecidableEq, Repr

/-- The return paths of `handleCreateOrder`. -/
inductive CreateOutcome where
  | notLoggedIn
  | orderInsertFailed
  | itemsInsertFailed
  | created
deriving DecidableEq, Repr

/-- The row built by the `map` of `handleCreateOrder` for one selected line. -/
def orderItemFor (products : List Product) (newOrderId : Nat) (item : SelectedProduct) :
    OrderItem :=
  let product := products.find? (fun p => some p.id == item.productId)
  { order_id := newOrderId
    product_id := item.productId
    quantity := item.quantity
    points_at_sale := some (match product with
      | some p => p.points_per_unit
      | none => 0)
    price_at_sale := some (match product with
      | some p => p.price_per_unit
      | none => 0) }

/-- Translation of `handleCreateOrder` (Home.js 161-222). `products`, `selectedCustomer`,
`selectedProducts`, `deliveryDate` and `isPaidNewOrder` are the page state, `newOrderId` the id
the database gives to the inserted order. -/
def handleCreateOrder (f : CreateFaults) (newOrderId : Nat) (user : Option Nat)
    (products : List Product) (selectedCustomer : Option Nat)
    (selectedProducts : List SelectedProduct) (deliveryDate : Nat) (isPaidNewOrder : Bool)
    (db : Db) : Db × CreateOutcome :=
  match user with
  | none => (db, .notLoggedIn)
  | some userId =>
    let totals := calculateOrderTotals products (selectedProducts.map SelectedProduct.toItem)
    if f.orderInsert then (db, .orderInsertFailed)
    else
      let newOrder : Order :=
        { id := newOrderId
          user_id := userId
          customer_id := selectedCustomer
          delivery_date := deliveryDate
          total_points := some totals.totalPoints
          total_price := some totals.totalPrice
          status := .pending
          is_paid := isPaidNewOrder
          completed_at := none }
      let db1 : Db := { db with orders := db.orders ++ [newOrder] }
      let orderItemsToInsert := selectedProducts.map (orderItemFor products newOrder.id)
      if f.itemsInsert then
        if f.rollbackDelete then (db1, .itemsInsertFailed)
        else ({ db1 with orders := db1.orders.filter (fun o => o.id != newOrder.id) },
          .itemsInsertFailed)
      else ({ db1 with order_items := db1.order_items ++ orderItemsToInsert }, .created)

/-- The `products` state after a successful `fetchData`: the rows of the user. -/
def fetchProducts (userId : Nat) (db : Db) : List Product :=
  db.products.filter (fun p => p.user_id == userId)

/-- The `orders` state after a successful `fetchData` (Home.js 42-49): the orders of the user,
each with its `order_items`, by ascending `delivery_date`. -/
def fetchOrders (userId : Nat) (db : Db) : List OrderView :=
  ((db.orders.filter (fun o => o.user_id == userId)).map (fun o =>
      ({ toOrder := o, order_items := db.order_items.filter (fun it => it.order_id == o.id) }
        : OrderView))).insertionSort
    (fun a b => a.delivery_date ≤ b.delivery_date)

/-- Which Supabase calls of `handleUpdateOrderStatus` return an error: the update of the
order, and for the `k`-th pass of the loop the read and the write of the product. -/
structure UpdateFaults where
  orderUpdate : Bool
  fetchProduct : Nat → Bool
  productUpdate : Nat → Bool

/-- No call of `handleUpdateOrderStatus` fails. -/
def UpdateFaults.none : UpdateFaults :=
  { orderUpdate := false, fetchProduct := fun _ => false, productUpdate := fun _ => false }

/-- The return paths of `handleUpdateOrderStatus`; `threw` is the `TypeError` of `user.id`
when there is no session. -/
inductive UpdateOutcome where
  | threw
  | orderUpdateFailed
  | completed
deriving DecidableEq, Repr

/-- The `for (const item of orderToUpdate.order_items)` loop of `handleUpdateOrderStatus`
(Home.js 100-122), from its `k`-th pass on, acting on table `products`. -/
def decrementLoop (f : UpdateFaults) (userId : Nat) :
    Nat → List OrderItem → List Product → List Product
  | _, [], products => products
  | k, item :: rest, products =>
    let currentProductData :=
      if f.fetchProduct k then none
      else single (products.filter
        (fun p => some p.id == item.product_id && p.user_id == userId))
    match currentProductData with
    | none => decrementLoop f userId (k + 1) rest products
    | some cur =>
      let newQuantity := cur.quantity - item.quantity
      let products1 :=
        if f.productUpdate k then products
        else products.map (fun p =>
          if some p.id == item.product_id && p.user_id == userId then
            { p with quantity := newQuantity }
          else p)
      decrementLoop f userId (k + 1) rest products1

/-- Translation of `handleUpdateOrderStatus` (Home.js 74-127). `orders` is the page state,
`now` the value of `new Date()`. -/
def handleUpdateOrderStatus (f : UpdateFaults) (now : Nat) (user : Option Nat)
    (orders : List OrderView) (orderId : Nat) (status : Status) (db : Db) :
    Db × UpdateOutcome :=
  let completedAt := if status = .delivered then some now else none
  match user with
  | none => (db, .threw)
  | some userId =>
    if f.orderUpdate then (db, .orderUpdateFailed)
    else
      let db1 : Db := { db with orders := db.orders.map (fun o =>
        if o.id == orderId && o.user_id == userId then
          { o with
            status := status
            completed_at := completedAt
            is_paid := if status = .delivered then true else o.is_paid }
        else o) }
      if status = .delivered then
        match orders.find? (fun o => o.id == orderId) with
        | some orderToUpdate =>
            ({ db1 with
                products := decrementLoop f userId 0 orderToUpdate.order_items db1.products },
              .completed)
        | none => (db1, .completed)
      else (db1, .completed)

/-- The statuses for which the card of an order renders a button whose `onClick` is
`handleUpdateOrderStatus(order.id, status)` (Home.js 474-494): the two buttons are inside
`order.status === 'pending' && (...)`, and the handler has no other caller. -/
def statusButtons (order : OrderView) : List Status :=
  if order.status = .pending then [.delivered, .cancelled] else []

end Home

/-! ## Partners.js -/

namespace Partners

/-- The `products` state after a successful `fetchData` (Partners.js 43-46). -/
def fetchProducts (userId : Nat) (db : Db) : List Product :=
  db.products.filter (fun p => p.user_id == userId)

/-- Which Supabase calls of `handleSubmitLoan` return an error. -/
structure LoanFaults where
  loanInsert : Bool
  productUpdate : Bool
deriving DecidableEq, Repr

/-- The return paths of `handleSubmitLoan`; `insufficientStock` is the one with the alert
"No puedes prestar más productos de los que tienes en inventario." -/
inductive LoanOutcome where
  | notLoggedIn
  | productNotFound
  | insufficientStock
  | loanInsertFailed
  | submitted
deriving DecidableEq, Repr

/-- Translation of `handleSubmitLoan` (Partners.js 155-205). `products`, `loanProductId`,
`loanQuantity`, `loanDate` and `selectedPartnerForLoan` (its id) are the page state,
`newLoanId` the id the database gives to the inserted loan. -/
def handleSubmitLoan (f : LoanFaults) (newLoanId : Nat) (user : Option Nat)
    (products : List Product) (selectedPartnerForLoan : Nat) (loanProductId : Option Nat)
    (loanQuantity : Int) (loanDate : Nat) (db : Db) : Db × LoanOutcome :=
  match user with
  | none => (db, .notLoggedIn)
  | some userId =>
    match products.find? (fun p => some p.id == loanProductId) with
    | none => (db, .productNotFound)
    | some selectedProduct =>
      if loanQuantity > selectedProduct.quantity then (db, .insufficientStock)
      else
        let loanData : Loan :=
          { id := newLoanId
            user_id := userId
            partner_id := selectedPartnerForLoan
            product_id := loanProductId
            quantity := loanQuantity
            points_at_loan := selectedProduct.points_per_unit
            price_at_loan := selectedProduct.price_per_unit
            loan_date := loanDate }
        if f.loanInsert then (db, .loanInsertFailed)
        else
          let db1 : Db := { db with loans := db.loans ++ [loanData] }
          if f.productUpdate then (db1, .submitted)
          else
            ({ db1 with products := db1.products.map (fun p =>
                if p.id == selectedProduct.id && p.user_id == userId then
                  { p with quantity := jsOr selectedProduct.quantity 0 - loanQuantity }
                else p) },
              .submitted)

end Partners

/-! ## Inventory.js -/

namespace Inventory

/-- The return paths of `handleSubmitProduct`; an error of the write is only logged. -/
inductive SubmitOutcome where
  | notLoggedIn
  | submitted
deriving DecidableEq, Repr

/-- Translation of `handleSubmitProduct` (Inventory.js 59-95). `currentProduct` and the four
form fields are the page state, `writeFails` says whether the update or insert returns an
error, `newProductId` is the id the database gives to an inserted product. -/
def handleSubmitProduct (writeFails : Bool) (newProductId : Nat) (user : Option Nat)
    (currentProduct : Option Product) (productName : String)
    (productQuantity productPrice productPoints : Int) (db : Db) : Db × SubmitOutcome :=
  match user with
  | none => (db, .notLoggedIn)
  | some userId =>
    match currentProduct with
    | some cur =>
      if writeFails then (db, .submitted)
      else
        ({ db with products := db.products.map (fun p =>
            if p.id == cur.id && p.user_id == userId then
              { p with
                name := productName
                quantity := productQuantity
                price_per_unit := productPrice
                points_per_unit := productPoints
                user_id := userId }
            else p) },
          .submitted)
    | none =>
      if writeFails then (db, .submitted)
      else
        ({ db with products := db.products ++
            [{ id := newProductId
               user_id := userId
               name := productName
               quantity := productQuantity
               price_per_unit := productPrice
               points_per_unit := productPoints }] },
          .submitted)

end Inventory

/-! ## Values shared by the aggregations -/

/-- The JavaScript `x || d` on a nullable number: `d` when `x` is null or `0`, else `x`. -/
def jsOrNull (x : Option Int) (d : Int) : Int :=
  match x with
  | some v => jsOr v d
  | none => d

/-- The product columns that a nested select such as
`products(points_per_unit, price_per_unit)` attaches to a loan or an order item: the current
values of the referenced product. -/
structure ProductRef where
  points_per_unit : Int
  price_per_unit : Int
deriving DecidableEq, Repr

/-- The nested `products(...)` of a row that references `productId`: the current values of
the stored product with that id, null when there is none. -/
def joinProduct (db : Db) (productId : Option Nat) : Option ProductRef :=
  (db.products.find? (fun p => some p.id == productId)).map
    (fun p => { points_per_unit := p.points_per_unit, price_per_unit := p.price_per_unit })

/-- Length of a day in milliseconds, the unit of instants. -/
def dayMs : Int := 24 * 60 * 60 * 1000

/-! ## Home.js: paid flag and dashboard totals -/

namespace Home

/-- The return paths of `handleTogglePaidStatus`; `threw` is the `TypeError` of `user.id`
when there is no session, `updateFailed` the path that logs the error. -/
inductive ToggleOutcome where
  | threw
  | updateFailed
  | completed
deriving DecidableEq, Repr

/-- Translation of `handleTogglePaidStatus` (Home.js 129-144); `updateFails` says whether the
update returns an error. -/
def handleTogglePaidStatus (updateFails : Bool) (user : Option Nat) (orderId : Nat)
    (currentPaidStatus : Bool) (db : Db) : Db × ToggleOutcome :=
  match user with
  | none => (db, .threw)
  | some userId =>
    if updateFails then (db, .updateFailed)
    else
      ({ db with orders := db.orders.map (fun o =>
          if o.id == orderId && o.user_id == userId then
            { o with is_paid := !currentPaidStatus }
          else o) },
        .completed)

/-- Translation of `pendingOrders` (Home.js 229). -/
def pendingOrders (orders : List OrderView) : List OrderView :=
  orders.filter (fun order => order.status == .pending)

/-- The test of the callback of `deliveredOrdersLast60Days` (Home.js 231-236) on one order,
`now` being the `new Date()` of that call. `subDays` is the function of `date-fns`, which
steps back whole days of the local calendar; its result may lie before the epoch, so it is an
`Int`. `isBefore(a, b)` is `a < b`. A stored `completed_at` is a valid date. -/
def deliveredInLast60Days (subDays : Nat → Nat → Int) (now : Nat) (order : OrderView) : Bool :=
  if order.status != .delivered || order.completed_at.isNone then false
  else
    match order.completed_at with
    | some completedDate =>
      let sixtyDaysAgo : Int := subDays now 60
      decide (sixtyDaysAgo < (completedDate : Int))
    | none => false

/-- Translation of `deliveredOrdersLast60Days` (Home.js 230-237). The callback takes a
`new Date()` of its own for each order: `now i` is the one taken for the order at position
`i` of the list. -/
def deliveredOrdersLast60Days (subDays : Nat → Nat → Int) (now : Nat → Nat)
    (orders : List OrderView) : List OrderView :=
  (orders.enum.filter (fun e => deliveredInLast60Days subDays (now e.1) e.2)).map Prod.snd

/-- Translation of `totalPendingPoints` (Home.js 240). -/
def totalPendingPoints (orders : List OrderView) : Int :=
  (pendingOrders orders).foldl (fun sum order => sum + jsOrNull order.total_points 0) 0

/-- Translation of `totalPendingPrice` (Home.js 241). -/
def totalPendingPrice (orders : List OrderView) : Int :=
  (pendingOrders orders).foldl (fun sum order => sum + jsOrNull order.total_price 0) 0

/-- Translation of `totalDelivered60DaysPoints` (Home.js 244). -/
def totalDelivered60DaysPoints (subDays : Nat → Nat → Int) (now : Nat → Nat)
    (orders : List OrderView) : Int :=
  (deliveredOrdersLast60Days subDays now orders).foldl
    (fun sum order => sum + jsOrNull order.total_points 0) 0

/-- Translation of `totalDelivered60DaysPrice` (Home.js 245). -/
def totalDelivered60DaysPrice (subDays : Nat → Nat → Int) (now : Nat → Nat)
    (orders : List OrderView) : Int :=
  (deliveredOrdersLast60Days subDays now orders).foldl
    (fun sum order => sum + jsOrNull order.total_price 0) 0

end Home

/-! ## Partners.js: loans of a partner -/

namespace Partners

/-- A loan as the page holds it in `partner.loans`: the row with its nested `products`
(`select('*, loans(*, products(id, name, points_per_unit, price_per_unit))')`). -/
structure LoanView extends Loan where
  products : Option ProductRef
deriving DecidableEq, Repr

/-- The `loans` of one partner after a successful `fetchData` (Partners.js 37-41). -/
def fetchLoans (partnerId : Nat) (db : Db) : List LoanView :=
  (db.loans.filter (fun l => l.partner_id == partnerId)).map (fun l =>
    ({ toLoan := l, products := joinProduct db l.product_id } : LoanView))

/-- The body of the `forEach` of `calculateLoanTotals`. -/
def addLoan (acc : Home.Totals) (loan : LoanView) : Home.Totals :=
  match loan.products with
  | some products =>
      { totalPoints := acc.totalPoints + loan.quantity * products.points_per_unit
        totalPrice := acc.totalPrice + loan.quantity * products.price_per_unit }
  | none => acc

/-- Translation of `calculateLoanTotals` (Partners.js 56-66). -/
def calculateLoanTotals (loans : List LoanView) : Home.Totals :=
  loans.foldl addLoan { totalPoints := 0, totalPrice := 0 }

/-- The return paths of `handleDeleteLoan`; the result of the delete is not inspected. -/
inductive DeleteLoanOutcome where
  | declined
  | notLoggedIn
  | done
deriving DecidableEq, Repr

/-- Translation of `handleDeleteLoan` (Partners.js 207-227). `confirmed` is the answer to
`window.confirm`, `deleteFails` says whether the delete returns an error. -/
def handleDeleteLoan (confirmed deleteFails : Bool) (user : Option Nat) (loanId : Nat)
    (db : Db) : Db × DeleteLoanOutcome :=
  if confirmed then
    match user with
    | none => (db, .notLoggedIn)
    | some userId =>
      if deleteFails then (db, .done)
      else
        ({ db with loans := db.loans.filter (fun l =>
            !(l.id == loanId && l.user_id == userId)) },
          .done)
  else (db, .declined)

end Partners

/-! ## Reports.js: monthly sales -/

namespace Reports

/-- Translation of `calculateOrderTotals` (Reports.js 142-150): the `totalPrice` of the
object it returns; `products` is the page state. -/
def calculateOrderTotals (products : List Product) (orderItems : List OrderItem) : Int :=
  orderItems.foldl (fun totalPrice item =>
    let product := products.find? (fun p => some p.id == item.product_id)
    let pricePerUnit := jsOrNull item.price_at_sale
      (match product with
        | some p => p.price_per_unit
        | none => 0)
    totalPrice + pricePerUnit * item.quantity) 0

/-- The function `addLeadingZeros(number, targetLength)` of `date-fns`: the decimal digits of
`number`, with zeros in front up to `targetLength` characters. -/
def addLeadingZeros (number targetLength : Nat) : List Char :=
  let digits := Nat.toDigits 10 number
  List.replicate (targetLength - digits.length) (Char.ofNat 48) ++ digits

/-- The text `format(date, 'yyyy-MM')` for a date of the given year and month (`getMonth()`,
counted from 0): the year on at least four digits, a hyphen, the number of the month on two
digits. -/
def yearMonthKey (year : Nat) (month : Fin 12) : String :=
  String.mk (addLeadingZeros year 4 ++ [Char.ofNat 45] ++ addLeadingZeros (month.val + 1) 2)

/-- What the monthly report takes from `date-fns` and the time zone, as functions of instants
(which are not before the epoch, so years are positive): `year` and `month` are the year and
the month (from 0) of a date in local time, `monthLabel` is `format(date, 'MMM yyyy')`,
`startOfMonth` and `endOfMonth` are `startOfMonth(parseISO(m))` and `endOfMonth(parseISO(m))`
for the value `m` of a month field. `reversedInterval date start end` is the result of
`isWithinInterval(date, { start, end })` when `start` is after `end`, `none` standing for a
thrown `RangeError`: that case depends on the version of the library (version 2 throws,
later versions put the two bounds in order). -/
structure Calendar where
  year : Nat → Nat
  month : Nat → Fin 12
  monthLabel : Nat → String
  startOfMonth : String → Nat
  endOfMonth : String → Nat
  reversedInterval : Nat → Nat → Nat → Option Bool

/-- The key `format(date, 'yyyy-MM')` of the month of an instant. -/
def Calendar.monthKey (cal : Calendar) (date : Nat) : String :=
  yearMonthKey (cal.year date) (cal.month date)

/-- A row of the monthly report. -/
structure SalesRow where
  name : String
  totalSales : Int
deriving DecidableEq, Repr

/-- The function `isWithinInterval(date, { start, end })` of `date-fns`: the test
`start ≤ date ≤ end` when `start` is not after `end`. -/
def isWithinInterval (cal : Calendar) (date start endDate : Nat) : Option Bool :=
  if start ≤ endDate then some (decide (start ≤ date ∧ date ≤ endDate))
  else cal.reversedInterval date start endDate

/-- The value of `includeInReport` (Reports.js 109-114) for an order completed at
`completedDate`, `none` when `isWithinInterval` throws; an empty month field is falsy. -/
def includeInReport (cal : Calendar) (startMonth endMonth : String) (completedDate : Nat) :
    Option Bool :=
  if startMonth != "" && endMonth != "" then
    isWithinInterval cal completedDate (cal.startOfMonth startMonth)
      (cal.endOfMonth endMonth)
  else some true

/-- The two statements `if (!monthlySales[key]) monthlySales[key] = { name, totalSales: 0 }`
and `monthlySales[key].totalSales += totalPrice` (Reports.js 118-121) on the object
`monthlySales`, held as the list of its entries in insertion order. The keys are month keys,
which hold a hyphen: none is the name of an inherited property. -/
def addSale (monthlySales : List (String × SalesRow)) (monthYearKey monthYearLabel : String)
    (totalPrice : Int) : List (String × SalesRow) :=
  let created :=
    if monthlySales.any (fun e => e.1 == monthYearKey) then monthlySales
    else monthlySales ++ [(monthYearKey, { name := monthYearLabel, totalSales := 0 })]
  created.map (fun e =>
    if e.1 == monthYearKey then (e.1, { e.2 with totalSales := e.2.totalSales + totalPrice })
    else e)

/-- The body of the `forEach` over the fetched delivered orders (Reports.js 102-124) on the
object `monthlySales`; `none` when `isWithinInterval` throws. A stored `completed_at` is a
valid date. -/
def addOrder (cal : Calendar) (products : List Product) (startMonth endMonth : String)
    (monthlySales : List (String × SalesRow)) (order : OrderView) :
    Option (List (String × SalesRow)) :=
  match order.completed_at with
  | some completedDate =>
    (includeInReport cal startMonth endMonth completedDate).map (fun included =>
      if included then
        addSale monthlySales (cal.monthKey completedDate) (cal.monthLabel completedDate)
          (calculateOrderTotals products order.order_items)
      else monthlySales)
  | none => some monthlySales

/-- The object `monthlySales` after the `forEach` over the fetched delivered orders
(Reports.js 100-125); `none` when a call of the body throws, which ends `generateReport`. -/
def monthlySales (cal : Calendar) (products : List Product) (startMonth endMonth : String)
    (ordersData : List OrderView) : Option (List (String × SalesRow)) :=
  ordersData.foldl (fun acc order =>
    acc.bind (fun monthlySales => addOrder cal products startMonth endMonth monthlySales order))
    (some [])

/-- The rows of the monthly report, `Object.keys(monthlySales).sort().map(key =>
monthlySales[key])` (Reports.js 126); the default sort compares the keys as strings. -/
def monthlySalesReport (cal : Calendar) (products : List Product) (startMonth endMonth : String)
    (ordersData : List OrderView) : Option (List SalesRow) :=
  (monthlySales cal products startMonth endMonth ordersData).map (fun sales =>
    ((sales.map (fun e => e.1)).insertionSort (fun a b => a.toList ≤ b.toList)).filterMap
      (fun key => (sales.find? (fun e => e.1 == key)).map (fun e => e.2)))

/-- The orders fetched for the monthly report (Reports.js 90-94): the delivered orders of the
user with their `order_items`. -/
def fetchDeliveredOrders (userId : Nat) (db : Db) : List OrderView :=
  (db.orders.filter (fun o => o.status == .delivered && o.user_id == userId)).map (fun o =>
    ({ toOrder := o, order_items := db.order_items.filter (fun it => it.order_id == o.id) }
      : OrderView))

end Reports

/-! ## Objects: inherited properties and the order of the keys -/

/-- The names of the properties that an object created by `{}` inherits from
`Object.prototype` (ECMAScript, Annex B included). The value of each is a function, or the
prototype itself for `__proto__`, hence truthy. -/
def inheritedKeys : List String :=
  ["constructor", "__defineGetter__", "__defineSetter__", "hasOwnProperty",
    "__lookupGetter__", "__lookupSetter__", "isPrototypeOf", "propertyIsEnumerable",
    "toString", "valueOf", "__proto__", "toLocaleString"]

/-- The array index that a property key denotes, if it denotes one: the key is the decimal
form, without leading zeros, of a number below `2^32 - 1`. -/
def arrayIndex (key : String) : Option Nat :=
  let n := key.toList.foldl (fun acc c => 10 * acc + (c.toNat - 48)) 0
  if Nat.toDigits 10 n = key.toList ∧ n < 4294967295 then some n else none

/-- The order in which `Object.entries` and `Object.keys` list the own properties of an
object, given as the list of its entries in insertion order: first the keys that are array
indices, by ascending index, then the other keys in insertion order. -/
def objectEntries {β : Type} (object : List (String × β)) : List (String × β) :=
  (object.filter (fun e => (arrayIndex e.1).isSome)).insertionSort
      (fun a b => (arrayIndex a.1).getD 0 ≤ (arrayIndex b.1).getD 0) ++
    object.filter (fun e => (arrayIndex e.1).isNone)

/-! ## Stats.js -/

namespace Stats

/-- An order item as `fetchStatsData` receives it, with its nested `products`. -/
structure Item where
  quantity : Int
  products : Option ProductRef
deriving DecidableEq, Repr

/-- An order as `fetchStatsData` receives it
(`select('completed_at, order_items(*, products(...))')`). -/
structure SalesOrder where
  completed_at : Option Nat
  order_items : List Item
deriving DecidableEq, Repr

/-- A loan as `fetchStatsData` receives it
(`select('quantity, partners(name), products(...)')`); `partners` is the name of the nested
partner, null when there is none. -/
structure LoanRow where
  quantity : Int
  partners : Option String
  products : Option ProductRef
deriving DecidableEq, Repr

/-- What `processSalesData` takes from the JavaScript engine: `monthYear` is the key
`toLocaleString('es-ES', { month: 'short' })` followed by the year of an instant,
`monthsBack now i` is `new Date(now.getFullYear(), now.getMonth() - i, 1)`, and `sortMonths`
is `Array.prototype.sort` with the comparator of Stats.js 73-79 (it returns its argument
reordered). -/
structure Calendar where
  monthYear : Nat → String
  monthsBack : Nat → Nat → Nat
  sortMonths : List String → List String

/-- The value held for a month by `processSalesData`. -/
structure MonthTotals where
  soles : Int
  points : Int
deriving DecidableEq, Repr

/-- The argument of `setMonthlySalesData`. -/
structure MonthlySalesData where
  labels : List String
  soles : List Int
  points : List Int
deriving DecidableEq, Repr

/-- The assignment `monthlySales[key] = value` on an object held as the list of its entries
in insertion order. -/
def assign (monthlySales : List (String × MonthTotals)) (key : String) (value : MonthTotals) :
    List (String × MonthTotals) :=
  if monthlySales.any (fun e => e.1 == key) then
    monthlySales.map (fun e => if e.1 == key then (e.1, value) else e)
  else monthlySales ++ [(key, value)]

/-- The object `monthlySales` after the `for` loop of `processSalesData` (Stats.js 53-57). -/
def initialMonths (cal : Calendar) (now : Nat) : List (String × MonthTotals) :=
  (List.range 12).foldl (fun acc i =>
    assign acc (cal.monthYear (cal.monthsBack now i)) { soles := 0, points := 0 }) []

/-- The body of the inner `forEach` of `processSalesData` (Stats.js 64-69). -/
def addItem (monthYear : String) (monthlySales : List (String × MonthTotals)) (item : Item) :
    List (String × MonthTotals) :=
  match item.products with
  | some products =>
      monthlySales.map (fun e =>
        if e.1 == monthYear then
          (e.1, { soles := e.2.soles + item.quantity * products.price_per_unit
                  points := e.2.points + item.quantity * products.points_per_unit })
        else e)
  | none => monthlySales

/-- The body of the outer `forEach` of `processSalesData` (Stats.js 59-71);
`new Date(null)` is the instant 0. -/
def addOrder (cal : Calendar) (monthlySales : List (String × MonthTotals))
    (order : SalesOrder) : List (String × MonthTotals) :=
  let monthYear := cal.monthYear (order.completed_at.getD 0)
  if monthlySales.any (fun e => e.1 == monthYear) then
    order.order_items.foldl (addItem monthYear) monthlySales
  else monthlySales

/-- Translation of `processSalesData` (Stats.js 50-86): the argument it gives to
`setMonthlySalesData`; `now` is `new Date()`. -/
def processSalesData (cal : Calendar) (now : Nat) (orders : List SalesOrder) :
    MonthlySalesData :=
  let monthlySales := orders.foldl (addOrder cal) (initialMonths cal now)
  let sortedMonths := cal.sortMonths (monthlySales.map (fun e => e.1))
  let value := fun (month : String) =>
    ((monthlySales.find? (fun e => e.1 == month)).map (fun e => e.2)).getD
      { soles := 0, points := 0 }
  { labels := sortedMonths
    soles := sortedMonths.map (fun month => (value month).soles)
    points := sortedMonths.map (fun month => (value month).points) }

/-- The value held for a partner by `processPartnerLoanData`. -/
structure PartnerTotals where
  quantity : Int
  points : Int
  price : Int
deriving DecidableEq, Repr

/-- An element of the list given to `setPartnerLoanData`. -/
structure PartnerEntry where
  name : String
  quantity : Int
  points : Int
  price : Int
deriving DecidableEq, Repr

/-- The body of the `forEach` of `processPartnerLoanData` (Stats.js 90-100) on the object
`partnerLoans`, held as the list of its own entries in insertion order. For a partner whose
name is the name of an inherited property, `partnerLoans[partnerName]` is that inherited
value, which is truthy: no entry is created and the three `+=` write on the inherited value,
so the own entries stay as they are. -/
def addLoan (partnerLoans : List (String × PartnerTotals)) (loan : LoanRow) :
    List (String × PartnerTotals) :=
  match loan.partners, loan.products with
  | some partnerName, some products =>
      if partnerName ∈ inheritedKeys then partnerLoans
      else
        let created :=
          if partnerLoans.any (fun e => e.1 == partnerName) then partnerLoans
          else partnerLoans ++ [(partnerName, { quantity := 0, points := 0, price := 0 })]
        created.map (fun e =>
          if e.1 == partnerName then
            (e.1, { quantity := e.2.quantity + loan.quantity
                    points := e.2.points + loan.quantity * products.points_per_unit
                    price := e.2.price + loan.quantity * products.price_per_unit })
          else e)
  | _, _ => partnerLoans

/-- Translation of `processPartnerLoanData` (Stats.js 88-108): the list it gives to
`setPartnerLoanData`. `Object.entries` lists the entries, the sort is stable and its
comparator `b.quantity - a.quantity` puts the larger quantity first. -/
def processPartnerLoanData (loans : List LoanRow) : List PartnerEntry :=
  ((objectEntries (loans.foldl addLoan [])).insertionSort
      (fun a b => b.2.quantity ≤ a.2.quantity)).map
    (fun e =>
      { name := e.1, quantity := e.2.quantity, points := e.2.points, price := e.2.price })

end Stats

/-! ## Number inputs and form constraints -/

/-- The code points of `StrWhiteSpaceChar`, which `parseInt` skips at the start of its
argument. -/
def isJsWhiteSpace (c : Char) : Bool :=
  [9, 10, 11, 12, 13, 32, 160, 5760, 8232, 8233, 8239, 8287, 12288, 65279].contains c.toNat ||
    (decide (8192 ≤ c.toNat) && decide (c.toNat ≤ 8202))

/-- The value of a character as a digit in the given radix, if it is one. -/
def digitValue (radix : Nat) (c : Char) : Option Nat :=
  let v : Option Nat :=
    if 48 ≤ c.toNat ∧ c.toNat ≤ 57 then some (c.toNat - 48)
    else if 97 ≤ c.toNat ∧ c.toNat ≤ 122 then some (c.toNat - 87)
    else if 65 ≤ c.toNat ∧ c.toNat ≤ 90 then some (c.toNat - 55)
    else none
  v.filter (fun d => decide (d < radix))

/-- The values of the longest prefix of digits of the given radix. -/
def leadingDigits (radix : Nat) : List Char → List Nat
  | [] => []
  | c :: cs =>
    match digitValue radix c with
    | some d => d :: leadingDigits radix cs
    | none => []

/-- The JavaScript `parseInt(string)` called with no radix: leading white space is skipped, a
sign is read (code points 45 and 43), the prefix `0x` or `0X` (48 then 120 or 88) selects
radix 16, and the longest prefix of digits is the value; `none` is `NaN`, returned when there
is no digit. -/
def parseInt (s : String) : Option Int :=
  let trimmed := s.toList.dropWhile isJsWhiteSpace
  let negative := (trimmed.head?.map Char.toNat) == some 45
  let unsigned :=
    if (trimmed.head?.map Char.toNat) == some 45 || (trimmed.head?.map Char.toNat) == some 43
    then trimmed.tail else trimmed
  let hex := ((unsigned.take 2).map Char.toNat) == [48, 120] ||
    ((unsigned.take 2).map Char.toNat) == [48, 88]
  let radix := if hex then 16 else 10
  let body := if hex then unsigned.drop 2 else unsigned
  match leadingDigits radix body with
  | [] => none
  | d :: ds =>
    let n : Int := ((d :: ds).foldl (fun acc v => acc * radix + v) 0 : Nat)
    some (if negative then -n else n)

namespace Home

/-- The value that the `onChange` of a quantity input gives to `handleProductChange`
(Home.js 344): `parseInt(e.target.value) || 1`. -/
def quantityFromInput (value : String) : Int := jsOrNull (parseInt value) 1

/-- The third argument of `handleProductChange` with its second: the field and its value. -/
inductive FieldChange where
  | productId (value : Option Nat)
  | quantity (value : Int)
deriving DecidableEq, Repr

/-- Translation of `handleProductChange` (Home.js 150-154): the new `selectedProducts`. The
index is the one of a rendered line. -/
def handleProductChange (index : Nat) (change : FieldChange)
    (selectedProducts : List SelectedProduct) : List SelectedProduct :=
  selectedProducts.mapIdx (fun i item =>
    if i = index then
      match change with
      | .productId value => { item with productId := value }
      | .quantity value => { item with quantity := value }
    else item)

/-- The constraints of the new order form that depend on the modelled state (Home.js 302-349):
the customer select and each product select are `required`, each quantity input has
`min="1"`. The browser fires `onSubmit` only when they hold. -/
def orderFormValid (selectedCustomer : Option Nat) (selectedProducts : List SelectedProduct) :
    Bool :=
  selectedCustomer.isSome &&
    selectedProducts.all (fun item => item.productId.isSome && decide (1 ≤ item.quantity))

/-- A click on the submit button of the new order form: `handleCreateOrder` runs when the
form is valid, nothing happens otherwise. -/
def submitOrderForm (f : CreateFaults) (newOrderId : Nat) (user : Option Nat)
    (products : List Product) (selectedCustomer : Option Nat)
    (selectedProducts : List SelectedProduct) (deliveryDate : Nat) (isPaidNewOrder : Bool)
    (db : Db) : Option (Db × CreateOutcome) :=
  if orderFormValid selectedCustomer selectedProducts then
    some (handleCreateOrder f newOrderId user products selectedCustomer selectedProducts
      deliveryDate isPaidNewOrder db)
  else none

end Home

namespace Inventory

/-- The value that the `onChange` of the quantity input gives to `setProductQuantity`
(Inventory.js 264): `parseInt(e.target.value) || 0`. -/
def quantityFromInput (value : String) : Int := jsOrNull (parseInt value) 0

/-- The constraints of the product form (Inventory.js 246-293): the name is `required`, the
quantity, price and points inputs have `min="0"`. The browser fires `onSubmit` only when they
hold. -/
def productFormValid (productName : String) (productQuantity productPrice productPoints : Int) :
    Bool :=
  productName != "" && decide (0 ≤ productQuantity) && decide (0 ≤ productPrice) &&
    decide (0 ≤ productPoints)

/-- A click on the submit button of the product form: `handleSubmitProduct` runs when the form
is valid, nothing happens otherwise. -/
def submitProductForm (writeFails : Bool) (newProductId : Nat) (user : Option Nat)
    (currentProduct : Option Product) (productName : String)
    (productQuantity productPrice productPoints : Int) (db : Db) :
    Option (Db × SubmitOutcome) :=
  if productFormValid productName productQuantity productPrice productPoints then
    some (handleSubmitProduct writeFails newProductId user currentProduct productName
      productQuantity productPrice productPoints db)
  else none

end Inventory

/-! ## History.js -/

namespace History

/-- Translation of `getProductDetails` (History.js 69-71); `products` is the page state. -/
def getProductDetails (products : List Product) (productId : Option Nat) : Option Product :=
  products.find? (fun p => some p.id == productId)

/-- Translation of `calculateOrderTotals` (History.js 73-84). -/
def calculateOrderTotals (products : List Product) (orderItems : List OrderItem) :
    Home.Totals :=
  orderItems.foldl (fun acc item =>
    match getProductDetails products item.product_id with
    | some product =>
        { totalPoints := acc.totalPoints +
            item.quantity * jsOrNull item.points_at_sale product.points_per_unit
          totalPrice := acc.totalPrice +
            item.quantity * jsOrNull item.price_at_sale product.price_per_unit }
    | none => acc) { totalPoints := 0, totalPrice := 0 }

/-- The points shown on the line of an item (History.js 216):
`item.quantity * (item.points_at_sale || product?.points_per_unit || 0)`. -/
def linePoints (products : List Product) (item : OrderItem) : Int :=
  item.quantity * jsOrNull item.points_at_sale
    (jsOrNull ((getProductDetails products item.product_id).map
      (fun p => p.points_per_unit)) 0)

/-- The price shown on the line of an item (History.js 217):
`item.quantity * (item.price_at_sale || product?.price_per_unit || 0)`. -/
def linePrice (products : List Product) (item : OrderItem) : Int :=
  item.quantity * jsOrNull item.price_at_sale
    (jsOrNull ((getProductDetails products item.product_id).map
      (fun p => p.price_per_unit)) 0)

end History

/-! ## Reports.js: pages of the PDF -/

namespace Reports

/-- The constant `pageHeight` of `handleDownloadPDF` (Reports.js 172), in millimetres. -/
def pageHeight : ℚ := 297

/-- The `while (heightLeft >= 0)` loop of `handleDownloadPDF` (Reports.js 180-185), entered
with the given `heightLeft`: the vertical positions at which the image is put on the pages it
adds, one per pass. Heights are exact rationals. -/
def addPages (imgHeight : ℚ) (heightLeft : ℚ) : List ℚ :=
  if 0 ≤ heightLeft then
    (heightLeft - imgHeight) :: addPages imgHeight (heightLeft - pageHeight)
  else []
termination_by (⌊heightLeft / 297⌋ + 1).toNat
decreasing_by
  rename_i h
  have h1 : (heightLeft - pageHeight) / 297 = heightLeft / 297 - 1 := by
    unfold pageHeight
    ring
  have h2 : (0 : ℤ) ≤ ⌊heightLeft / 297⌋ := Int.floor_nonneg.mpr (by positivity)
  rw [h1, Int.floor_sub_one]
  omega

/-- The vertical positions of the image on the pages of the PDF, first page first
(Reports.js 174-185): the first `addImage` at position 0, then the loop entered with
`imgHeight - pageHeight`. -/
def pagePositions (imgHeight : ℚ) : List ℚ :=
  0 :: addPages imgHeight (imgHeight - pageHeight)

end Reports

/-! ## Stats.js: what `fetchStatsData` reads -/

namespace Stats

/-- The orders that `fetchStatsData` gives to `processSalesData` (Stats.js 24-28): the
delivered orders completed in the last 365 days, with their items and the nested products. The
query has no `.eq('user_id', ...)`. -/
def fetchSalesOrders (now : Nat) (db : Db) : List SalesOrder :=
  (db.orders.filter (fun o =>
      o.status == .delivered &&
        (match o.completed_at with
          | some t => decide ((now : Int) - 365 * dayMs ≤ (t : Int))
          | none => false))).map
    (fun o =>
      { completed_at := o.completed_at
        order_items := (db.order_items.filter (fun it => it.order_id == o.id)).map (fun it =>
          { quantity := it.quantity, products := joinProduct db it.product_id }) })

/-- The loans that `fetchStatsData` gives to `processPartnerLoanData` (Stats.js 37-39), with
the name of the nested partner and the nested product. Table `partners` is not part of the
modelled store: `partnerName` gives the name of the partner with a given id. The query has no
`.eq('user_id', ...)`. -/
def fetchLoanRows (partnerName : Nat → Option String) (db : Db) : List LoanRow :=
  db.loans.map (fun l =>
    { quantity := l.quantity
      partners := partnerName l.partner_id
      products := joinProduct db l.product_id })

end Stats

/-! ## Sums used in the statements -/

/-- Sum over stored order items of `quantity × price_at_sale` (a null snapshot counts 0). -/
def sumPriceAtSale (items : List OrderItem) : Int :=
  (items.map (fun it => it.quantity * it.price_at_sale.getD 0)).sum

/-- Sum over stored order items of `quantity × points_at_sale` (a null snapshot counts 0). -/
def sumPointsAtSale (items : List OrderItem) : Int :=
  (items.map (fun it => it.quantity * it.points_at_sale.getD 0)).sum

/-- Sum of the quantities of the order lines that reference product `pid`. -/
def lineQuantity (items : List OrderItem) (pid : Nat) : Int :=
  ((items.filter (fun it => it.product_id == some pid)).map (fun it => it.quantity)).sum

/-- Whether table `products` has a row of the user for the product that an order line
references: when it has none, the lookup of the delivery loop fails and the line is skipped. -/
def hasProduct (userId : Nat) (products : List Product) (item : OrderItem) : Bool :=
  products.any (fun p => some p.id == item.product_id && p.user_id == userId)

namespace Reports

/-- Whether an instant is inside the selected range, from the start of the start month to the
end of the end month, both included; every instant is when a month field is empty. -/
def inSelectedRange (cal : Calendar) (startMonth endMonth : String) (t : Nat) : Bool :=
  startMonth == "" || endMonth == "" ||
    decide (cal.startOfMonth startMonth ≤ t ∧ t ≤ cal.endOfMonth endMonth)

/-- The orders of a list that are completed in the month of key `key` and inside the selected
range. -/
def ordersOfMonth (cal : Calendar) (startMonth endMonth key : String)
    (ordersData : List OrderView) : List OrderView :=
  ordersData.filter (fun order =>
    match order.completed_at with
    | some completedDate =>
      inSelectedRange cal startMonth endMonth completedDate && cal.monthKey completedDate == key
    | none => false)

/-- One step of the grouping by month: the order, when completed inside the selected range,
adds `total order` under the key of its month. -/
def addOrderWith (cal : Calendar) (startMonth endMonth : String) (total : OrderView → Int)
    (acc : List (String × SalesRow)) (order : OrderView) : List (String × SalesRow) :=
  match order.completed_at with
  | some completedDate =>
    if inSelectedRange cal startMonth endMonth completedDate then
      addSale acc (cal.monthKey completedDate) (cal.monthLabel completedDate) (total order)
    else acc
  | none => acc

/-- Sum of `totalSales` over the entries of `monthlySales` under the key `key`. -/
def keyTotal (sales : List (String × SalesRow)) (key : String) : Int :=
  ((sales.filter (fun e => e.1 == key)).map (fun e => e.2.totalSales)).sum

end Reports

/-- The two statements "create the entry of `key` with `init` if there is none" and "apply
`upd` to the entry of `key`" on an object held as the list of its entries: the common shape of
`Reports.addSale` and `Stats.addLoan`. -/
def upsert {β : Type} (init : β) (upd : β → β) (m : List (String × β)) (key : String) :
    List (String × β) :=
  (if m.any (fun e => e.1 == key) then m else m ++ [(key, init)]).map (fun e =>
    if e.1 == key then (e.1, upd e.2) else e)

/-- Sum of the measure `μ` over the entries of an object under the key `key`. -/
def keySum {β : Type} (μ : β → Int) (m : List (String × β)) (key : String) : Int :=
  ((m.filter (fun e => e.1 == key)).map (fun e => μ e.2)).sum

namespace Stats

/-- Whether a loan passes the test `loan.partners && loan.products`. -/
def counted (loan : LoanRow) : Bool := loan.partners.isSome && loan.products.isSome

/-- Whether a loan has a partner and a product and the name of the partner is not the name of
an inherited property. -/
def listed (loan : LoanRow) : Bool :=
  match loan.partners with
  | some name => loan.products.isSome && decide (name ∉ inheritedKeys)
  | none => false

/-- The loans, with a product, of the partners named `name`. -/
def loansOf (name : String) (loans : List LoanRow) : List LoanRow :=
  loans.filter (fun l => l.partners == some name && l.products.isSome)

/-- The points of a loan as `processPartnerLoanData` values it: quantity times the current
`points_per_unit` of the nested product. -/
def loanPoints (loan : LoanRow) : Int :=
  loan.quantity * ((loan.products.map (fun p => p.points_per_unit)).getD 0)

/-- The price of a loan as `processPartnerLoanData` values it: quantity times the current
`price_per_unit` of the nested product. -/
def loanPrice (loan : LoanRow) : Int :=
  loan.quantity * ((loan.products.map (fun p => p.price_per_unit)).getD 0)

/-- The invariant of the `forEach` of `processPartnerLoanData`, between the object
`partnerLoans` and the loans already visited: the names are distinct and none is inherited,
under each name that is not inherited stand the sums over the loans under that name, the
quantities add up to the quantity of all listed loans, and the names are those of the listed
loans. -/
def LoopInvariant (partnerLoans : List (String × PartnerTotals)) (done : List LoanRow) : Prop :=
  (partnerLoans.map Prod.fst).Nodup ∧
  (∀ k, k ∉ inheritedKeys → keySum (fun t : PartnerTotals => t.quantity) partnerLoans k =
    ((loansOf k done).map (fun l => l.quantity)).sum) ∧
  (∀ k, k ∉ inheritedKeys → keySum (fun t : PartnerTotals => t.points) partnerLoans k =
    ((loansOf k done).map loanPoints).sum) ∧
  (∀ k, k ∉ inheritedKeys → keySum (fun t : PartnerTotals => t.price) partnerLoans k =
    ((loansOf k done).map loanPrice).sum) ∧
  (partnerLoans.map (fun e => e.2.quantity)).sum =
    ((done.filter listed).map (fun l => l.quantity)).sum ∧
  (∀ l ∈ done, ∀ n, l.partners = some n → l.products.isSome = true → n ∉ inheritedKeys →
    n ∈ partnerLoans.map Prod.fst) ∧
  (∀ k ∈ partnerLoans.map Prod.fst,
    k ∉ inheritedKeys ∧ ∃ l ∈ done, l.partners = some k ∧ l.products.isSome = true)

end Stats

namespace Reports

/-- The keys of the object `monthlySales` in the order of the report rows:
`Object.keys(monthlySales).sort()`. -/
def reportKeys (sales : List (String × SalesRow)) : List String :=
  (sales.map (fun e => e.1)).insertionSort (fun a b => a.toList ≤ b.toList)

end Reports

namespace Home

/-- The stores reached from a store whose orders are all as `handleCreateOrder` creates them
(status pending, `completed_at` null) by calls of `handleCreateOrder`,
`handleUpdateOrderStatus` and `handleTogglePaidStatus`, with any arguments and any outcome of
their Supabase calls. -/
inductive Reachable : Db → Prop where
  | fresh (db : Db) (h : ∀ o ∈ db.orders, o.status = .pending ∧ o.completed_at = none) :
      Reachable db
  | create (f : CreateFaults) (newOrderId : Nat) (user : Option Nat) (products : List Product)
      (selectedCustomer : Option Nat) (selectedProducts : List SelectedProduct)
      (deliveryDate : Nat) (isPaidNewOrder : Bool) (db : Db) (h : Reachable db) :
      Reachable (handleCreateOrder f newOrderId user products selectedCustomer selectedProducts
        deliveryDate isPaidNewOrder db).1
  | updateStatus (f : UpdateFaults) (now : Nat) (user : Option Nat) (orders : List OrderView)
      (orderId : Nat) (status : Status) (db : Db) (h : Reachable db) :
      Reachable (handleUpdateOrderStatus f now user orders orderId status db).1
  | togglePaid (updateFails : Bool) (user : Option Nat) (orderId : Nat)
      (currentPaidStatus : Bool) (db : Db) (h : Reachable db) :
      Reachable (handleTogglePaidStatus updateFails user orderId currentPaidStatus db).1

/-- One awaited call of a pass of the stock loop (Home.js 100-122) made by one of two
deliveries of a single line on the same product: the read of the quantity (101-106) or the
write of the new quantity (115-119). `false` names the first delivery, `true` the second. -/
inductive RaceStep where
  | read (second : Bool)
  | write (second : Bool)
deriving DecidableEq, Repr

/-- The stored quantity of the product, the quantity each delivery holds in
`currentProductData` once it has read, and whether each delivery has written. -/
structure RaceState where
  quantity : Int
  heldFirst : Option Int
  heldSecond : Option Int
  wroteFirst : Bool
  wroteSecond : Bool
deriving DecidableEq, Repr

/-- Effect of one call; the lines ask `qFirst` and `qSecond` units. The write stores
`currentProductData.quantity - item.quantity`, computed from the quantity read before. -/
def raceStep (qFirst qSecond : Int) (s : RaceState) : RaceStep → RaceState
  | .read false => { s with heldFirst := some s.quantity }
  | .read true => { s with heldSecond := some s.quantity }
  | .write false =>
    match s.heldFirst with
    | some current => { s with quantity := current - qFirst, wroteFirst := true }
    | none => s
  | .write true =>
    match s.heldSecond with
    | some current => { s with quantity := current - qSecond, wroteSecond := true }
    | none => s

/-- The state after the calls of a schedule, from the stored quantity `n`. -/
def runRace (qFirst qSecond n : Int) (schedule : List RaceStep) : RaceState :=
  schedule.foldl (raceStep qFirst qSecond)
    { quantity := n, heldFirst := none, heldSecond := none, wroteFirst := false,
      wroteSecond := false }

/-- The six interleavings of the read and write of two deliveries. -/
def interleavings : List (List RaceStep) :=
  [[.read false, .write false, .read true, .write true],
   [.read false, .read true, .write false, .write true],
   [.read false, .read true, .write true, .write false],
   [.read true, .read false, .write false, .write true],
   [.read true, .read false, .write true, .write false],
   [.read true, .write true, .read false, .write false]]

end Home

/-! ## A concrete store

Product P of user 1 with quantity 5, price 10 and points 3; order 1 with the line (P, 5) and
order 2 with the line (P, 1), both pending. -/

namespace Scenario

/-- Product P. -/
def P : Product :=
  { id := 1, user_id := 1, name := "P", quantity := 5, price_per_unit := 10,
    points_per_unit := 3 }

/-- Order 1, with the line (P, 5). -/
def order1 : Order :=
  { id := 1, user_id := 1, customer_id := some 1, delivery_date := 10,
    total_points := some 15, total_price := some 50, status := .pending, is_paid := false,
    completed_at := none }

/-- Order 2, with the line (P, 1). -/
def order2 : Order :=
  { id := 2, user_id := 1, customer_id := some 1, delivery_date := 11,
    total_points := some 3, total_price := some 10, status := .pending, is_paid := false,
    completed_at := none }

/-- The line of order 1. -/
def line1 : OrderItem :=
  { order_id := 1, product_id := some 1, quantity := 5, points_at_sale := some 3,
    price_at_sale := some 10 }

/-- The line of order 2. -/
def line2 : OrderItem :=
  { order_id := 2, product_id := some 1, quantity := 1, points_at_sale := some 3,
    price_at_sale := some 10 }

/-- The store before any delivery. -/
def db0 : Db :=
  { products := [P], orders := [order1, order2], order_items := [line1, line2], loans := [] }

/-- The store once order 1 has been delivered at instant 1000: P is at quantity 0. -/
def db1 : Db :=
  { products := [{ P with quantity := 0 }]
    orders := [{ order1 with status := .delivered, is_paid := true, completed_at := some 1000 },
      order2]
    order_items := [line1, line2]
    loans := [] }

/-- Order 1 as the page holds it once delivered. -/
def deliveredView1 : OrderView :=
  { id := 1, user_id := 1, customer_id := some 1, delivery_date := 10,
    total_points := some 15, total_price := some 50, status := .delivered, is_paid := true,
    completed_at := some 1000, order_items := [line1] }

/-- Order 1 as the page holds it while pending. -/
def pendingView1 : OrderView :=
  { id := 1, user_id := 1, customer_id := some 1, delivery_date := 10,
    total_points := some 15, total_price := some 50, status := .pending, is_paid := false,
    completed_at := none, order_items := [line1] }

/-- The instant `now` of the dashboard examples: 60 days and 1000 ms. -/
def dashboardNow : Nat := 5184001000

/-- The function `subDays` in a time zone whose days all have 24 hours, such as UTC. -/
def subDaysUtc (date amount : Nat) : Int := (date : Int) - amount * dayMs

/-- A clock that stands still: every `new Date()` of the dashboard gives `dashboardNow`. -/
def dashboardClock (_ : Nat) : Nat := dashboardNow

/-- A delivered order completed 59 days and 23 hours and a half before `dashboardNow`. -/
def completedInSummerTime : OrderView :=
  { id := 7, user_id := 1, customer_id := some 1, delivery_date := 10,
    total_points := some 6, total_price := some 20, status := .delivered, is_paid := true,
    completed_at := some 1801000, order_items := [] }

/-- The function `subDays` in a time zone where the 60 days before `dashboardNow` hold a
change to summer time: the same local time of day 60 calendar days earlier is one hour less
than 60 times 24 hours away. -/
def subDaysAcrossChange (date amount : Nat) : Int :=
  (date : Int) - amount * dayMs + 60 * 60 * 1000

/-- A delivered order completed exactly 60 days before `dashboardNow`. -/
def completedAtWindowStart : OrderView :=
  { id := 3, user_id := 1, customer_id := some 1, delivery_date := 10,
    total_points := some 15, total_price := some 50, status := .delivered, is_paid := true,
    completed_at := some 1000, order_items := [] }

/-- A delivered order whose `completed_at` is `dashboardNow` itself. -/
def completedAtNow : OrderView :=
  { id := 4, user_id := 1, customer_id := some 1, delivery_date := 10,
    total_points := some 3, total_price := some 10, status := .delivered, is_paid := true,
    completed_at := some 5184001000, order_items := [] }

/-- A line of order 1 on a product 99 that is not stored. -/
def lineMissing : OrderItem :=
  { order_id := 1, product_id := some 99, quantity := 3, points_at_sale := some 0,
    price_at_sale := some 0 }

/-- Order 1 as a page holds it with the line on the missing product before the line (P, 5). -/
def mixedView : OrderView :=
  { id := 1, user_id := 1, customer_id := some 1, delivery_date := 10,
    total_points := some 15, total_price := some 50, status := .pending, is_paid := false,
    completed_at := none, order_items := [lineMissing, line1] }

/-- A calendar of the year 2024 with three months: March is the instants 0 to 2999, April
the instants 3000 to 5999, May the instants from 6000 on. `isWithinInterval` throws on a
reversed interval. -/
def calendar : Reports.Calendar :=
  { year := fun _ => 2024
    month := fun t => if t < 3000 then 2 else if t < 6000 then 3 else 4
    monthLabel := fun t =>
      if t < 3000 then "Mar 2024" else if t < 6000 then "Apr 2024" else "May 2024"
    startOfMonth := fun m => if m = "2024-03" then 0 else if m = "2024-04" then 3000 else 6000
    endOfMonth := fun m =>
      if m = "2024-03" then 2999 else if m = "2024-04" then 5999 else 8999
    reversedInterval := fun _ _ _ => none }

/-- A delivered order, completed in March, stored with total price 50 while its only line is
5 units at the snapshot price 7. -/
def storedFifty : OrderView :=
  { id := 5, user_id := 1, customer_id := some 1, delivery_date := 10,
    total_points := some 15, total_price := some 50, status := .delivered, is_paid := true,
    completed_at := some 1000,
    order_items := [{ line1 with order_id := 5, price_at_sale := some 7 }] }

/-- A delivered order, completed in March, of 5 units of P sold while the price of P was 0:
the snapshot price and the stored total price are 0. -/
def soldAtZero : OrderView :=
  { id := 6, user_id := 1, customer_id := some 1, delivery_date := 10,
    total_points := some 15, total_price := some 0, status := .delivered, is_paid := true,
    completed_at := some 1000,
    order_items := [{ line1 with order_id := 6, price_at_sale := some 0 }] }

/-- Order 1 as the monthly report fetches it once delivered in March. -/
def deliveredMarch : OrderView :=
  { id := 1, user_id := 1, customer_id := some 1, delivery_date := 10,
    total_points := some 15, total_price := some 50, status := .delivered, is_paid := true,
    completed_at := some 1000, order_items := [line1] }

/-- A line of 2 units of P whose price snapshot is 0. -/
def zeroSnapshotLine : OrderItem :=
  { order_id := 6, product_id := some 1, quantity := 2, points_at_sale := some 3,
    price_at_sale := some 0 }

/-- Product P at quantity 10, before any loan. -/
def db10 : Db :=
  { products := [{ P with quantity := 10 }], orders := [], order_items := [], loans := [] }

/-- Store `db10` after `handleSubmitLoan` has lent 4 units of P to partner 3 (loan 1, with
snapshots 3 and 10). -/
def dbLoan : Db :=
  { products := [{ P with quantity := 6 }], orders := [], order_items := []
    loans := [{ id := 1, user_id := 1, partner_id := 3, product_id := some 1, quantity := 4,
                points_at_loan := 3, price_at_loan := 10, loan_date := 77 }] }

/-- Store `dbLoan` after `handleSubmitProduct` has set P to price 12 and points 4. -/
def dbLoanEdited : Db :=
  { dbLoan with
    products := [{ P with quantity := 6, price_per_unit := 12, points_per_unit := 4 }] }

/-- A cancelled order with totals, as the dashboard holds it. -/
def cancelledView : OrderView :=
  { id := 7, user_id := 1, customer_id := some 1, delivery_date := 10,
    total_points := some 100, total_price := some 1000, status := .cancelled, is_paid := false,
    completed_at := none, order_items := [] }

/-- A pending order stored without totals, as the dashboard holds it. -/
def pendingNoTotals : OrderView :=
  { id := 8, user_id := 1, customer_id := some 1, delivery_date := 10,
    total_points := none, total_price := none, status := .pending, is_paid := false,
    completed_at := none, order_items := [] }

/-- The line of order 2 when it asks 5 units of P. -/
def line2Five : OrderItem :=
  { order_id := 2, product_id := some 1, quantity := 5, points_at_sale := some 3,
    price_at_sale := some 10 }

/-- P at quantity 5 and two pending orders that each ask 5 units of P. -/
def dbRace : Db :=
  { products := [P], orders := [order1, order2], order_items := [line1, line2Five],
    loans := [] }

/-- Store `dbRace` once order 1 has been delivered at instant 1000. -/
def dbRace1 : Db :=
  { products := [{ P with quantity := 0 }]
    orders := [{ order1 with status := .delivered, is_paid := true, completed_at := some 1000 },
      order2]
    order_items := [line1, line2Five]
    loans := [] }

/-- A store with rows of account 1 only: product P. -/
def dbA : Db :=
  { products := [P], orders := [], order_items := [], loans := [] }

/-- A product of account 2. -/
def productB : Product :=
  { id := 2, user_id := 2, name := "Q", quantity := 9, price_per_unit := 20,
    points_per_unit := 4 }

/-- A delivered order of account 2, completed at instant 1000. -/
def orderB : Order :=
  { id := 9, user_id := 2, customer_id := some 4, delivery_date := 10,
    total_points := some 12, total_price := some 60, status := .delivered, is_paid := true,
    completed_at := some 1000 }

/-- The line of the order of account 2. -/
def lineB : OrderItem :=
  { order_id := 9, product_id := some 2, quantity := 3, points_at_sale := some 4,
    price_at_sale := some 20 }

/-- A loan of account 2, to partner 8. -/
def loanB : Loan :=
  { id := 5, user_id := 2, partner_id := 8, product_id := some 2, quantity := 7,
    points_at_loan := 4, price_at_loan := 20, loan_date := 70 }

/-- The rows of account 1 of store `dbA`, and rows of account 2. -/
def dbAB : Db :=
  { products := [P, productB], orders := [orderB], order_items := [lineB], loans := [loanB] }

/-- The names of the partners: partner 8 is "Socio B". -/
def partnerName (partnerId : Nat) : Option String :=
  if partnerId = 8 then some "Socio B" else none

/-- Three delivered orders: order 1 completed in April (instant 4000), order 2 in March
(instant 1000) and an order 3, without items, in May (instant 7000). -/
def dbThreeMonths : Db :=
  { products := [P]
    orders := [{ order1 with status := .delivered, completed_at := some 4000 },
      { order2 with status := .delivered, completed_at := some 1000 },
      { order2 with id := 3, status := .delivered, completed_at := some 7000 }]
    order_items := [line1, line2]
    loans := [] }

/-- Order 1 as the monthly report fetches it once delivered in May. -/
def deliveredMay : OrderView :=
  { id := 8, user_id := 1, customer_id := some 1, delivery_date := 10,
    total_points := some 15, total_price := some 50, status := .delivered, is_paid := true,
    completed_at := some 7000, order_items := [line1] }

/-- A loan of 3 units of P to partner 11. -/
def loanTo11 : Loan :=
  { id := 21, user_id := 1, partner_id := 11, product_id := some 1, quantity := 3,
    points_at_loan := 3, price_at_loan := 10, loan_date := 70 }

/-- A loan of 4 units of P to partner 12. -/
def loanTo12 : Loan :=
  { id := 22, user_id := 1, partner_id := 12, product_id := some 1, quantity := 4,
    points_at_loan := 3, price_at_loan := 10, loan_date := 71 }

/-- A store of account 1 with one loan to each of the partners 11 and 12. -/
def dbNamesakes : Db :=
  { products := [P], orders := [], order_items := [], loans := [loanTo11, loanTo12] }

/-- Two partners with the same name: the partners 11 and 12 are both called "Ana". -/
def namesakes (partnerId : Nat) : Option String :=
  if partnerId = 11 ∨ partnerId = 12 then some "Ana" else none

/-- Loans of 10 units to a partner "Ana", of 5 units to a partner "constructor", of 2 units
to a partner "7" and of 2 units to a partner "Zoe", all of a product with 3 points and the
price 10. -/
def loanRows : List Stats.LoanRow :=
  [{ quantity := 2, partners := some "Zoe",
     products := some { points_per_unit := 3, price_per_unit := 10 } },
   { quantity := 5, partners := some "constructor",
     products := some { points_per_unit := 3, price_per_unit := 10 } },
   { quantity := 2, partners := some "7",
     products := some { points_per_unit := 3, price_per_unit := 10 } },
   { quantity := 10, partners := some "Ana",
     products := some { points_per_unit := 3, price_per_unit := 10 } }]

end Scenario

/-! ## Order creation -/

namespace Home

theorem addItem_toItem (products : List Product) (acc : Totals) (s : SelectedProduct) :
    addItem products acc s.toItem =
      { totalPoints := acc.totalPoints +
          s.quantity * ((orderItemFor products 0 s).points_at_sale.getD 0)
        totalPrice := acc.totalPrice +
          s.quantity * ((orderItemFor products 0 s).price_at_sale.getD 0) } := by
  have hkey : (s.productId <|> (none : Option Nat)) = s.productId := by
    cases s.productId <;> rfl
  simp only [addItem, orderItemFor, SelectedProduct.toItem, hkey]
  cases products.find? (fun p => some p.id == s.productId) with
  | none => simp
  | some p => simp [mul_comm]

theorem foldl_addItem_toItem (products : List Product) (n : Nat) (l : List SelectedProduct)
    (acc : Totals) :
    List.foldl (addItem products) acc (l.map SelectedProduct.toItem) =
      { totalPoints := acc.totalPoints + sumPointsAtSale (l.map (orderItemFor products n))
        totalPrice := acc.totalPrice + sumPriceAtSale (l.map (orderItemFor products n)) } := by
  induction l generalizing acc with
  | nil => simp [sumPointsAtSale, sumPriceAtSale]
  | cons s rest ih =>
    simp only [List.map_cons, List.foldl_cons, ih, addItem_toItem]
    simp [sumPointsAtSale, sumPriceAtSale, orderItemFor, add_assoc]

/-- The totals of `calculateOrderTotals` on the selected lines are the two sums over the rows
that `handleCreateOrder` builds for them. -/
theorem calculateOrderTotals_selected (products : List Product) (n : Nat)
    (l : List SelectedProduct) :
    calculateOrderTotals products (l.map SelectedProduct.toItem) =
      { totalPoints := sumPointsAtSale (l.map (orderItemFor products n))
        totalPrice := sumPriceAtSale (l.map (orderItemFor products n)) } := by
  unfold calculateOrderTotals
  rw [foldl_addItem_toItem products n l]
  simp

/-- What a call of `handleCreateOrder` that ends on the `created` path has stored. -/
theorem handleCreateOrder_created (f : CreateFaults) (newOrderId : Nat) (user : Option Nat)
    (products : List Product) (selectedCustomer : Option Nat)
    (selectedProducts : List SelectedProduct) (deliveryDate : Nat) (isPaidNewOrder : Bool)
    (db : Db)
    (h : (handleCreateOrder f newOrderId user products selectedCustomer selectedProducts
      deliveryDate isPaidNewOrder db).2 = .created) :
    ∃ userId, user = some userId ∧
      (handleCreateOrder f newOrderId user products selectedCustomer selectedProducts
        deliveryDate isPaidNewOrder db).1 =
      { db with
        orders := db.orders ++
          [{ id := newOrderId
             user_id := userId
             customer_id := selectedCustomer
             delivery_date := deliveryDate
             total_points := some (calculateOrderTotals products
               (selectedProducts.map SelectedProduct.toItem)).totalPoints
             total_price := some (calculateOrderTotals products
               (selectedProducts.map SelectedProduct.toItem)).totalPrice
             status := .pending
             is_paid := isPaidNewOrder
             completed_at := none }]
        order_items := db.order_items ++ selectedProducts.map (orderItemFor products newOrderId) }
      := by
  cases user with
  | none => simp [handleCreateOrder] at h
  | some userId =>
    refine ⟨userId, rfl, ?_⟩
    by_cases h1 : f.orderInsert = true
    · simp [handleCreateOrder, h1] at h
    · by_cases h2 : f.itemsInsert = true
      · by_cases h3 : f.rollbackDelete = true <;> simp [handleCreateOrder, h1, h2, h3] at h
      · simp [handleCreateOrder, h1, h2]

/-- C1. Total consistency at creation: when `handleCreateOrder` stores an order with its
items, the stored `total_price` is the sum over the stored items of
`quantity × price_at_sale` and the stored `total_points` the sum of
`quantity × points_at_sale`; every stored item carries both snapshots, a line whose product is
not in the catalog with snapshot 0. -/
theorem handleCreateOrder_total_consistency (f : CreateFaults) (newOrderId : Nat)
    (user : Option Nat) (products : List Product) (selectedCustomer : Option Nat)
    (selectedProducts : List SelectedProduct) (deliveryDate : Nat) (isPaidNewOrder : Bool)
    (db : Db)
    (h : (handleCreateOrder f newOrderId user products selectedCustomer selectedProducts
      deliveryDate isPaidNewOrder db).2 = .created) :
    ∃ order items,
      (handleCreateOrder f newOrderId user products selectedCustomer selectedProducts
        deliveryDate isPaidNewOrder db).1.orders = db.orders ++ [order] ∧
      (handleCreateOrder f newOrderId user products selectedCustomer selectedProducts
        deliveryDate isPaidNewOrder db).1.order_items = db.order_items ++ items ∧
      items.length = selectedProducts.length ∧
      (∀ it ∈ items, it.order_id = order.id ∧
        it.price_at_sale.isSome = true ∧ it.points_at_sale.isSome = true) ∧
      (∀ line ∈ selectedProducts, ∀ it ∈ items, it.product_id = line.productId →
        products.find? (fun p => some p.id == line.productId) = none →
          it.price_at_sale = some 0 ∧ it.points_at_sale = some 0) ∧
      order.total_price = some (sumPriceAtSale items) ∧
      order.total_points = some (sumPointsAtSale items) := by
  obtain ⟨userId, _, hdb⟩ := handleCreateOrder_created f newOrderId user products
    selectedCustomer selectedProducts deliveryDate isPaidNewOrder db h
  rw [hdb]
  refine ⟨_, selectedProducts.map (orderItemFor products newOrderId), rfl, rfl, by simp, ?_, ?_,
    ?_, ?_⟩
  · intro it hit
    obtain ⟨s, _, rfl⟩ := List.mem_map.mp hit
    simp [orderItemFor]
  · intro line _ it hit hid hnone
    obtain ⟨s, _, rfl⟩ := List.mem_map.mp hit
    have hs : s.productId = line.productId := hid
    simp [orderItemFor, hs, hnone]
  · simp [calculateOrderTotals_selected products newOrderId]
  · simp [calculateOrderTotals_selected products newOrderId]

/-- Witness for C1: product P (price 10, points 3) and the line (P, 5) give the stored totals
50 and 15. -/
theorem handleCreateOrder_total_consistency_witness :
    (handleCreateOrder ⟨false, false, false⟩ 7 (some 1) [⟨1, 1, "P", 5, 10, 3⟩] (some 2)
        [⟨some 1, 5⟩] 100 true ⟨[⟨1, 1, "P", 5, 10, 3⟩], [], [], []⟩).1.orders.map
      (fun o => (o.total_price, o.total_points)) = [(some 50, some 15)] ∧
    ∃ order items,
      (handleCreateOrder ⟨false, false, false⟩ 7 (some 1) [⟨1, 1, "P", 5, 10, 3⟩] (some 2)
        [⟨some 1, 5⟩] 100 true ⟨[⟨1, 1, "P", 5, 10, 3⟩], [], [], []⟩).1.orders = [] ++ [order] ∧
      (handleCreateOrder ⟨false, false, false⟩ 7 (some 1) [⟨1, 1, "P", 5, 10, 3⟩] (some 2)
        [⟨some 1, 5⟩] 100 true ⟨[⟨1, 1, "P", 5, 10, 3⟩], [], [], []⟩).1.order_items
          = [] ++ items ∧
      items.length = [(⟨some 1, 5⟩ : SelectedProduct)].length ∧
      (∀ it ∈ items, it.order_id = order.id ∧
        it.price_at_sale.isSome = true ∧ it.points_at_sale.isSome = true) ∧
      (∀ line ∈ [(⟨some 1, 5⟩ : SelectedProduct)], ∀ it ∈ items,
        it.product_id = line.productId →
        [(⟨1, 1, "P", 5, 10, 3⟩ : Product)].find? (fun p => some p.id == line.productId) = none →
          it.price_at_sale = some 0 ∧ it.points_at_sale = some 0) ∧
      order.total_price = some (sumPriceAtSale items) ∧
      order.total_points = some (sumPointsAtSale items) :=
  ⟨by decide,
    handleCreateOrder_total_consistency ⟨false, false, false⟩ 7 (some 1)
      [⟨1, 1, "P", 5, 10, 3⟩] (some 2) [⟨some 1, 5⟩] 100 true
      ⟨[⟨1, 1, "P", 5, 10, 3⟩], [], [], []⟩ (by decide)⟩

end Home

/-! ## Delivery -/

theorem single_eq_some {α : Type} {l : List α} {a : α} (h : single l = some a) : l = [a] := by
  match l, h with
  | [b], h => simp [single] at h; simp [h]

/-- Under a key constraint on `id`, a filter that fixes the id selects the row itself. -/
theorem filter_eq_singleton (q : Product → Bool) (n : Nat) (hq : ∀ x, q x = true → x.id = n) :
    ∀ (l : List Product), (l.map (fun p => p.id)).Nodup → ∀ p ∈ l, q p = true →
      l.filter q = [p] := by
  intro l
  induction l with
  | nil => intro _ p hp; cases hp
  | cons a t ih =>
    intro hnd p hp hqp
    rw [List.map_cons, List.nodup_cons] at hnd
    rcases List.mem_cons.mp hp with rfl | hpt
    · have ht : t.filter q = [] := by
        rw [List.filter_eq_nil_iff]
        intro x hx hqx
        apply hnd.1
        rw [hq p hqp, ← hq x hqx]
        exact List.mem_map.mpr ⟨x, hx, rfl⟩
      simp [List.filter_cons, hqp, ht]
    · have hqa : q a = false := by
        cases hqa : q a with
        | false => rfl
        | true =>
          exfalso
          apply hnd.1
          rw [hq a hqa, ← hq p hqp]
          exact List.mem_map.mpr ⟨p, hpt, rfl⟩
      simp [List.filter_cons, hqa, ih hnd.2 p hpt hqp]

theorem lineQuantity_nil (pid : Nat) : lineQuantity [] pid = 0 := rfl

theorem lineQuantity_cons (item : OrderItem) (rest : List OrderItem) (pid : Nat) :
    lineQuantity (item :: rest) pid =
      (if item.product_id = some pid then item.quantity else 0) + lineQuantity rest pid := by
  by_cases h : item.product_id = some pid <;> simp [lineQuantity, List.filter_cons, h]

namespace Home

/-- The effect of the stock loop when none of its reads and writes fails and `id` is a key of
table `products`: each product of the user loses the quantities of the lines that reference
it. -/
theorem decrementLoop_eq (f : UpdateFaults) (userId : Nat)
    (hf : ∀ k, f.fetchProduct k = false) (hu : ∀ k, f.productUpdate k = false)
    (items : List OrderItem) :
    ∀ (k : Nat) (products : List Product), (products.map (fun p => p.id)).Nodup →
      decrementLoop f userId k items products =
        products.map (fun p =>
          if p.user_id = userId then
            { p with quantity := p.quantity - lineQuantity items p.id }
          else p) := by
  induction items with
  | nil =>
    intro k products _
    simp [decrementLoop, lineQuantity_nil]
  | cons item rest ih =>
    intro k products hnd
    have hkey : ∀ x : Product,
        (some x.id == item.product_id && x.user_id == userId) = true →
          some x.id = item.product_id ∧ x.user_id = userId := by
      intro x hx
      simpa using hx
    simp only [decrementLoop, hf, hu, Bool.false_eq_true, if_false]
    cases hs : single (products.filter
        (fun p => some p.id == item.product_id && p.user_id == userId)) with
    | none =>
      simp only []
      rw [ih (k + 1) products hnd]
      apply List.map_congr_left
      intro p hp
      by_cases hpu : p.user_id = userId
      · have hne : ¬ item.product_id = some p.id := by
          intro he
          have := filter_eq_singleton
            (fun p => some p.id == item.product_id && p.user_id == userId) p.id
            (by
              intro x hx
              have := (hkey x hx).1
              rw [he] at this
              exact Option.some.inj this)
            products hnd p hp (by simp [he, hpu])
          rw [this] at hs
          simp [single] at hs
        simp [hpu, lineQuantity_cons, hne]
      · simp [hpu]
    | some cur =>
      simp only []
      have hfil := single_eq_some hs
      have hcur : cur ∈ products.filter
          (fun p => some p.id == item.product_id && p.user_id == userId) := by
        rw [hfil]; simp
      obtain ⟨hcurmem, hcurq⟩ := List.mem_filter.mp hcur
      obtain ⟨hcurid, hcuruser⟩ := hkey cur hcurq
      rw [ih (k + 1)]
      · rw [List.map_map]
        apply List.map_congr_left
        intro p hp
        by_cases hm : (some p.id == item.product_id && p.user_id == userId) = true
        · obtain ⟨hpid, hpuser⟩ := hkey p hm
          have hpc : p = cur := by
            apply List.inj_on_of_nodup_map hnd hp hcurmem
            have : some p.id = some cur.id := by rw [hpid, hcurid]
            exact Option.some.inj this
          subst hpc
          simp only [Function.comp, hm, if_true, hpuser, lineQuantity_cons, hpid.symm]
          simp [sub_sub]
        · have hm2 : (some p.id == item.product_id && p.user_id == userId) = false := by
            simpa using hm
          simp only [Function.comp, hm2, Bool.false_eq_true, if_false]
          by_cases hpu : p.user_id = userId
          · have hne : ¬ item.product_id = some p.id := by
              intro he
              apply hm
              simp [he, hpu]
            simp [hpu, lineQuantity_cons, hne]
          · simp [hpu]
      · rw [List.map_map]
        have : ((fun p : Product => p.id) ∘ fun p : Product =>
            if (some p.id == item.product_id && p.user_id == userId) = true then
              { p with quantity := cur.quantity - item.quantity }
            else p) = fun p => p.id := by
          funext p
          by_cases hm : (some p.id == item.product_id && p.user_id == userId) = true <;>
            simp [Function.comp, hm]
        rw [this]
        exact hnd

/-- With the update of the order succeeding, table `orders` after `handleUpdateOrderStatus`
is the old one with the matching rows rewritten, whatever their current status. -/
theorem handleUpdateOrderStatus_orders (f : UpdateFaults) (now userId : Nat)
    (orders : List OrderView) (orderId : Nat) (status : Status) (db : Db)
    (hok : f.orderUpdate = false) :
    (handleUpdateOrderStatus f now (some userId) orders orderId status db).1.orders =
      db.orders.map (fun o =>
        if o.id == orderId && o.user_id == userId then
          { o with
            status := status
            completed_at := if status = .delivered then some now else none
            is_paid := if status = .delivered then true else o.is_paid }
        else o) := by
  unfold handleUpdateOrderStatus
  simp only [hok, Bool.false_eq_true, if_false]
  split
  · split <;> rfl
  · rfl

theorem handleUpdateOrderStatus_completed_iff (f : UpdateFaults) (now userId : Nat)
    (orders : List OrderView) (orderId : Nat) (status : Status) (db : Db) :
    (handleUpdateOrderStatus f now (some userId) orders orderId status db).2 = .completed ↔
      f.orderUpdate = false := by
  unfold handleUpdateOrderStatus
  cases hf : f.orderUpdate
  · simp only [Bool.false_eq_true, if_false]
    split
    · split <;> simp
    · simp
  · simp

/-- C2, counterexample. In store `db1` order 1 is delivered, completed at 1000, and P is at
quantity 0. A call for order 1 with target `cancelled` completes and stores status `cancelled`
with `completed_at` null; a call with target `delivered` completes, moves `completed_at` to
2000 and takes P from 0 to -5. -/
theorem handleUpdateOrderStatus_terminal_counterexample :
    Scenario.db1.orders.map (fun o => (o.id, o.status, o.completed_at)) =
      [(1, .delivered, some 1000), (2, .pending, none)] ∧
    Scenario.db1.products.map (fun p => p.quantity) = [0] ∧
    (handleUpdateOrderStatus UpdateFaults.none 2000 (some 1) (fetchOrders 1 Scenario.db1) 1
        .cancelled Scenario.db1).2 = .completed ∧
    (handleUpdateOrderStatus UpdateFaults.none 2000 (some 1) (fetchOrders 1 Scenario.db1) 1
        .cancelled Scenario.db1).1.orders.map (fun o => (o.id, o.status, o.completed_at)) =
      [(1, .cancelled, none), (2, .pending, none)] ∧
    (handleUpdateOrderStatus UpdateFaults.none 2000 (some 1) (fetchOrders 1 Scenario.db1) 1
        .delivered Scenario.db1).2 = .completed ∧
    (handleUpdateOrderStatus UpdateFaults.none 2000 (some 1) (fetchOrders 1 Scenario.db1) 1
        .delivered Scenario.db1).1.orders.map (fun o => (o.id, o.status, o.completed_at)) =
      [(1, .delivered, some 2000), (2, .pending, none)] ∧
    (handleUpdateOrderStatus UpdateFaults.none 2000 (some 1) (fetchOrders 1 Scenario.db1) 1
        .delivered Scenario.db1).1.products.map (fun p => p.quantity) = [-5] := by
  decide

/-- C2, amended. The card of an order whose status is delivered or cancelled renders no status
button, so the page cannot request a transition of it. The handler itself has no guard: called
for such an order with the order update succeeding, it completes, every stored row with that
id and user gets the target status and `completed_at` set to now (target delivered) or null
(other targets), and for a target other than delivered table `products` is left as it was. -/
theorem terminal_order_has_no_status_button (order : OrderView)
    (h : order.status = .delivered ∨ order.status = .cancelled) :
    statusButtons order = [] ∧
    ∀ (f : UpdateFaults) (now userId : Nat) (orders : List OrderView) (status : Status)
      (db : Db), f.orderUpdate = false →
      (handleUpdateOrderStatus f now (some userId) orders order.id status db).2 = .completed ∧
      (∀ o ∈ db.orders, o.id = order.id → o.user_id = userId →
        { o with
          status := status
          completed_at := if status = .delivered then some now else none
          is_paid := if status = .delivered then true else o.is_paid } ∈
          (handleUpdateOrderStatus f now (some userId) orders order.id status db).1.orders) ∧
      (status ≠ .delivered →
        (handleUpdateOrderStatus f now (some userId) orders order.id status db).1.products =
          db.products) := by
  refine ⟨?_, ?_⟩
  · rcases h with h | h <;> simp [statusButtons, h]
  · intro f now userId orders status db hok
    refine ⟨(handleUpdateOrderStatus_completed_iff f now userId orders order.id status db).mpr
      hok, ?_, ?_⟩
    · intro o ho hid huser
      rw [handleUpdateOrderStatus_orders f now userId orders order.id status db hok]
      refine List.mem_map.mpr ⟨o, ho, ?_⟩
      simp [hid, huser]
    · intro hne
      simp [handleUpdateOrderStatus, hok, hne]

/-- Witness for C2, amended: the delivered order 1 of store `db1`. -/
theorem terminal_order_has_no_status_button_witness :
    (Scenario.deliveredView1.status = .delivered ∨
      Scenario.deliveredView1.status = .cancelled) ∧
    statusButtons Scenario.deliveredView1 = [] :=
  ⟨Or.inl rfl, (terminal_order_has_no_status_button Scenario.deliveredView1 (Or.inl rfl)).1⟩

/-- C3, the failing input evaluated. Delivering order 1 takes P from 5 to 0 (store `db1`);
then, with the page reloaded, delivering order 2, whose line asks 1 unit of P, completes
without any error and takes P to -1. -/
theorem handleUpdateOrderStatus_delivery_goes_negative :
    handleUpdateOrderStatus UpdateFaults.none 1000 (some 1) (fetchOrders 1 Scenario.db0) 1
        .delivered Scenario.db0 = (Scenario.db1, .completed) ∧
    (handleUpdateOrderStatus UpdateFaults.none 2000 (some 1) (fetchOrders 1 Scenario.db1) 2
        .delivered Scenario.db1).2 = .completed ∧
    (handleUpdateOrderStatus UpdateFaults.none 2000 (some 1) (fetchOrders 1 Scenario.db1) 2
        .delivered Scenario.db1).1.products = [{ Scenario.P with quantity := -1 }] := by
  decide

/-- C4. Delivery with no persistence error, `id` being a key of table `products`: row by row,
a product of the account keeps everything but its quantity, which becomes the old one minus the
sum of the quantities of all lines of the order (as the page holds it) that reference the
product; a product that no line references, or of another account, is unchanged. -/
theorem handleUpdateOrderStatus_delivered_stock (f : UpdateFaults) (now userId : Nat)
    (orders : List OrderView) (orderId : Nat) (order : OrderView) (db : Db)
    (hok : f.orderUpdate = false) (hf : ∀ k, f.fetchProduct k = false)
    (hu : ∀ k, f.productUpdate k = false)
    (hkey : (db.products.map (fun p => p.id)).Nodup)
    (hfind : orders.find? (fun o => o.id == orderId) = some order) :
    List.Forall₂ (fun p p' =>
        (p.user_id = userId →
          p' = { p with quantity := p.quantity - lineQuantity order.order_items p.id }) ∧
        ((∀ it ∈ order.order_items, it.product_id ≠ some p.id) → p' = p) ∧
        (p.user_id ≠ userId → p' = p))
      db.products
      (handleUpdateOrderStatus f now (some userId) orders orderId .delivered db).1.products := by
  have hprod : (handleUpdateOrderStatus f now (some userId) orders orderId .delivered
      db).1.products = db.products.map (fun p =>
        if p.user_id = userId then
          { p with quantity := p.quantity - lineQuantity order.order_items p.id }
        else p) := by
    simp only [handleUpdateOrderStatus, hok, hfind, Bool.false_eq_true, if_false, if_true]
    exact decrementLoop_eq f userId hf hu order.order_items 0 db.products hkey
  rw [hprod, List.forall₂_map_right_iff, List.forall₂_same]
  intro p _
  have hzero : (∀ it ∈ order.order_items, it.product_id ≠ some p.id) →
      lineQuantity order.order_items p.id = 0 := by
    intro hno
    have : order.order_items.filter (fun it => it.product_id == some p.id) = [] := by
      rw [List.filter_eq_nil_iff]
      intro it hit
      simpa using hno it hit
    simp [lineQuantity, this]
  refine ⟨?_, ?_, ?_⟩
  · intro hpu
    simp [hpu]
  · intro hno
    by_cases hpu : p.user_id = userId
    · subst hpu
      simp [hzero hno]
    · simp [hpu]
  · intro hpu
    simp [hpu]

/-- Witness for C4: P at quantity 5 and the line (P, 5) give P at quantity 0. -/
theorem handleUpdateOrderStatus_delivered_stock_witness :
    (handleUpdateOrderStatus UpdateFaults.none 1000 (some 1) (fetchOrders 1 Scenario.db0) 1
        .delivered Scenario.db0).1.products = [{ Scenario.P with quantity := 0 }] ∧
    List.Forall₂ (fun p p' =>
        (p.user_id = 1 →
          p' = { p with quantity := p.quantity - lineQuantity [Scenario.line1] p.id }) ∧
        ((∀ it ∈ [Scenario.line1], it.product_id ≠ some p.id) → p' = p) ∧
        (p.user_id ≠ 1 → p' = p))
      Scenario.db0.products
      (handleUpdateOrderStatus UpdateFaults.none 1000 (some 1) (fetchOrders 1 Scenario.db0) 1
        .delivered Scenario.db0).1.products :=
  ⟨by decide,
    handleUpdateOrderStatus_delivered_stock UpdateFaults.none 1000 1
      (fetchOrders 1 Scenario.db0) 1 Scenario.pendingView1
      Scenario.db0 rfl (fun _ => rfl) (fun _ => rfl) (by decide) (by decide)⟩

/-- C5. A call of `handleUpdateOrderStatus(order, 'delivered')` that completes stores, for an
order of the account, the same row with status delivered, `completed_at` equal to now and
`is_paid` true, whatever `is_paid` (and the status) was: totals, customer, delivery date, id
and owner are those of the old row. With `id` a key of table `orders` this is the only stored
row with that id. -/
theorem handleUpdateOrderStatus_delivered_order (f : UpdateFaults) (now userId : Nat)
    (orders : List OrderView) (o : Order) (db : Db)
    (ho : o ∈ db.orders) (huser : o.user_id = userId)
    (hkey : (db.orders.map (fun r => r.id)).Nodup)
    (hdone : (handleUpdateOrderStatus f now (some userId) orders o.id .delivered db).2 =
      .completed) :
    { o with status := .delivered, completed_at := some now, is_paid := true } ∈
      (handleUpdateOrderStatus f now (some userId) orders o.id .delivered db).1.orders ∧
    ∀ r ∈ (handleUpdateOrderStatus f now (some userId) orders o.id .delivered db).1.orders,
      r.id = o.id →
        r = { o with status := .delivered, completed_at := some now, is_paid := true } := by
  have hok := (handleUpdateOrderStatus_completed_iff f now userId orders o.id .delivered
    db).mp hdone
  rw [handleUpdateOrderStatus_orders f now userId orders o.id .delivered db hok]
  refine ⟨List.mem_map.mpr ⟨o, ho, by simp [huser]⟩, ?_⟩
  intro r hr hid
  obtain ⟨r0, hr0, rfl⟩ := List.mem_map.mp hr
  have hid0 : r0.id = o.id := by
    by_cases hm : (r0.id == o.id && r0.user_id == userId) = true
    · simpa using (by simpa using hm : r0.id = o.id ∧ r0.user_id = userId).1
    · simpa [hm] using hid
  have : r0 = o := List.inj_on_of_nodup_map hkey hr0 ho hid0
  subst this
  simp [huser]

/-- Witness for C5: order 1 of store `db0`, unpaid and pending, delivered at instant 1000. -/
theorem handleUpdateOrderStatus_delivered_order_witness :
    { Scenario.order1 with status := .delivered, completed_at := some 1000, is_paid := true } ∈
      (handleUpdateOrderStatus UpdateFaults.none 1000 (some 1) (fetchOrders 1 Scenario.db0)
        Scenario.order1.id .delivered Scenario.db0).1.orders :=
  (handleUpdateOrderStatus_delivered_order UpdateFaults.none 1000 1
    (fetchOrders 1 Scenario.db0) Scenario.order1 Scenario.db0 (by decide) (by decide)
    (by decide) (by decide)).1

/-- C6, counterexample. The order insert succeeds, the insert of the items fails and the
compensating delete fails too: order 3 stays stored, with no item. -/
theorem handleCreateOrder_rollback_counterexample :
    handleCreateOrder ⟨false, true, true⟩ 3 (some 1) [Scenario.P] (some 1) [⟨some 1, 2⟩] 12 true
        Scenario.db0 =
      ({ Scenario.db0 with
          orders := [Scenario.order1, Scenario.order2,
            { id := 3, user_id := 1, customer_id := some 1, delivery_date := 12,
              total_points := some 6, total_price := some 20, status := .pending,
              is_paid := true, completed_at := none }] },
        .itemsInsertFailed) ∧
    (handleCreateOrder ⟨false, true, true⟩ 3 (some 1) [Scenario.P] (some 1) [⟨some 1, 2⟩] 12 true
        Scenario.db0).1.orders ≠ Scenario.db0.orders := by
  decide

/-- C6, amended. If the order row is inserted (under an id no stored order has), the insert of
its items fails and the compensating delete succeeds, then the handler returns on its
`itemsInsertFailed` path with the store exactly as before the call: same orders, no item
added. -/
theorem handleCreateOrder_rollback (f : CreateFaults) (newOrderId userId : Nat)
    (products : List Product) (selectedCustomer : Option Nat)
    (selectedProducts : List SelectedProduct) (deliveryDate : Nat) (isPaidNewOrder : Bool)
    (db : Db)
    (h1 : f.orderInsert = false) (h2 : f.itemsInsert = true) (h3 : f.rollbackDelete = false)
    (hfresh : ∀ o ∈ db.orders, o.id ≠ newOrderId) :
    handleCreateOrder f newOrderId (some userId) products selectedCustomer selectedProducts
      deliveryDate isPaidNewOrder db = (db, .itemsInsertFailed) := by
  have hfil : db.orders.filter (fun o => o.id != newOrderId) = db.orders := by
    rw [List.filter_eq_self]
    intro o ho
    simpa using hfresh o ho
  simp [handleCreateOrder, h1, h2, h3, List.filter_append, hfil]

/-- Witness for C6, amended: on store `db0` with new id 3. -/
theorem handleCreateOrder_rollback_witness :
    handleCreateOrder ⟨false, true, false⟩ 3 (some 1) [Scenario.P] (some 1) [⟨some 1, 2⟩] 12
      true Scenario.db0 = (Scenario.db0, .itemsInsertFailed) :=
  handleCreateOrder_rollback ⟨false, true, false⟩ 3 1 [Scenario.P] (some 1) [⟨some 1, 2⟩] 12
    true Scenario.db0 rfl rfl rfl (by decide)

/-- C7. A call of `handleCreateOrder` on its `created` path appends one order, with the new
id, status pending and `completed_at` null, and appends one item per selected line, in the
order of the lines: the item has the new order id, the product id and the quantity of its
line, and when the catalog holds a product for the line (`find`), the current points and price
per unit of that product as snapshots. -/
theorem handleCreateOrder_snapshots (f : CreateFaults) (newOrderId : Nat)
    (user : Option Nat) (products : List Product) (selectedCustomer : Option Nat)
    (selectedProducts : List SelectedProduct) (deliveryDate : Nat) (isPaidNewOrder : Bool)
    (db : Db)
    (h : (handleCreateOrder f newOrderId user products selectedCustomer selectedProducts
      deliveryDate isPaidNewOrder db).2 = .created) :
    ∃ order items,
      (handleCreateOrder f newOrderId user products selectedCustomer selectedProducts
        deliveryDate isPaidNewOrder db).1.orders = db.orders ++ [order] ∧
      order.id = newOrderId ∧ order.status = .pending ∧ order.completed_at = none ∧
      (handleCreateOrder f newOrderId user products selectedCustomer selectedProducts
        deliveryDate isPaidNewOrder db).1.order_items = db.order_items ++ items ∧
      List.Forall₂ (fun line it =>
          it.order_id = newOrderId ∧ it.product_id = line.productId ∧
          it.quantity = line.quantity ∧
          ∀ p, products.find? (fun x => some x.id == line.productId) = some p →
            it.points_at_sale = some p.points_per_unit ∧
            it.price_at_sale = some p.price_per_unit)
        selectedProducts items := by
  obtain ⟨userId, _, hdb⟩ := handleCreateOrder_created f newOrderId user products
    selectedCustomer selectedProducts deliveryDate isPaidNewOrder db h
  rw [hdb]
  refine ⟨_, selectedProducts.map (orderItemFor products newOrderId), rfl, rfl, rfl, rfl, rfl,
    ?_⟩
  rw [List.forall₂_map_right_iff, List.forall₂_same]
  intro line _
  refine ⟨rfl, rfl, rfl, ?_⟩
  intro p hp
  simp [orderItemFor, hp]

/-- Witness for C7: the line (P, 2) on store `db0`. -/
theorem handleCreateOrder_snapshots_witness :
    (handleCreateOrder ⟨false, false, false⟩ 3 (some 1) [Scenario.P] (some 1) [⟨some 1, 2⟩] 12
        true Scenario.db0).1.order_items =
      Scenario.db0.order_items ++
        [{ order_id := 3, product_id := some 1, quantity := 2, points_at_sale := some 3,
           price_at_sale := some 10 }] ∧
    ∃ order items,
      (handleCreateOrder ⟨false, false, false⟩ 3 (some 1) [Scenario.P] (some 1) [⟨some 1, 2⟩]
        12 true Scenario.db0).1.orders = Scenario.db0.orders ++ [order] ∧
      order.id = 3 ∧ order.status = .pending ∧ order.completed_at = none ∧
      (handleCreateOrder ⟨false, false, false⟩ 3 (some 1) [Scenario.P] (some 1) [⟨some 1, 2⟩]
        12 true Scenario.db0).1.order_items = Scenario.db0.order_items ++ items ∧
      List.Forall₂ (fun line it =>
          it.order_id = 3 ∧ it.product_id = line.productId ∧
          it.quantity = line.quantity ∧
          ∀ p, [Scenario.P].find? (fun x => some x.id == line.productId) = some p →
            it.points_at_sale = some p.points_per_unit ∧
            it.price_at_sale = some p.price_per_unit)
        [(⟨some 1, 2⟩ : SelectedProduct)] items :=
  ⟨by decide,
    handleCreateOrder_snapshots ⟨false, false, false⟩ 3 (some 1) [Scenario.P] (some 1)
      [⟨some 1, 2⟩] 12 true Scenario.db0 (by decide)⟩

end Home

/-! ## Product edition -/

namespace Inventory

/-- C8. The update branch of `handleSubmitProduct` (a product is being edited) leaves tables
`order_items`, `loans` and `orders` as they were, so every snapshot and every stored total is
kept, and in table `products` every row keeps its id and every row with another id than the
edited product is unchanged; this holds whether or not the write fails or a session exists. -/
theorem handleSubmitProduct_update_frame (writeFails : Bool) (newProductId : Nat)
    (user : Option Nat) (cur : Product) (productName : String)
    (productQuantity productPrice productPoints : Int) (db : Db) :
    (handleSubmitProduct writeFails newProductId user (some cur) productName productQuantity
      productPrice productPoints db).1.order_items = db.order_items ∧
    (handleSubmitProduct writeFails newProductId user (some cur) productName productQuantity
      productPrice productPoints db).1.loans = db.loans ∧
    (handleSubmitProduct writeFails newProductId user (some cur) productName productQuantity
      productPrice productPoints db).1.orders = db.orders ∧
    List.Forall₂ (fun p p' => p'.id = p.id ∧ (p.id ≠ cur.id → p' = p)) db.products
      (handleSubmitProduct writeFails newProductId user (some cur) productName productQuantity
        productPrice productPoints db).1.products := by
  cases user with
  | none => simp [handleSubmitProduct, List.forall₂_same]
  | some userId =>
    cases writeFails with
    | true => simp [handleSubmitProduct, List.forall₂_same]
    | false =>
      simp only [handleSubmitProduct, Bool.false_eq_true, if_false, true_and]
      rw [List.forall₂_map_right_iff, List.forall₂_same]
      intro p _
      by_cases hm : (p.id == cur.id && p.user_id == userId) = true
      · have hm2 : p.id = cur.id ∧ p.user_id = userId := by simpa using hm
        simp [hm2.1, hm2.2]
      · simp [hm]

end Inventory

/-! ## Loans -/

namespace Partners

/-- C9. When the loan quantity exceeds the quantity of the selected product (the row the page
holds for `loanProductId`, which is the stored row when the page has just been loaded),
`handleSubmitLoan` stops on its `insufficientStock` path and the store is exactly as before: no
loan inserted, no product touched. -/
theorem handleSubmitLoan_insufficient (f : LoanFaults) (newLoanId userId : Nat)
    (products : List Product) (selectedPartnerForLoan : Nat) (loanProductId : Option Nat)
    (loanQuantity : Int) (loanDate : Nat) (db : Db) (p : Product)
    (hfind : products.find? (fun x => some x.id == loanProductId) = some p)
    (hq : loanQuantity > p.quantity) :
    handleSubmitLoan f newLoanId (some userId) products selectedPartnerForLoan loanProductId
      loanQuantity loanDate db = (db, .insufficientStock) ∧
    (products = fetchProducts userId db → p ∈ db.products ∧ p.user_id = userId) := by
  constructor
  · simp [handleSubmitLoan, hfind, hq]
  · intro hsync
    have hmem := List.mem_of_find?_eq_some hfind
    rw [hsync] at hmem
    simpa [fetchProducts] using hmem

/-- Witness for C9: P at quantity 5, loan of 6. -/
theorem handleSubmitLoan_insufficient_witness :
    handleSubmitLoan ⟨false, false⟩ 1 (some 1) (fetchProducts 1 Scenario.db0) 3 (some 1) 6 77
      Scenario.db0 = (Scenario.db0, .insufficientStock) :=
  (handleSubmitLoan_insufficient ⟨false, false⟩ 1 1 (fetchProducts 1 Scenario.db0) 3 (some 1) 6
    77 Scenario.db0 Scenario.P (by decide) (by decide)).1

/-- C10. A call of `handleSubmitLoan` with a loan quantity `q` not above the quantity `n` of
the selected product, whose two writes succeed, ends on its `submitted` path, appends exactly
one loan, of quantity `q` and with the current points and price per unit of the product as
snapshots, and rewrites table `products` row by row: the rows with the id of the product and
the user get quantity `n - q`, every other row is unchanged. Tables `orders` and `order_items`
are unchanged. The selected product is the row the page holds, which is the stored row when
the page has just been loaded. -/
theorem handleSubmitLoan_submitted (f : LoanFaults) (newLoanId userId : Nat)
    (products : List Product) (selectedPartnerForLoan : Nat) (loanProductId : Option Nat)
    (loanQuantity : Int) (loanDate : Nat) (db : Db) (p : Product)
    (hfind : products.find? (fun x => some x.id == loanProductId) = some p)
    (hq : loanQuantity ≤ p.quantity)
    (hl : f.loanInsert = false) (hu : f.productUpdate = false) :
    (handleSubmitLoan f newLoanId (some userId) products selectedPartnerForLoan loanProductId
      loanQuantity loanDate db).2 = .submitted ∧
    (handleSubmitLoan f newLoanId (some userId) products selectedPartnerForLoan loanProductId
      loanQuantity loanDate db).1.loans = db.loans ++
        [{ id := newLoanId, user_id := userId, partner_id := selectedPartnerForLoan,
           product_id := some p.id, quantity := loanQuantity,
           points_at_loan := p.points_per_unit, price_at_loan := p.price_per_unit,
           loan_date := loanDate }] ∧
    List.Forall₂ (fun r r' =>
        (r.id = p.id ∧ r.user_id = userId →
          r' = { r with quantity := p.quantity - loanQuantity }) ∧
        (¬ (r.id = p.id ∧ r.user_id = userId) → r' = r))
      db.products
      (handleSubmitLoan f newLoanId (some userId) products selectedPartnerForLoan loanProductId
        loanQuantity loanDate db).1.products ∧
    (handleSubmitLoan f newLoanId (some userId) products selectedPartnerForLoan loanProductId
      loanQuantity loanDate db).1.orders = db.orders ∧
    (handleSubmitLoan f newLoanId (some userId) products selectedPartnerForLoan loanProductId
      loanQuantity loanDate db).1.order_items = db.order_items ∧
    (products = fetchProducts userId db → p ∈ db.products ∧ p.user_id = userId) := by
  have hnot : ¬ loanQuantity > p.quantity := not_lt.mpr hq
  have hid : loanProductId = some p.id := by
    have : some p.id = loanProductId := by simpa using List.find?_some hfind
    exact this.symm
  subst hid
  have hor : jsOr p.quantity 0 = p.quantity := by
    unfold jsOr
    split <;> simp_all
  simp only [handleSubmitLoan, hfind, hnot, hl, hu, Bool.false_eq_true, if_false, hor,
    true_and]
  refine ⟨?_, ?_⟩
  · rw [List.forall₂_map_right_iff, List.forall₂_same]
    intro r _
    by_cases hm : (r.id == p.id && r.user_id == userId) = true
    · have hm2 : r.id = p.id ∧ r.user_id = userId := by simpa using hm
      simp [hm2.1, hm2.2]
    · have hm2 : ¬ (r.id = p.id ∧ r.user_id = userId) := by simpa using hm
      simp [hm, hm2]
  · intro hsync
    have hmem := List.mem_of_find?_eq_some hfind
    rw [hsync] at hmem
    simpa [fetchProducts] using hmem

/-- Witness for C10: a product at quantity 10 and a loan of 4 give quantity 6. -/
theorem handleSubmitLoan_submitted_witness :
    (handleSubmitLoan ⟨false, false⟩ 1 (some 1)
        [{ Scenario.P with quantity := 10 }] 3 (some 1) 4 77
        { Scenario.db0 with products := [{ Scenario.P with quantity := 10 }] }).1.products =
      [{ Scenario.P with quantity := 6 }] ∧
    (handleSubmitLoan ⟨false, false⟩ 1 (some 1)
        [{ Scenario.P with quantity := 10 }] 3 (some 1) 4 77
        { Scenario.db0 with products := [{ Scenario.P with quantity := 10 }] }).1.loans =
      [{ id := 1, user_id := 1, partner_id := 3, product_id := some 1, quantity := 4,
         points_at_loan := 3, price_at_loan := 10, loan_date := 77 }] :=
  ⟨by decide,
    (handleSubmitLoan_submitted ⟨false, false⟩ 1 1 [{ Scenario.P with quantity := 10 }] 3
      (some 1) 4 77 { Scenario.db0 with products := [{ Scenario.P with quantity := 10 }] }
      { Scenario.P with quantity := 10 } (by decide) (by decide) rfl rfl).2.1⟩

/-- The store after a `handleSubmitLoan` that passes the stock guard and whose two writes
succeed. -/
theorem handleSubmitLoan_store (f : LoanFaults) (newLoanId userId : Nat)
    (products : List Product) (selectedPartnerForLoan : Nat) (loanProductId : Option Nat)
    (loanQuantity : Int) (loanDate : Nat) (db : Db) (p : Product)
    (hfind : products.find? (fun x => some x.id == loanProductId) = some p)
    (hq : loanQuantity ≤ p.quantity)
    (hl : f.loanInsert = false) (hu : f.productUpdate = false) :
    (handleSubmitLoan f newLoanId (some userId) products selectedPartnerForLoan loanProductId
      loanQuantity loanDate db).1 =
      { db with
        loans := db.loans ++
          [{ id := newLoanId, user_id := userId, partner_id := selectedPartnerForLoan,
             product_id := loanProductId, quantity := loanQuantity,
             points_at_loan := p.points_per_unit, price_at_loan := p.price_per_unit,
             loan_date := loanDate }]
        products := db.products.map (fun r =>
          if r.id == p.id && r.user_id == userId then
            { r with quantity := p.quantity - loanQuantity }
          else r) } := by
  have hnot : ¬ loanQuantity > p.quantity := not_lt.mpr hq
  have hor : jsOr p.quantity 0 = p.quantity := by
    unfold jsOr
    split <;> simp_all
  simp only [handleSubmitLoan, hfind, hnot, hl, hu, Bool.false_eq_true, if_false, hor]

/-- C11. `handleDeleteLoan` never writes table `products` (nor `orders`, `order_items`); when
the user confirms, a session exists and the delete succeeds, table `loans` loses exactly the
rows with the given id that the user owns. So a loan of `q` units created by
`handleSubmitLoan` (stock guard passed, both writes succeeding, new id not yet in use) and then
deleted leaves table `loans` as it was before the loan, and the rows of the product at the
quantity `n - q` that the loan wrote, not at `n`. -/
theorem handleDeleteLoan_no_restock (f : LoanFaults) (newLoanId userId : Nat)
    (products : List Product) (selectedPartnerForLoan : Nat) (loanProductId : Option Nat)
    (loanQuantity : Int) (loanDate : Nat) (db : Db) (p : Product)
    (hfind : products.find? (fun x => some x.id == loanProductId) = some p)
    (hq : loanQuantity ≤ p.quantity)
    (hl : f.loanInsert = false) (hu : f.productUpdate = false)
    (hfresh : ∀ l ∈ db.loans, l.id ≠ newLoanId) :
    (∀ (confirmed deleteFails : Bool) (user : Option Nat) (loanId : Nat) (s : Db),
      (handleDeleteLoan confirmed deleteFails user loanId s).1.products = s.products ∧
      (handleDeleteLoan confirmed deleteFails user loanId s).1.orders = s.orders ∧
      (handleDeleteLoan confirmed deleteFails user loanId s).1.order_items = s.order_items) ∧
    (∀ (loanId : Nat) (s : Db),
      (handleDeleteLoan true false (some userId) loanId s).1.loans =
        s.loans.filter (fun l => decide (¬ (l.id = loanId ∧ l.user_id = userId)))) ∧
    (handleDeleteLoan true false (some userId) newLoanId
      (handleSubmitLoan f newLoanId (some userId) products selectedPartnerForLoan loanProductId
        loanQuantity loanDate db).1).1.loans = db.loans ∧
    List.Forall₂ (fun r r' =>
        (r.id = p.id ∧ r.user_id = userId →
          r' = { r with quantity := p.quantity - loanQuantity }) ∧
        (¬ (r.id = p.id ∧ r.user_id = userId) → r' = r))
      db.products
      (handleDeleteLoan true false (some userId) newLoanId
        (handleSubmitLoan f newLoanId (some userId) products selectedPartnerForLoan
          loanProductId loanQuantity loanDate db).1).1.products := by
  have hframe : ∀ (confirmed deleteFails : Bool) (user : Option Nat) (loanId : Nat) (s : Db),
      (handleDeleteLoan confirmed deleteFails user loanId s).1.products = s.products ∧
      (handleDeleteLoan confirmed deleteFails user loanId s).1.orders = s.orders ∧
      (handleDeleteLoan confirmed deleteFails user loanId s).1.order_items = s.order_items := by
    intro confirmed deleteFails user loanId s
    cases confirmed <;> cases deleteFails <;> cases user <;> simp [handleDeleteLoan]
  refine ⟨hframe, ?_, ?_, ?_⟩
  · intro loanId s
    simp only [handleDeleteLoan, if_true, Bool.false_eq_true, if_false]
    apply List.filter_congr
    intro l _
    by_cases h1 : l.id = loanId <;> by_cases h2 : l.user_id = userId <;> simp [h1, h2]
  · rw [handleSubmitLoan_store f newLoanId userId products selectedPartnerForLoan loanProductId
      loanQuantity loanDate db p hfind hq hl hu]
    simp only [handleDeleteLoan, if_true, Bool.false_eq_true, if_false]
    rw [List.filter_append]
    have h1 : db.loans.filter (fun l => !(l.id == newLoanId && l.user_id == userId)) =
        db.loans := by
      rw [List.filter_eq_self]
      intro l hl'
      have := hfresh l hl'
      simp [this]
    rw [h1]
    simp
  · rw [(hframe true false (some userId) newLoanId _).1,
      handleSubmitLoan_store f newLoanId userId products selectedPartnerForLoan loanProductId
        loanQuantity loanDate db p hfind hq hl hu]
    simp only []
    rw [List.forall₂_map_right_iff, List.forall₂_same]
    intro r _
    by_cases hm : (r.id == p.id && r.user_id == userId) = true
    · have hm2 : r.id = p.id ∧ r.user_id = userId := by simpa using hm
      simp [hm2.1, hm2.2]
    · have hm2 : ¬ (r.id = p.id ∧ r.user_id = userId) := by simpa using hm
      simp [hm, hm2]

/-- Witness for C11: a product at quantity 10, a loan of 4, then the loan deleted: the
product is at 6 and no loan is stored. -/
theorem handleDeleteLoan_no_restock_witness :
    (handleDeleteLoan true false (some 1) 1
      (handleSubmitLoan ⟨false, false⟩ 1 (some 1) [{ Scenario.P with quantity := 10 }] 3
        (some 1) 4 77
        { Scenario.db0 with products := [{ Scenario.P with quantity := 10 }] }).1).1.products =
      [{ Scenario.P with quantity := 6 }] ∧
    (handleDeleteLoan true false (some 1) 1
      (handleSubmitLoan ⟨false, false⟩ 1 (some 1) [{ Scenario.P with quantity := 10 }] 3
        (some 1) 4 77
        { Scenario.db0 with products := [{ Scenario.P with quantity := 10 }] }).1).1.loans =
      Scenario.db0.loans :=
  ⟨by decide,
    (handleDeleteLoan_no_restock ⟨false, false⟩ 1 1 [{ Scenario.P with quantity := 10 }] 3
      (some 1) 4 77 { Scenario.db0 with products := [{ Scenario.P with quantity := 10 }] }
      { Scenario.P with quantity := 10 } (by decide) (by decide) rfl rfl (by decide)).2.2.1⟩

end Partners

/-! ## Cancellation and paid flag -/

namespace Home

/-- C12. A call of `handleUpdateOrderStatus(order, 'cancelled')` that completes, for a pending
order of the account and `id` a key of table `orders`: tables `products`, `order_items` and
`loans` are unchanged, the row of the order becomes the same row with status cancelled and
`completed_at` null (so `is_paid` and the totals are kept), every other order row is
unchanged. -/
theorem handleUpdateOrderStatus_cancelled_frame (f : UpdateFaults) (now userId : Nat)
    (orders : List OrderView) (o : Order) (db : Db)
    (ho : o ∈ db.orders) (huser : o.user_id = userId) (hpending : o.status = .pending)
    (hkey : (db.orders.map (fun r => r.id)).Nodup)
    (hdone : (handleUpdateOrderStatus f now (some userId) orders o.id .cancelled db).2 =
      .completed) :
    (handleUpdateOrderStatus f now (some userId) orders o.id .cancelled db).1.products =
      db.products ∧
    (handleUpdateOrderStatus f now (some userId) orders o.id .cancelled db).1.order_items =
      db.order_items ∧
    (handleUpdateOrderStatus f now (some userId) orders o.id .cancelled db).1.loans =
      db.loans ∧
    { o with status := .cancelled, completed_at := none } ∈
      (handleUpdateOrderStatus f now (some userId) orders o.id .cancelled db).1.orders ∧
    List.Forall₂ (fun r r' =>
        (r.id = o.id → r' = { o with status := .cancelled, completed_at := none }) ∧
        (r.id ≠ o.id → r' = r))
      db.orders
      (handleUpdateOrderStatus f now (some userId) orders o.id .cancelled db).1.orders := by
  have hok := (handleUpdateOrderStatus_completed_iff f now userId orders o.id .cancelled
    db).mp hdone
  have _hp := hpending
  refine ⟨by simp [handleUpdateOrderStatus, hok], by simp [handleUpdateOrderStatus, hok],
    by simp [handleUpdateOrderStatus, hok], ?_, ?_⟩
  · rw [handleUpdateOrderStatus_orders f now userId orders o.id .cancelled db hok]
    exact List.mem_map.mpr ⟨o, ho, by simp [huser]⟩
  · rw [handleUpdateOrderStatus_orders f now userId orders o.id .cancelled db hok,
      List.forall₂_map_right_iff, List.forall₂_same]
    intro r hr
    constructor
    · intro hid
      have : r = o := List.inj_on_of_nodup_map hkey hr ho hid
      subst this
      simp [huser]
    · intro hid
      simp [hid]

/-- Witness for C12: order 1 of store `db0`, cancelled. -/
theorem handleUpdateOrderStatus_cancelled_frame_witness :
    (handleUpdateOrderStatus UpdateFaults.none 1000 (some 1) (fetchOrders 1 Scenario.db0)
        Scenario.order1.id .cancelled Scenario.db0).1 =
      { Scenario.db0 with
        orders := [{ Scenario.order1 with status := .cancelled }, Scenario.order2] } ∧
    (handleUpdateOrderStatus UpdateFaults.none 1000 (some 1) (fetchOrders 1 Scenario.db0)
        Scenario.order1.id .cancelled Scenario.db0).1.products = Scenario.db0.products :=
  ⟨by decide,
    (handleUpdateOrderStatus_cancelled_frame UpdateFaults.none 1000 1
      (fetchOrders 1 Scenario.db0) Scenario.order1 Scenario.db0 (by decide) (by decide)
      (by decide) (by decide) (by decide)).1⟩

/-- C13. A call of `handleTogglePaidStatus(orderId, current)` whose update succeeds, for an
order of the account and `id` a key of table `orders`: tables `products`, `order_items` and
`loans` are unchanged, the row of the order becomes the same row with `is_paid` equal to the
negation of `current` (status, `completed_at` and totals kept), every other order row is
unchanged; and when `current` is the stored flag, a second call with the then current flag
gives back the store of before the first call. -/
theorem handleTogglePaidStatus_flip (userId : Nat) (current : Bool) (o : Order) (db : Db)
    (ho : o ∈ db.orders) (huser : o.user_id = userId)
    (hkey : (db.orders.map (fun r => r.id)).Nodup) :
    (handleTogglePaidStatus false (some userId) o.id current db).2 = .completed ∧
    (handleTogglePaidStatus false (some userId) o.id current db).1.products = db.products ∧
    (handleTogglePaidStatus false (some userId) o.id current db).1.order_items =
      db.order_items ∧
    (handleTogglePaidStatus false (some userId) o.id current db).1.loans = db.loans ∧
    List.Forall₂ (fun r r' =>
        (r.id = o.id → r' = { o with is_paid := !current }) ∧ (r.id ≠ o.id → r' = r))
      db.orders (handleTogglePaidStatus false (some userId) o.id current db).1.orders ∧
    (o.is_paid = current →
      (handleTogglePaidStatus false (some userId) o.id (!current)
        (handleTogglePaidStatus false (some userId) o.id current db).1).1 = db) := by
  have hrow : ∀ r ∈ db.orders, r.id = o.id → r = o := fun r hr hid =>
    List.inj_on_of_nodup_map hkey hr ho hid
  refine ⟨by simp [handleTogglePaidStatus], by simp [handleTogglePaidStatus],
    by simp [handleTogglePaidStatus], by simp [handleTogglePaidStatus], ?_, ?_⟩
  · simp only [handleTogglePaidStatus, Bool.false_eq_true, if_false]
    rw [List.forall₂_map_right_iff, List.forall₂_same]
    intro r hr
    constructor
    · intro hid
      have := hrow r hr hid
      subst this
      simp [huser]
    · intro hid
      simp [hid]
  · intro hcur
    subst hcur
    subst huser
    simp only [handleTogglePaidStatus, Bool.false_eq_true, if_false, List.map_map]
    have : db.orders.map ((fun r : Order =>
          if (r.id == o.id && r.user_id == o.user_id) = true then
            { r with is_paid := !(!o.is_paid) }
          else r) ∘ fun r : Order =>
          if (r.id == o.id && r.user_id == o.user_id) = true then
            { r with is_paid := !o.is_paid }
          else r) = db.orders := by
      conv_rhs => rw [← List.map_id db.orders]
      apply List.map_congr_left
      intro r hr
      by_cases hm : (r.id == o.id && r.user_id == o.user_id) = true
      · have hm2 : r.id = o.id ∧ r.user_id = o.user_id := by simpa using hm
        have := hrow r hr hm2.1
        subst this
        simp [Function.comp]
      · simp [Function.comp, hm]
    rw [this]

/-- Witness for C13: order 1 of store `db0` (unpaid) toggled to paid, and back. -/
theorem handleTogglePaidStatus_flip_witness :
    (handleTogglePaidStatus false (some 1) Scenario.order1.id false Scenario.db0).1.orders =
      [{ Scenario.order1 with is_paid := true }, Scenario.order2] ∧
    (handleTogglePaidStatus false (some 1) Scenario.order1.id (!false)
      (handleTogglePaidStatus false (some 1) Scenario.order1.id false Scenario.db0).1).1 =
      Scenario.db0 :=
  ⟨by decide,
    (handleTogglePaidStatus_flip 1 false Scenario.order1 Scenario.db0 (by decide) (by decide)
      (by decide)).2.2.2.2.2 (by decide)⟩

end Home

/-! ## Lines whose product is missing -/

theorem hasProduct_map_quantity (userId : Nat) (c : Product → Bool) (q : Int)
    (products : List Product) :
    hasProduct userId (products.map (fun p => if c p then { p with quantity := q } else p)) =
      hasProduct userId products := by
  funext item
  simp only [hasProduct, List.any_map]
  congr 1
  funext p
  by_cases hc : c p = true <;> simp [Function.comp, hc]

namespace Home

/-- With no failing read or write, the stock loop on the lines of an order is the stock loop
on the lines whose product has a row of the user. -/
theorem decrementLoop_filter (f : UpdateFaults) (userId : Nat)
    (hf : ∀ k, f.fetchProduct k = false) (hu : ∀ k, f.productUpdate k = false)
    (items : List OrderItem) :
    ∀ (k k' : Nat) (products : List Product),
      decrementLoop f userId k items products =
        decrementLoop f userId k' (items.filter (hasProduct userId products)) products := by
  induction items with
  | nil => intro k k' products; simp [decrementLoop]
  | cons item rest ih =>
    intro k k' products
    cases hhas : hasProduct userId products item with
    | false =>
      have hnil : products.filter
          (fun p => some p.id == item.product_id && p.user_id == userId) = [] := by
        rw [List.filter_eq_nil_iff]
        intro p hp hq
        have : hasProduct userId products item = true :=
          List.any_eq_true.mpr ⟨p, hp, hq⟩
        rw [hhas] at this
        cases this
      rw [List.filter_cons_of_neg (by simp [hhas])]
      simp only [decrementLoop, hf, Bool.false_eq_true, if_false, hnil, single]
      exact ih (k + 1) k' products
    | true =>
      rw [List.filter_cons_of_pos hhas]
      simp only [decrementLoop, hf, hu, Bool.false_eq_true, if_false]
      cases single (products.filter
          (fun p => some p.id == item.product_id && p.user_id == userId)) with
      | none => exact ih (k + 1) (k' + 1) products
      | some cur =>
        simp only []
        rw [ih (k + 1) (k' + 1), hasProduct_map_quantity]

/-- C14. Delivery with no failing call other than the lookups of missing products: the
handler gives the same store, product quantities included, as on the same order with the
lines removed whose product has no row of the user, it completes, and the order is stored as
delivered. -/
theorem handleUpdateOrderStatus_skips_missing (f : UpdateFaults) (now userId : Nat)
    (orders orders' : List OrderView) (orderId : Nat) (order : OrderView) (db : Db)
    (hok : f.orderUpdate = false) (hf : ∀ k, f.fetchProduct k = false)
    (hu : ∀ k, f.productUpdate k = false)
    (hfind : orders.find? (fun o => o.id == orderId) = some order)
    (hfind' : orders'.find? (fun o => o.id == orderId) =
      some { order with
        order_items := order.order_items.filter (hasProduct userId db.products) }) :
    handleUpdateOrderStatus f now (some userId) orders orderId .delivered db =
      handleUpdateOrderStatus f now (some userId) orders' orderId .delivered db ∧
    (handleUpdateOrderStatus f now (some userId) orders orderId .delivered db).2 =
      .completed ∧
    ∀ o ∈ db.orders, o.id = orderId → o.user_id = userId →
      { o with status := .delivered, completed_at := some now, is_paid := true } ∈
        (handleUpdateOrderStatus f now (some userId) orders orderId .delivered db).1.orders := by
  refine ⟨?_, (handleUpdateOrderStatus_completed_iff f now userId orders orderId .delivered
    db).mpr hok, ?_⟩
  · simp only [handleUpdateOrderStatus, hok, hfind, hfind', Bool.false_eq_true, if_false,
      if_true]
    rw [decrementLoop_filter f userId hf hu order.order_items 0 0 db.products]
  · intro o ho hid huser
    rw [handleUpdateOrderStatus_orders f now userId orders orderId .delivered db hok]
    exact List.mem_map.mpr ⟨o, ho, by simp [hid, huser]⟩

/-- Witness for C14: order 1 with a line on the missing product 99 and the line (P, 5); P
goes from 5 to 0, as with the line (P, 5) alone, and order 1 is stored as delivered. -/
theorem handleUpdateOrderStatus_skips_missing_witness :
    (handleUpdateOrderStatus UpdateFaults.none 1000 (some 1) [Scenario.mixedView] 1 .delivered
        Scenario.db0).1 = Scenario.db1 ∧
    handleUpdateOrderStatus UpdateFaults.none 1000 (some 1) [Scenario.mixedView] 1 .delivered
        Scenario.db0 =
      handleUpdateOrderStatus UpdateFaults.none 1000 (some 1) [Scenario.pendingView1] 1
        .delivered Scenario.db0 :=
  ⟨by decide,
    (handleUpdateOrderStatus_skips_missing UpdateFaults.none 1000 1 [Scenario.mixedView]
      [Scenario.pendingView1] 1 Scenario.mixedView Scenario.db0 rfl (fun _ => rfl)
      (fun _ => rfl) (by decide) (by decide)).1⟩

/-! ### Dashboard totals -/

theorem jsOrNull_zero (x : Option Int) : jsOrNull x 0 = x.getD 0 := by
  cases x with
  | none => rfl
  | some v =>
    simp only [jsOrNull, jsOr, Option.getD_some]
    split <;> simp_all

theorem foldl_add_eq_sum {α : Type} (g : α → Int) (l : List α) (a : Int) :
    l.foldl (fun sum x => sum + g x) a = a + (l.map g).sum := by
  induction l generalizing a with
  | nil => simp
  | cons x t ih => simp [ih, add_assoc]

/-- C15. The pending totals of the dashboard are the sums of `total_points` and of
`total_price`, a missing total counting 0, over the orders of the list whose status is
pending; an order with another status, wherever it stands in the list, does not change
them. -/
theorem totalPending_eq_sum (orders : List OrderView) :
    totalPendingPoints orders =
      ((orders.filter (fun o => decide (o.status = .pending))).map
        (fun o => o.total_points.getD 0)).sum ∧
    totalPendingPrice orders =
      ((orders.filter (fun o => decide (o.status = .pending))).map
        (fun o => o.total_price.getD 0)).sum ∧
    ∀ (o : OrderView) (before after : List OrderView), o.status ≠ .pending →
      totalPendingPoints (before ++ o :: after) = totalPendingPoints (before ++ after) ∧
      totalPendingPrice (before ++ o :: after) = totalPendingPrice (before ++ after) := by
  have hfilter : ∀ l : List OrderView,
      l.filter (fun order => order.status == .pending) =
        l.filter (fun o => decide (o.status = .pending)) := by
    intro l
    apply List.filter_congr
    intro o _
    by_cases h : o.status = .pending <;> simp [h]
  refine ⟨?_, ?_, ?_⟩
  · simp [totalPendingPoints, pendingOrders, foldl_add_eq_sum, jsOrNull_zero, hfilter]
  · simp [totalPendingPrice, pendingOrders, foldl_add_eq_sum, jsOrNull_zero, hfilter]
  · intro o before after ho
    have hdrop : pendingOrders (before ++ o :: after) = pendingOrders (before ++ after) := by
      simp [pendingOrders, List.filter_cons, ho]
    simp [totalPendingPoints, totalPendingPrice, hdrop]

/-- C16, counterexample. The time zone has days of 24 hours and every `new Date()` gives
`dashboardNow`, so the window starts at instant 1000. The delivered order completed exactly at
1000 is not counted, the delivered order completed at `dashboardNow` is counted: the totals
are those of the second order alone. -/
theorem deliveredOrdersLast60Days_counterexample :
    Scenario.subDaysUtc Scenario.dashboardNow 60 = 1000 ∧
    Scenario.completedAtWindowStart.status = .delivered ∧
    Scenario.completedAtWindowStart.completed_at = some 1000 ∧
    Scenario.completedAtNow.status = .delivered ∧
    Scenario.completedAtNow.completed_at = some Scenario.dashboardNow ∧
    deliveredOrdersLast60Days Scenario.subDaysUtc Scenario.dashboardClock
      [Scenario.completedAtWindowStart, Scenario.completedAtNow] = [Scenario.completedAtNow] ∧
    totalDelivered60DaysPoints Scenario.subDaysUtc Scenario.dashboardClock
      [Scenario.completedAtWindowStart, Scenario.completedAtNow] = 3 ∧
    totalDelivered60DaysPrice Scenario.subDaysUtc Scenario.dashboardClock
      [Scenario.completedAtWindowStart, Scenario.completedAtNow] = 10 := by
  decide

theorem mem_deliveredOrdersLast60Days (subDays : Nat → Nat → Int) (now : Nat → Nat)
    (orders : List OrderView) (o : OrderView) :
    o ∈ deliveredOrdersLast60Days subDays now orders ↔
      ∃ i, orders[i]? = some o ∧ deliveredInLast60Days subDays (now i) o = true := by
  unfold deliveredOrdersLast60Days
  constructor
  · intro h
    obtain ⟨e, he, rfl⟩ := List.mem_map.mp h
    rw [List.mem_filter] at he
    exact ⟨e.1, List.mk_mem_enum_iff_getElem?.mp he.1, he.2⟩
  · rintro ⟨i, hi, hp⟩
    exact List.mem_map.mpr
      ⟨(i, o), List.mem_filter.mpr ⟨List.mk_mem_enum_iff_getElem?.mpr hi, hp⟩, rfl⟩

/-- C16, amended. An order is counted in the delivered totals of the dashboard exactly when it
stands at some position of the list, its status is delivered and its `completed_at` is an
instant strictly later than `subDays(now, 60)`, where `now` is the `new Date()` taken for that
position and `subDays` the function of `date-fns`; no upper bound is tested, and the counted
orders keep the order of the list. The two totals are the sums of `total_points` and of
`total_price`, a missing total counting 0, over the counted orders. -/
theorem deliveredOrdersLast60Days_iff (subDays : Nat → Nat → Int) (now : Nat → Nat)
    (orders : List OrderView) :
    (∀ o, o ∈ deliveredOrdersLast60Days subDays now orders ↔
      ∃ i, orders[i]? = some o ∧ o.status = .delivered ∧
        ∃ t : Nat, o.completed_at = some t ∧ subDays (now i) 60 < (t : Int)) ∧
    (deliveredOrdersLast60Days subDays now orders).Sublist orders ∧
    totalDelivered60DaysPoints subDays now orders =
      ((deliveredOrdersLast60Days subDays now orders).map
        (fun o => o.total_points.getD 0)).sum ∧
    totalDelivered60DaysPrice subDays now orders =
      ((deliveredOrdersLast60Days subDays now orders).map
        (fun o => o.total_price.getD 0)).sum := by
  refine ⟨?_, ?_, ?_, ?_⟩
  · intro o
    rw [mem_deliveredOrdersLast60Days]
    constructor
    · rintro ⟨i, hi, h⟩
      refine ⟨i, hi, ?_⟩
      unfold deliveredInLast60Days at h
      cases hc : o.completed_at with
      | none => simp [hc] at h
      | some t =>
        by_cases hs : o.status = .delivered
        · simp [hc, hs] at h
          exact ⟨hs, t, rfl, h⟩
        · simp [hc, hs] at h
    · rintro ⟨i, hi, hs, t, hc, hlt⟩
      refine ⟨i, hi, ?_⟩
      simp [deliveredInLast60Days, hc, hs, hlt]
  · unfold deliveredOrdersLast60Days
    have h1 : ((orders.enum.filter
        (fun e => deliveredInLast60Days subDays (now e.1) e.2)).map Prod.snd).Sublist
        (orders.enum.map Prod.snd) := (List.filter_sublist _).map _
    simpa using h1
  · simp [totalDelivered60DaysPoints, foldl_add_eq_sum, jsOrNull_zero]
  · simp [totalDelivered60DaysPrice, foldl_add_eq_sum, jsOrNull_zero]

/-- The window of the dashboard follows the local calendar. An order completed 59 days, 23
hours and a half before `dashboardNow` is counted where all days have 24 hours, and not
counted where the 60 days hold a change to summer time. -/
theorem deliveredOrdersLast60Days_local_days :
    deliveredOrdersLast60Days Scenario.subDaysUtc Scenario.dashboardClock
      [Scenario.completedInSummerTime] = [Scenario.completedInSummerTime] ∧
    deliveredOrdersLast60Days Scenario.subDaysAcrossChange Scenario.dashboardClock
      [Scenario.completedInSummerTime] = [] := by
  decide

end Home

/-! ## Objects held as lists of entries -/

theorem filter_key_length_le_one {α β : Type} [DecidableEq α] (k : α) :
    ∀ (m : List (α × β)), (m.map Prod.fst).Nodup →
      (m.filter (fun e => e.1 == k)).length ≤ 1 := by
  intro m
  induction m with
  | nil => intro _; simp
  | cons e t ih =>
    intro hnd
    rw [List.map_cons, List.nodup_cons] at hnd
    by_cases he : e.1 = k
    · have ht : t.filter (fun x => x.1 == k) = [] := by
        rw [List.filter_eq_nil_iff]
        intro x hx hxk
        apply hnd.1
        have : x.1 = k := by simpa using hxk
        rw [he, ← this]
        exact List.mem_map.mpr ⟨x, hx, rfl⟩
      simp [List.filter_cons, he, ht]
    · simpa [List.filter_cons, he] using ih hnd.2

theorem filter_key_eq_singleton {α β : Type} [DecidableEq α] (k : α) (b : β)
    (m : List (α × β)) (hnd : (m.map Prod.fst).Nodup) (hmem : (k, b) ∈ m) :
    m.filter (fun e => e.1 == k) = [(k, b)] := by
  have hlen := filter_key_length_le_one k m hnd
  have hin : (k, b) ∈ m.filter (fun e => e.1 == k) := by
    rw [List.mem_filter]
    exact ⟨hmem, by simp⟩
  cases hf : m.filter (fun e => e.1 == k) with
  | nil =>
    rw [hf] at hin
    simp at hin
  | cons x t =>
    rw [hf] at hin hlen
    cases t with
    | nil =>
      have : (k, b) = x := by simpa using hin
      rw [this]
    | cons y t' => simp at hlen

namespace Reports

theorem addSale_keys (m : List (String × SalesRow)) (key label : String) (a : Int) :
    (addSale m key label a).map Prod.fst =
      if m.any (fun e => e.1 == key) then m.map Prod.fst else m.map Prod.fst ++ [key] := by
  have hfst : (Prod.fst ∘ fun e : String × SalesRow =>
      if (e.1 == key) = true then (e.1, { e.2 with totalSales := e.2.totalSales + a })
      else e) = Prod.fst := by
    funext e
    by_cases h : (e.1 == key) = true <;> simp [Function.comp, h]
  unfold addSale
  simp only [List.map_map, hfst]
  split <;> simp

theorem addSale_nodup (m : List (String × SalesRow)) (key label : String) (a : Int)
    (hnd : (m.map Prod.fst).Nodup) : ((addSale m key label a).map Prod.fst).Nodup := by
  rw [addSale_keys]
  split
  · exact hnd
  · next hany =>
    rw [List.nodup_append]
    refine ⟨hnd, by simp, ?_⟩
    intro x hx hx'
    have hxk : x = key := by simpa using hx'
    subst hxk
    obtain ⟨e, he, hek⟩ := List.mem_map.mp hx
    apply hany
    exact List.any_eq_true.mpr ⟨e, he, by simp [hek]⟩

theorem keyTotal_addSale (m : List (String × SalesRow)) (key label : String) (a : Int)
    (hnd : (m.map Prod.fst).Nodup) (k : String) :
    keyTotal (addSale m key label a) k = keyTotal m k + if key = k then a else 0 := by
  have hcomm : ∀ l : List (String × SalesRow),
      (l.map (fun e : String × SalesRow =>
        if (e.1 == key) = true then (e.1, { e.2 with totalSales := e.2.totalSales + a })
        else e)).filter (fun e => e.1 == k) =
      (l.filter (fun e => e.1 == k)).map (fun e : String × SalesRow =>
        if (e.1 == key) = true then (e.1, { e.2 with totalSales := e.2.totalSales + a })
        else e) := by
    intro l
    rw [List.filter_map]
    congr 1
    apply List.filter_congr
    intro e _
    by_cases h : (e.1 == key) = true <;> simp [Function.comp, h]
  by_cases hk : key = k
  · subst hk
    simp only [if_true]
    unfold keyTotal addSale
    by_cases hany : m.any (fun e => e.1 == key) = true
    · obtain ⟨e, he, hek⟩ := List.any_eq_true.mp hany
      have hek' : e.1 = key := by simpa using hek
      have hsing := filter_key_eq_singleton key e.2 m hnd (by rw [← hek']; exact he)
      simp only [hany, if_true, hcomm, hsing]
      simp
    · have hnil : m.filter (fun e => e.1 == key) = [] := by
        rw [List.filter_eq_nil_iff]
        intro e he hek
        exact hany (List.any_eq_true.mpr ⟨e, he, hek⟩)
      simp only [hany, Bool.false_eq_true, if_false, hcomm, List.filter_append, hnil]
      simp
  · simp only [hk, if_false, add_zero]
    unfold keyTotal addSale
    have hsame : ∀ l : List (String × SalesRow),
        (l.filter (fun e => e.1 == k)).map (fun e : String × SalesRow =>
          if (e.1 == key) = true then (e.1, { e.2 with totalSales := e.2.totalSales + a })
          else e) = l.filter (fun e => e.1 == k) := by
      intro l
      conv_rhs => rw [← List.map_id (l.filter (fun e => e.1 == k))]
      apply List.map_congr_left
      intro e he
      have hek : e.1 = k := by simpa using (List.mem_filter.mp he).2
      have : ¬ e.1 = key := fun h => hk (h.symm.trans hek)
      simp [this]
    split
    · rw [hcomm, hsame]
    · rw [hcomm, hsame, List.filter_append]
      simp [hk]

/-- On items that all carry a non-zero price snapshot, `calculateOrderTotals` is the sum of
`quantity × price_at_sale`, whatever the catalog. -/
theorem calculateOrderTotals_snapshots (products : List Product) (items : List OrderItem)
    (hsnap : ∀ it ∈ items, ∃ v, it.price_at_sale = some v ∧ v ≠ 0) :
    calculateOrderTotals products items = sumPriceAtSale items := by
  have hgen : ∀ (l : List OrderItem), (∀ it ∈ l, ∃ v, it.price_at_sale = some v ∧ v ≠ 0) →
      ∀ a : Int,
      l.foldl (fun totalPrice item =>
        totalPrice + jsOrNull item.price_at_sale
          (match products.find? (fun p => some p.id == item.product_id) with
            | some p => p.price_per_unit
            | none => 0) * item.quantity) a = a + sumPriceAtSale l := by
    intro l
    induction l with
    | nil => intro _ a; simp [sumPriceAtSale]
    | cons it t ih =>
      intro h a
      obtain ⟨v, hv, hv0⟩ := h it (List.mem_cons_self it t)
      rw [List.foldl_cons, ih (fun x hx => h x (List.mem_cons_of_mem it hx))]
      simp [sumPriceAtSale, hv, jsOrNull, jsOr, hv0, mul_comm, add_assoc]
  have := hgen items hsnap 0
  simpa [calculateOrderTotals] using this

theorem inSelectedRange_iff (cal : Calendar) (startMonth endMonth : String) (t : Nat) :
    inSelectedRange cal startMonth endMonth t = true ↔
      (startMonth = "" ∨ endMonth = "" ∨
        (cal.startOfMonth startMonth ≤ t ∧ t ≤ cal.endOfMonth endMonth)) := by
  simp [inSelectedRange, or_assoc]

/-- When the selection is not reversed, `includeInReport` is the test of the selected
range. -/
theorem includeInReport_proper (cal : Calendar) (startMonth endMonth : String) (t : Nat)
    (hsel : startMonth = "" ∨ endMonth = "" ∨
      cal.startOfMonth startMonth ≤ cal.endOfMonth endMonth) :
    includeInReport cal startMonth endMonth t =
      some (inSelectedRange cal startMonth endMonth t) := by
  unfold includeInReport inSelectedRange isWithinInterval
  by_cases h1 : startMonth = ""
  · simp [h1]
  · by_cases h2 : endMonth = ""
    · simp [h2]
    · have h3 : cal.startOfMonth startMonth ≤ cal.endOfMonth endMonth := by
        rcases hsel with h | h | h
        · exact absurd h h1
        · exact absurd h h2
        · exact h
      simp [h1, h2, h3]

theorem addOrder_proper (cal : Calendar) (products : List Product)
    (startMonth endMonth : String) (m : List (String × SalesRow)) (order : OrderView)
    (hsel : startMonth = "" ∨ endMonth = "" ∨
      cal.startOfMonth startMonth ≤ cal.endOfMonth endMonth) :
    addOrder cal products startMonth endMonth m order =
      some (addOrderWith cal startMonth endMonth
        (fun o => calculateOrderTotals products o.order_items) m order) := by
  unfold addOrder addOrderWith
  cases hc : order.completed_at with
  | none => rfl
  | some t => simp [includeInReport_proper cal startMonth endMonth t hsel]

/-- When the selection is not reversed no call of the body throws, and the object
`monthlySales` is the grouping by month of the totals of `calculateOrderTotals`. -/
theorem monthlySales_eq_foldl (cal : Calendar) (products : List Product)
    (startMonth endMonth : String) (ordersData : List OrderView)
    (hsel : startMonth = "" ∨ endMonth = "" ∨
      cal.startOfMonth startMonth ≤ cal.endOfMonth endMonth) :
    monthlySales cal products startMonth endMonth ordersData =
      some (ordersData.foldl (addOrderWith cal startMonth endMonth
        (fun order => calculateOrderTotals products order.order_items)) []) := by
  have hgen : ∀ (l : List OrderView) (m : List (String × SalesRow)),
      l.foldl (fun acc order =>
        acc.bind (fun monthlySales =>
          addOrder cal products startMonth endMonth monthlySales order)) (some m) =
      some (l.foldl (addOrderWith cal startMonth endMonth
        (fun order => calculateOrderTotals products order.order_items)) m) := by
    intro l
    induction l with
    | nil => intro m; rfl
    | cons o rest ih =>
      intro m
      rw [List.foldl_cons, List.foldl_cons, Option.some_bind,
        addOrder_proper cal products startMonth endMonth m o hsel, ih]
  exact hgen ordersData []

theorem ordersOfMonth_append (cal : Calendar) (startMonth endMonth key : String)
    (l₁ l₂ : List OrderView) :
    ordersOfMonth cal startMonth endMonth key (l₁ ++ l₂) =
      ordersOfMonth cal startMonth endMonth key l₁ ++
        ordersOfMonth cal startMonth endMonth key l₂ := by
  simp [ordersOfMonth, List.filter_append]

/-- The invariant of the `forEach` of the monthly report: the keys stay distinct, and under
each key stands the sum of the totals of the orders put under it so far. -/
theorem foldl_addOrderWith_inv (cal : Calendar) (startMonth endMonth : String)
    (total : OrderView → Int) :
    ∀ (rest done : List OrderView) (m : List (String × SalesRow)),
      (m.map Prod.fst).Nodup →
      (∀ k, keyTotal m k =
        ((ordersOfMonth cal startMonth endMonth k done).map total).sum) →
      ((rest.foldl (addOrderWith cal startMonth endMonth total) m).map Prod.fst).Nodup ∧
      ∀ k, keyTotal (rest.foldl (addOrderWith cal startMonth endMonth total) m) k =
        ((ordersOfMonth cal startMonth endMonth k (done ++ rest)).map total).sum := by
  intro rest
  induction rest with
  | nil => intro done m hnd hsum; simpa using ⟨hnd, hsum⟩
  | cons o rest ih =>
    intro done m hnd hsum
    have hstep : ((addOrderWith cal startMonth endMonth total m o).map Prod.fst).Nodup ∧
        ∀ k, keyTotal (addOrderWith cal startMonth endMonth total m o) k =
          ((ordersOfMonth cal startMonth endMonth k (done ++ [o])).map total).sum := by
      unfold addOrderWith
      cases hc : o.completed_at with
      | none =>
        refine ⟨hnd, fun k => ?_⟩
        rw [ordersOfMonth_append, hsum k]
        simp [ordersOfMonth, hc]
      | some t =>
        by_cases hin : inSelectedRange cal startMonth endMonth t = true
        · simp only [hin, if_true]
          refine ⟨addSale_nodup m _ _ _ hnd, fun k => ?_⟩
          rw [keyTotal_addSale m _ _ _ hnd k, ordersOfMonth_append, hsum k]
          by_cases hk : cal.monthKey t = k <;> simp [ordersOfMonth, hc, hin, hk]
        · simp only [hin, Bool.false_eq_true, if_false]
          refine ⟨hnd, fun k => ?_⟩
          rw [ordersOfMonth_append, hsum k]
          simp [ordersOfMonth, hc, hin]
    have := ih (done ++ [o]) (addOrderWith cal startMonth endMonth total m o) hstep.1 hstep.2
    simpa [List.append_assoc] using this

theorem find_key_of_mem {β : Type} (m : List (String × β)) (key : String)
    (h : key ∈ m.map Prod.fst) :
    ∃ b, m.find? (fun e => e.1 == key) = some (key, b) ∧ (key, b) ∈ m := by
  cases hf : m.find? (fun e => e.1 == key) with
  | none =>
    rw [List.find?_eq_none] at hf
    obtain ⟨e, he, hek⟩ := List.mem_map.mp h
    exact absurd (by simp [hek]) (hf e he)
  | some e =>
    have hk : e.1 = key := by simpa using List.find?_some hf
    have hm : e ∈ m := List.mem_of_find?_eq_some hf
    refine ⟨e.2, ?_, ?_⟩
    · rw [← hk]
    · rw [← hk]; exact hm

theorem forall₂_filterMap_lookup {β : Type} (m : List (String × β)) :
    ∀ keys : List String, (∀ k ∈ keys, k ∈ m.map Prod.fst) →
      List.Forall₂ (fun key b => (key, b) ∈ m) keys
        (keys.filterMap (fun key => (m.find? (fun e => e.1 == key)).map (fun e => e.2))) := by
  intro keys
  induction keys with
  | nil => intro _; simp
  | cons k keys ih =>
    intro h
    obtain ⟨b, hfind, hmem⟩ := find_key_of_mem m k (h k (by simp))
    rw [List.filterMap_cons]
    simp only [hfind, Option.map_some']
    exact List.Forall₂.cons hmem (ih (fun k' hk' => h k' (List.mem_cons_of_mem _ hk')))

/-- The keys of `monthlySales` after the `forEach`: the month keys of the orders whose
`completed_at` is set and inside the selected range. -/
theorem foldl_addOrderWith_keys (cal : Calendar) (startMonth endMonth : String)
    (total : OrderView → Int) :
    ∀ (rest done : List OrderView) (m : List (String × SalesRow)),
      (∀ k, k ∈ m.map Prod.fst ↔ ∃ o ∈ done, ∃ t, o.completed_at = some t ∧
        inSelectedRange cal startMonth endMonth t = true ∧ cal.monthKey t = k) →
      ∀ k, k ∈ (rest.foldl (addOrderWith cal startMonth endMonth total) m).map Prod.fst ↔
        ∃ o ∈ done ++ rest, ∃ t, o.completed_at = some t ∧
          inSelectedRange cal startMonth endMonth t = true ∧ cal.monthKey t = k := by
  intro rest
  induction rest with
  | nil => intro done m h k; simpa using h k
  | cons o rest ih =>
    intro done m h k
    have hstep : ∀ k, k ∈ (addOrderWith cal startMonth endMonth total m o).map Prod.fst ↔
        ∃ o' ∈ done ++ [o], ∃ t, o'.completed_at = some t ∧
          inSelectedRange cal startMonth endMonth t = true ∧ cal.monthKey t = k := by
      intro k
      unfold addOrderWith
      cases hc : o.completed_at with
      | none =>
        simp only []
        rw [h k]
        constructor
        · rintro ⟨o', ho', t, h1, h2, h3⟩
          exact ⟨o', List.mem_append_left _ ho', t, h1, h2, h3⟩
        · rintro ⟨o', ho', t, h1, h2, h3⟩
          rcases List.mem_append.mp ho' with hold | hnew
          · exact ⟨o', hold, t, h1, h2, h3⟩
          · have : o' = o := by simpa using hnew
            subst this
            rw [hc] at h1
            exact absurd h1 (by simp)
      | some t =>
        simp only []
        by_cases hi : inSelectedRange cal startMonth endMonth t = true
        · rw [if_pos hi, addSale_keys]
          have hkey : (k ∈ (if m.any (fun e => e.1 == cal.monthKey t) = true then
              m.map Prod.fst else m.map Prod.fst ++ [cal.monthKey t])) ↔
              (k ∈ m.map Prod.fst ∨ k = cal.monthKey t) := by
            split
            · next hany =>
              constructor
              · exact Or.inl
              · rintro (h1 | h1)
                · exact h1
                · obtain ⟨e, he, hek⟩ := List.any_eq_true.mp hany
                  have hek' : e.1 = cal.monthKey t := by simpa using hek
                  rw [h1, ← hek']
                  exact List.mem_map_of_mem _ he
            · simp
          rw [hkey, h k]
          constructor
          · rintro (⟨o', ho', t', h1, h2, h3⟩ | h1)
            · exact ⟨o', List.mem_append_left _ ho', t', h1, h2, h3⟩
            · exact ⟨o, by simp, t, hc, hi, h1.symm⟩
          · rintro ⟨o', ho', t', h1, h2, h3⟩
            rcases List.mem_append.mp ho' with hold | hnew
            · exact Or.inl ⟨o', hold, t', h1, h2, h3⟩
            · have : o' = o := by simpa using hnew
              subst this
              rw [hc] at h1
              have : t = t' := Option.some.inj h1
              subst this
              exact Or.inr h3.symm
        · rw [if_neg hi, h k]
          constructor
          · rintro ⟨o', ho', t', h1, h2, h3⟩
            exact ⟨o', List.mem_append_left _ ho', t', h1, h2, h3⟩
          · rintro ⟨o', ho', t', h1, h2, h3⟩
            rcases List.mem_append.mp ho' with hold | hnew
            · exact ⟨o', hold, t', h1, h2, h3⟩
            · have : o' = o := by simpa using hnew
              subst this
              rw [hc] at h1
              have : t = t' := Option.some.inj h1
              subst this
              exact absurd h2 hi
    have := ih (done ++ [o]) (addOrderWith cal startMonth endMonth total m o) hstep k
    simpa [List.append_assoc] using this

/-- C17, counterexample. With P at price 10 and March 2024 selected as start and end month:
the order stored with `total_price` 50 whose line is 5 units at snapshot 7 is reported 35; the
order stored with `total_price` 0 whose line is 5 units at snapshot 0 is reported 50, and 60
once P is at price 12. -/
theorem monthlySalesReport_counterexample :
    Scenario.storedFifty.total_price = some 50 ∧
    monthlySalesReport Scenario.calendar [Scenario.P] "2024-03" "2024-03"
      [Scenario.storedFifty] = some [{ name := "Mar 2024", totalSales := 35 }] ∧
    Scenario.soldAtZero.total_price = some 0 ∧
    monthlySalesReport Scenario.calendar [Scenario.P] "2024-03" "2024-03"
      [Scenario.soldAtZero] = some [{ name := "Mar 2024", totalSales := 50 }] ∧
    monthlySalesReport Scenario.calendar [{ Scenario.P with price_per_unit := 12 }]
      "2024-03" "2024-03" [Scenario.soldAtZero] =
      some [{ name := "Mar 2024", totalSales := 60 }] := by
  decide

/-- C17, amended. When the selection is not reversed, the report is produced and the object
`monthlySales` has each month key at most once, every row of the report being the entry of a
month. For a month whose orders (the fetched orders completed in that month and inside the
selected range, from the start of the start month to the end of the end month) have items
that all carry a non-zero price snapshot, `totalSales` is the sum over those orders of the
order total recomputed from the items as the sum of `quantity × price_at_sale`; the stored
`total_price` is not read, and `totalSales` is the sum of the stored `total_price` when each
of those orders stores that sum. For such a month the report made with any other catalog has
an entry with the same `totalSales`. -/
theorem monthlySales_totalSales (cal : Calendar) (products : List Product)
    (startMonth endMonth : String) (ordersData : List OrderView)
    (hsel : startMonth = "" ∨ endMonth = "" ∨
      cal.startOfMonth startMonth ≤ cal.endOfMonth endMonth) :
    ∃ sales rows,
      monthlySales cal products startMonth endMonth ordersData = some sales ∧
      monthlySalesReport cal products startMonth endMonth ordersData = some rows ∧
      (sales.map Prod.fst).Nodup ∧
      (∀ row ∈ rows, ∃ k, (k, row) ∈ sales) ∧
      ∀ k row, (k, row) ∈ sales →
        (∀ o ∈ ordersOfMonth cal startMonth endMonth k ordersData, ∀ it ∈ o.order_items,
          ∃ v, it.price_at_sale = some v ∧ v ≠ 0) →
        row.totalSales = ((ordersOfMonth cal startMonth endMonth k ordersData).map
          (fun o => sumPriceAtSale o.order_items)).sum ∧
        ((∀ o ∈ ordersOfMonth cal startMonth endMonth k ordersData,
            o.total_price = some (sumPriceAtSale o.order_items)) →
          row.totalSales = ((ordersOfMonth cal startMonth endMonth k ordersData).map
            (fun o => o.total_price.getD 0)).sum) ∧
        ∀ products' : List Product, ∃ sales' row',
          monthlySales cal products' startMonth endMonth ordersData = some sales' ∧
          (k, row') ∈ sales' ∧ row'.totalSales = row.totalSales := by
  have hinv : ∀ catalog : List Product,
      ((ordersData.foldl (addOrderWith cal startMonth endMonth
        (fun o => calculateOrderTotals catalog o.order_items)) []).map Prod.fst).Nodup ∧
      ∀ k, keyTotal (ordersData.foldl (addOrderWith cal startMonth endMonth
        (fun o => calculateOrderTotals catalog o.order_items)) []) k =
        ((ordersOfMonth cal startMonth endMonth k ordersData).map
          (fun o => calculateOrderTotals catalog o.order_items)).sum := by
    intro catalog
    have h := foldl_addOrderWith_inv cal startMonth endMonth
      (fun o => calculateOrderTotals catalog o.order_items) ordersData [] [] (by simp)
      (by intro k; simp [keyTotal, ordersOfMonth])
    rw [List.nil_append] at h
    exact h
  have hkeys : ∀ (catalog : List Product) (k : String),
      k ∈ (ordersData.foldl (addOrderWith cal startMonth endMonth
        (fun o => calculateOrderTotals catalog o.order_items)) []).map Prod.fst ↔
      ∃ o ∈ ordersData, ∃ t, o.completed_at = some t ∧
        inSelectedRange cal startMonth endMonth t = true ∧ cal.monthKey t = k := by
    intro catalog k
    have h := foldl_addOrderWith_keys cal startMonth endMonth
      (fun o => calculateOrderTotals catalog o.order_items) ordersData [] [] (by simp) k
    rw [List.nil_append] at h
    exact h
  have hrowsum : ∀ (catalog : List Product) (k : String) (row : SalesRow),
      (k, row) ∈ ordersData.foldl (addOrderWith cal startMonth endMonth
        (fun o => calculateOrderTotals catalog o.order_items)) [] →
      (∀ o ∈ ordersOfMonth cal startMonth endMonth k ordersData, ∀ it ∈ o.order_items,
        ∃ v, it.price_at_sale = some v ∧ v ≠ 0) →
      row.totalSales = ((ordersOfMonth cal startMonth endMonth k ordersData).map
        (fun o => sumPriceAtSale o.order_items)).sum := by
    intro catalog k row hmem hsnap
    have h1 : row.totalSales = ((ordersOfMonth cal startMonth endMonth k ordersData).map
        (fun o => calculateOrderTotals catalog o.order_items)).sum := by
      rw [← (hinv catalog).2 k]
      simp [keyTotal, filter_key_eq_singleton k row _ (hinv catalog).1 hmem]
    rw [h1]
    congr 1
    apply List.map_congr_left
    intro o ho
    exact calculateOrderTotals_snapshots catalog o.order_items (hsnap o ho)
  refine ⟨_, _, monthlySales_eq_foldl cal products startMonth endMonth ordersData hsel,
    by rw [monthlySalesReport, monthlySales_eq_foldl cal products startMonth endMonth
      ordersData hsel]; rfl, (hinv products).1, ?_, ?_⟩
  · intro row hrow
    simp only [List.mem_filterMap] at hrow
    obtain ⟨key, _, hfind⟩ := hrow
    cases hf : (ordersData.foldl (addOrderWith cal startMonth endMonth
        (fun o => calculateOrderTotals products o.order_items)) []).find?
        (fun e => e.1 == key) with
    | none => simp [hf] at hfind
    | some e =>
      simp [hf] at hfind
      refine ⟨e.1, ?_⟩
      rw [← hfind]
      exact List.mem_of_find?_eq_some hf
  · intro k row hmem hsnap
    have hrow := hrowsum products k row hmem hsnap
    refine ⟨hrow, ?_, ?_⟩
    · intro htot
      rw [hrow]
      congr 1
      apply List.map_congr_left
      intro o ho
      simp [htot o ho]
    · intro products'
      have hk : k ∈ (ordersData.foldl (addOrderWith cal startMonth endMonth
          (fun o => calculateOrderTotals products' o.order_items)) []).map Prod.fst :=
        (hkeys products' k).mpr ((hkeys products k).mp (List.mem_map_of_mem Prod.fst hmem))
      obtain ⟨row', _, hmem'⟩ := find_key_of_mem _ k hk
      exact ⟨_, row', monthlySales_eq_foldl cal products' startMonth endMonth ordersData hsel,
        hmem', by rw [hrow, hrowsum products' k row' hmem' hsnap]⟩

/-- Witness for C17, amended: March and April 2024 selected, order 1 delivered in March with
its line of 5 units at snapshot 10, and an order delivered in May, outside the range. -/
theorem monthlySales_totalSales_witness :
    monthlySalesReport Scenario.calendar [Scenario.P] "2024-03" "2024-04"
        [Scenario.deliveredMarch, Scenario.deliveredMay] =
      some [{ name := "Mar 2024", totalSales := 50 }] ∧
    ∃ sales, monthlySales Scenario.calendar [Scenario.P] "2024-03" "2024-04"
        [Scenario.deliveredMarch, Scenario.deliveredMay] = some sales ∧
      (sales.map Prod.fst).Nodup := by
  refine ⟨by decide, ?_⟩
  obtain ⟨sales, _, h1, _, h3, _⟩ :=
    monthlySales_totalSales Scenario.calendar [Scenario.P] "2024-03" "2024-04"
      [Scenario.deliveredMarch, Scenario.deliveredMay] (Or.inr (Or.inr (by decide)))
  exact ⟨sales, h1, h3⟩

/-- C18, the failing input evaluated. One item of 2 units of P with the price snapshot 0,
P being at price 10: `calculateOrderTotals` returns 20, where quantity times the snapshot
is 0. -/
theorem calculateOrderTotals_zero_snapshot :
    Scenario.zeroSnapshotLine.price_at_sale = some 0 ∧
    Scenario.zeroSnapshotLine.quantity = 2 ∧
    calculateOrderTotals [Scenario.P] [Scenario.zeroSnapshotLine] = 20 ∧
    sumPriceAtSale [Scenario.zeroSnapshotLine] = 0 := by
  decide

end Reports

/-! ## Loan totals -/

namespace Partners

/-- C19, counterexample. After the loan of 4 units of P (snapshots 3 and 10) the totals of
partner 3 are 12 points and 40; once P has been edited to points 4 and price 12 they are 16
and 48, while the stored loan and its snapshots are the same. -/
theorem calculateLoanTotals_counterexample :
    (handleSubmitLoan ⟨false, false⟩ 1 (some 1) (fetchProducts 1 Scenario.db10) 3 (some 1) 4 77
      Scenario.db10).1 = Scenario.dbLoan ∧
    (Inventory.handleSubmitProduct false 9 (some 1) (some { Scenario.P with quantity := 6 }) "P"
      6 12 4 Scenario.dbLoan).1 = Scenario.dbLoanEdited ∧
    Scenario.dbLoanEdited.loans = Scenario.dbLoan.loans ∧
    calculateLoanTotals (fetchLoans 3 Scenario.dbLoan) =
      { totalPoints := 12, totalPrice := 40 } ∧
    calculateLoanTotals (fetchLoans 3 Scenario.dbLoanEdited) =
      { totalPoints := 16, totalPrice := 48 } := by
  decide

theorem foldl_addLoan (loans : List LoanView) (acc : Home.Totals) :
    loans.foldl addLoan acc =
      { totalPoints := acc.totalPoints + (loans.map (fun l =>
          l.quantity * ((l.products.map (fun p => p.points_per_unit)).getD 0))).sum
        totalPrice := acc.totalPrice + (loans.map (fun l =>
          l.quantity * ((l.products.map (fun p => p.price_per_unit)).getD 0))).sum } := by
  induction loans generalizing acc with
  | nil => simp
  | cons l t ih =>
    rw [List.foldl_cons, ih]
    cases hp : l.products <;> simp [addLoan, hp, add_assoc]

/-- C19, amended. `calculateLoanTotals(partner.loans)` returns as `totalPoints` the sum over
the loans of quantity times the current `points_per_unit` of the nested product, and as
`totalPrice` the sum of quantity times its current `price_per_unit`, a loan with no nested
product counting 0. The snapshots `points_at_loan` and `price_at_loan` are not read: two lists
of loans with the same quantities and nested products have the same totals. -/
theorem calculateLoanTotals_eq (loans : List LoanView) :
    calculateLoanTotals loans =
      { totalPoints := (loans.map (fun l =>
          l.quantity * ((l.products.map (fun p => p.points_per_unit)).getD 0))).sum
        totalPrice := (loans.map (fun l =>
          l.quantity * ((l.products.map (fun p => p.price_per_unit)).getD 0))).sum } ∧
    ∀ loans' : List LoanView,
      loans'.map (fun l => (l.quantity, l.products)) =
        loans.map (fun l => (l.quantity, l.products)) →
      calculateLoanTotals loans' = calculateLoanTotals loans := by
  have hval : ∀ ls : List LoanView, calculateLoanTotals ls =
      { totalPoints := ((ls.map (fun l => (l.quantity, l.products))).map (fun q =>
          q.1 * ((q.2.map (fun p => p.points_per_unit)).getD 0))).sum
        totalPrice := ((ls.map (fun l => (l.quantity, l.products))).map (fun q =>
          q.1 * ((q.2.map (fun p => p.price_per_unit)).getD 0))).sum } := by
    intro ls
    simp only [calculateLoanTotals, foldl_addLoan, List.map_map, zero_add]
    rfl
  refine ⟨by simp [calculateLoanTotals, foldl_addLoan], ?_⟩
  intro loans' h
  rw [hval loans', hval loans, h]

end Partners

namespace Home

/-- Witness for C15: the pending order 1 (15 points, price 50), a cancelled order and a
pending order without totals give 15 and 50. -/
theorem totalPending_eq_sum_witness :
    totalPendingPoints
      [Scenario.pendingView1, Scenario.cancelledView, Scenario.pendingNoTotals] = 15 ∧
    totalPendingPrice
      [Scenario.pendingView1, Scenario.cancelledView, Scenario.pendingNoTotals] = 50 ∧
    totalPendingPoints ([Scenario.pendingView1] ++ Scenario.cancelledView ::
      [Scenario.pendingNoTotals]) =
      totalPendingPoints ([Scenario.pendingView1] ++ [Scenario.pendingNoTotals]) :=
  ⟨by decide, by decide,
    ((totalPending_eq_sum []).2.2 Scenario.cancelledView [Scenario.pendingView1]
      [Scenario.pendingNoTotals] (by decide)).1⟩

end Home

/-! ## Missing products in the aggregations -/

/-- C20. The four folds are total functions, and an element whose product reference is
missing, put anywhere in the input, leaves their result unchanged: for
`Home.calculateOrderTotals` an item whose product is not in the catalog, for
`Partners.calculateLoanTotals` and `Stats.processPartnerLoanData` a loan whose nested
`products` is null, for `Stats.processSalesData` an order item whose nested `products` is
null, in any order of the list. -/
theorem missing_product_contributes_zero :
    (∀ (products : List Product) (before after : List Home.Item) (item : Home.Item),
      products.find? (fun p => some p.id == (item.productId <|> item.product_id)) = none →
      Home.calculateOrderTotals products (before ++ item :: after) =
        Home.calculateOrderTotals products (before ++ after)) ∧
    (∀ (before after : List Partners.LoanView) (loan : Partners.LoanView),
      loan.products = none →
      Partners.calculateLoanTotals (before ++ loan :: after) =
        Partners.calculateLoanTotals (before ++ after)) ∧
    (∀ (before after : List Stats.LoanRow) (loan : Stats.LoanRow),
      loan.products = none →
      Stats.processPartnerLoanData (before ++ loan :: after) =
        Stats.processPartnerLoanData (before ++ after)) ∧
    (∀ (cal : Stats.Calendar) (now : Nat) (ordersBefore ordersAfter : List Stats.SalesOrder)
      (completedAt : Option Nat) (before after : List Stats.Item) (item : Stats.Item),
      item.products = none →
      Stats.processSalesData cal now (ordersBefore ++
          { completed_at := completedAt, order_items := before ++ item :: after } ::
            ordersAfter) =
        Stats.processSalesData cal now (ordersBefore ++
          { completed_at := completedAt, order_items := before ++ after } :: ordersAfter)) := by
  refine ⟨?_, ?_, ?_, ?_⟩
  · intro products before after item h
    simp [Home.calculateOrderTotals, List.foldl_append, Home.addItem, h]
  · intro before after loan h
    simp [Partners.calculateLoanTotals, List.foldl_append, Partners.addLoan, h]
  · intro before after loan h
    have hskip : ∀ m, Stats.addLoan m loan = m := by
      intro m
      cases hp : loan.partners <;> simp [Stats.addLoan, hp, h]
    simp [Stats.processPartnerLoanData, List.foldl_append, hskip]
  · intro cal now ordersBefore ordersAfter completedAt before after item h
    have hskip : ∀ (my : String) (m : List (String × Stats.MonthTotals)),
        Stats.addItem my m item = m := by
      intro my m
      simp [Stats.addItem, h]
    have horder : ∀ m, Stats.addOrder cal m
        { completed_at := completedAt, order_items := before ++ item :: after } =
        Stats.addOrder cal m { completed_at := completedAt, order_items := before ++ after } := by
      intro m
      simp [Stats.addOrder, List.foldl_append, hskip]
    simp [Stats.processSalesData, List.foldl_append, horder]

/-- Witness for C20: an item on a product that the catalog does not hold, before the line
(P, 5). -/
theorem missing_product_contributes_zero_witness :
    Home.calculateOrderTotals [Scenario.P]
        ([] ++ Home.ofOrderItem Scenario.lineMissing :: [Home.ofOrderItem Scenario.line1]) =
      { totalPoints := 15, totalPrice := 50 } ∧
    Home.calculateOrderTotals [Scenario.P]
        ([] ++ Home.ofOrderItem Scenario.lineMissing :: [Home.ofOrderItem Scenario.line1]) =
      Home.calculateOrderTotals [Scenario.P] ([] ++ [Home.ofOrderItem Scenario.line1]) :=
  ⟨by decide,
    missing_product_contributes_zero.1 [Scenario.P] [] [Home.ofOrderItem Scenario.line1]
      (Home.ofOrderItem Scenario.lineMissing) (by decide)⟩

/-! ## The order state machine -/

namespace Home

theorem handleCreateOrder_orders_mem (f : CreateFaults) (newOrderId : Nat) (user : Option Nat)
    (products : List Product) (selectedCustomer : Option Nat)
    (selectedProducts : List SelectedProduct) (deliveryDate : Nat) (isPaidNewOrder : Bool)
    (db : Db) (o : Order)
    (h : o ∈ (handleCreateOrder f newOrderId user products selectedCustomer selectedProducts
      deliveryDate isPaidNewOrder db).1.orders) :
    o ∈ db.orders ∨ (o.status = .pending ∧ o.completed_at = none) := by
  cases user with
  | none => exact Or.inl (by simpa [handleCreateOrder] using h)
  | some userId =>
    have hnew : ∀ (new : Order), new.status = .pending → new.completed_at = none →
        o ∈ db.orders ++ [new] → o ∈ db.orders ∨ (o.status = .pending ∧ o.completed_at = none) := by
      intro new hs hc hmem
      rcases List.mem_append.mp hmem with hold | hlast
      · exact Or.inl hold
      · have : o = new := by simpa using hlast
        subst this
        exact Or.inr ⟨hs, hc⟩
    by_cases h1 : f.orderInsert = true
    · exact Or.inl (by simpa [handleCreateOrder, h1] using h)
    · by_cases h2 : f.itemsInsert = true
      · by_cases h3 : f.rollbackDelete = true
        · simp only [handleCreateOrder, h1, h2, h3, if_true, Bool.false_eq_true, if_false] at h
          exact hnew _ rfl rfl h
        · simp only [handleCreateOrder, h1, h2, h3, if_true, Bool.false_eq_true, if_false] at h
          exact hnew _ rfl rfl (List.mem_of_mem_filter h)
      · simp only [handleCreateOrder, h1, h2, Bool.false_eq_true, if_false] at h
        exact hnew _ rfl rfl h

theorem handleUpdateOrderStatus_orders_mem (f : UpdateFaults) (now : Nat) (user : Option Nat)
    (orders : List OrderView) (orderId : Nat) (status : Status) (db : Db) (o : Order)
    (h : o ∈ (handleUpdateOrderStatus f now user orders orderId status db).1.orders) :
    o ∈ db.orders ∨ (o.status = status ∧
      o.completed_at = if status = .delivered then some now else none) := by
  cases user with
  | none => exact Or.inl (by simpa [handleUpdateOrderStatus] using h)
  | some userId =>
    cases hf : f.orderUpdate with
    | true => exact Or.inl (by simpa [handleUpdateOrderStatus, hf] using h)
    | false =>
      rw [handleUpdateOrderStatus_orders f now userId orders orderId status db hf] at h
      obtain ⟨r, hr, rfl⟩ := List.mem_map.mp h
      by_cases hm : (r.id == orderId && r.user_id == userId) = true
      · exact Or.inr (by simp [hm])
      · exact Or.inl (by simpa [hm] using hr)

theorem handleTogglePaidStatus_orders_mem (updateFails : Bool) (user : Option Nat)
    (orderId : Nat) (currentPaidStatus : Bool) (db : Db) (o : Order)
    (h : o ∈ (handleTogglePaidStatus updateFails user orderId currentPaidStatus db).1.orders) :
    ∃ r ∈ db.orders, o.status = r.status ∧ o.completed_at = r.completed_at := by
  cases user with
  | none => exact ⟨o, by simpa [handleTogglePaidStatus] using h, rfl, rfl⟩
  | some userId =>
    cases updateFails with
    | true => exact ⟨o, by simpa [handleTogglePaidStatus] using h, rfl, rfl⟩
    | false =>
      simp only [handleTogglePaidStatus, Bool.false_eq_true, if_false] at h
      obtain ⟨r, hr, rfl⟩ := List.mem_map.mp h
      refine ⟨r, hr, ?_⟩
      by_cases hm : (r.id == orderId && r.user_id == userId) = true <;> simp [hm]

/-- C21. In every store reached from newly created orders by calls of `handleCreateOrder`,
`handleUpdateOrderStatus` and `handleTogglePaidStatus` (successful or not), the `completed_at`
of an order is non-null exactly when its status is delivered. -/
theorem completed_at_iff_delivered (db : Db) (h : Reachable db) :
    ∀ o ∈ db.orders, (o.completed_at ≠ none ↔ o.status = .delivered) := by
  induction h with
  | fresh db h =>
    intro o ho
    obtain ⟨hs, hc⟩ := h o ho
    simp [hs, hc]
  | create f newOrderId user products selectedCustomer selectedProducts deliveryDate
      isPaidNewOrder db _ ih =>
    intro o ho
    rcases handleCreateOrder_orders_mem f newOrderId user products selectedCustomer
      selectedProducts deliveryDate isPaidNewOrder db o ho with hold | ⟨hs, hc⟩
    · exact ih o hold
    · simp [hs, hc]
  | updateStatus f now user orders orderId status db _ ih =>
    intro o ho
    rcases handleUpdateOrderStatus_orders_mem f now user orders orderId status db o ho with
      hold | ⟨hs, hc⟩
    · exact ih o hold
    · cases status <;> simp [hs, hc]
  | togglePaid updateFails user orderId currentPaidStatus db _ ih =>
    intro o ho
    obtain ⟨r, hr, hs, hc⟩ := handleTogglePaidStatus_orders_mem updateFails user orderId
      currentPaidStatus db o ho
    rw [hs, hc]
    exact ih r hr

/-- Witness for C21: store `db0`, then order 1 delivered at instant 1000, then its paid flag
toggled; order 1 is delivered with `completed_at` set, order 2 pending with `completed_at`
null. -/
theorem completed_at_iff_delivered_witness :
    (handleTogglePaidStatus false (some 1) 1 true
        (handleUpdateOrderStatus UpdateFaults.none 1000 (some 1) (fetchOrders 1 Scenario.db0) 1
          .delivered Scenario.db0).1).1.orders =
      [{ Scenario.order1 with status := .delivered, is_paid := false, completed_at := some 1000 },
        Scenario.order2] ∧
    ((some 1000 : Option Nat) ≠ none ↔ Status.delivered = Status.delivered) ∧
    (Scenario.order2.completed_at ≠ none ↔ Scenario.order2.status = .delivered) :=
  ⟨by decide,
    completed_at_iff_delivered _
      (Reachable.togglePaid false (some 1) 1 true _
        (Reachable.updateStatus UpdateFaults.none 1000 (some 1) (fetchOrders 1 Scenario.db0) 1
          .delivered Scenario.db0 (Reachable.fresh Scenario.db0 (by decide))))
      { Scenario.order1 with status := .delivered, is_paid := false, completed_at := some 1000 }
      (by decide),
    completed_at_iff_delivered _
      (Reachable.togglePaid false (some 1) 1 true _
        (Reachable.updateStatus UpdateFaults.none 1000 (some 1) (fetchOrders 1 Scenario.db0) 1
          .delivered Scenario.db0 (Reachable.fresh Scenario.db0 (by decide))))
      Scenario.order2 (by decide)⟩

/-- C26. When the update of the order returns an error the handler returns on its
`orderUpdateFailed` path with the store as it was, whatever the target status and the
outcomes the product calls would have had: no order field and no product quantity changes.
When it succeeds the order rows are rewritten whatever the outcomes of the product reads and
writes that follow. -/
theorem handleUpdateOrderStatus_status_first (f : UpdateFaults) (now userId : Nat)
    (orders : List OrderView) (orderId : Nat) (status : Status) (db : Db) :
    (f.orderUpdate = true →
      handleUpdateOrderStatus f now (some userId) orders orderId status db =
        (db, .orderUpdateFailed)) ∧
    (f.orderUpdate = false →
      (handleUpdateOrderStatus f now (some userId) orders orderId status db).2 = .completed ∧
      (handleUpdateOrderStatus f now (some userId) orders orderId status db).1.orders =
        db.orders.map (fun o =>
          if o.id == orderId && o.user_id == userId then
            { o with
              status := status
              completed_at := if status = .delivered then some now else none
              is_paid := if status = .delivered then true else o.is_paid }
          else o)) := by
  constructor
  · intro hf
    simp [handleUpdateOrderStatus, hf]
  · intro hf
    exact ⟨(handleUpdateOrderStatus_completed_iff f now userId orders orderId status db).mpr hf,
      handleUpdateOrderStatus_orders f now userId orders orderId status db hf⟩

/-- Witness for C26: the delivery of order 1 of store `db0` when the update of the order
fails. -/
theorem handleUpdateOrderStatus_status_first_witness :
    handleUpdateOrderStatus { UpdateFaults.none with orderUpdate := true } 1000 (some 1)
      (fetchOrders 1 Scenario.db0) 1 .delivered Scenario.db0 =
      (Scenario.db0, .orderUpdateFailed) :=
  (handleUpdateOrderStatus_status_first { UpdateFaults.none with orderUpdate := true } 1000 1
    (fetchOrders 1 Scenario.db0) 1 .delivered Scenario.db0).1 rfl

/-- C25, the failing input evaluated. P is at quantity 5 and two pending orders each ask 5
units. Delivered one after the other, both deliveries complete and P ends at -5. In each of
the six interleavings of their reads and writes both deliveries write: P ends at 0 when both
read before either writes (one decrement is lost) and at -5 otherwise. No delivery fails. -/
theorem concurrent_deliveries_both_succeed :
    handleUpdateOrderStatus UpdateFaults.none 1000 (some 1) (fetchOrders 1 Scenario.dbRace) 1
        .delivered Scenario.dbRace = (Scenario.dbRace1, .completed) ∧
    (handleUpdateOrderStatus UpdateFaults.none 2000 (some 1) (fetchOrders 1 Scenario.dbRace1) 2
        .delivered Scenario.dbRace1).2 = .completed ∧
    (handleUpdateOrderStatus UpdateFaults.none 2000 (some 1) (fetchOrders 1 Scenario.dbRace1) 2
        .delivered Scenario.dbRace1).1.products = [{ Scenario.P with quantity := -5 }] ∧
    interleavings.map (fun schedule =>
        ((runRace 5 5 5 schedule).wroteFirst, (runRace 5 5 5 schedule).wroteSecond,
          (runRace 5 5 5 schedule).quantity)) =
      [(true, true, -5), (true, true, 0), (true, true, 0), (true, true, 0), (true, true, 0),
        (true, true, -5)] := by
  decide

end Home

/-! ## Account isolation -/

namespace Stats

/-- C22, the failing input evaluated. Stores `dbA` and `dbAB` hold the same rows of account 1
(product P, no order, no loan); `dbAB` also holds a product, a delivered order and a loan of
account 2. What `fetchStatsData` reads and shows differs between the two stores: on `dbAB` the
order and the loan of account 2 are read and the partner of account 2 is listed. -/
theorem fetchStatsData_reads_other_accounts :
    Scenario.dbA.products.filter (fun p => p.user_id == 1) =
      Scenario.dbAB.products.filter (fun p => p.user_id == 1) ∧
    Scenario.dbA.orders.filter (fun o => o.user_id == 1) =
      Scenario.dbAB.orders.filter (fun o => o.user_id == 1) ∧
    Scenario.dbA.loans.filter (fun l => l.user_id == 1) =
      Scenario.dbAB.loans.filter (fun l => l.user_id == 1) ∧
    fetchSalesOrders 2000 Scenario.dbA = [] ∧
    fetchSalesOrders 2000 Scenario.dbAB =
      [{ completed_at := some 1000
         order_items := [{ quantity := 3
                           products := some { points_per_unit := 4, price_per_unit := 20 } }] }] ∧
    processPartnerLoanData (fetchLoanRows Scenario.partnerName Scenario.dbA) = [] ∧
    processPartnerLoanData (fetchLoanRows Scenario.partnerName Scenario.dbAB) =
      [{ name := "Socio B", quantity := 7, points := 28, price := 140 }] := by
  decide

end Stats

/-! ## Quantities entered in the forms -/

namespace Home

/-- C23, counterexample. The text "-5" parses to -5, which `|| 1` keeps: `handleProductChange`
stores the quantity -5, and `handleCreateOrder`, run on that state, stores an order item with
quantity -5. -/
theorem quantityFromInput_counterexample :
    parseInt "-5" = some (-5) ∧
    quantityFromInput "-5" = -5 ∧
    handleProductChange 0 (.quantity (quantityFromInput "-5")) [⟨some 1, 1⟩] =
      [⟨some 1, -5⟩] ∧
    (handleCreateOrder ⟨false, false, false⟩ 3 (some 1) [Scenario.P] (some 1) [⟨some 1, -5⟩] 12
        true Scenario.dbA).1.order_items =
      [{ order_id := 3, product_id := some 1, quantity := -5, points_at_sale := some 3,
         price_at_sale := some 10 }] := by
  decide

/-- C23, amended. For every text of the quantity field the stored quantity
`parseInt(value) || 1` is an integer other than 0: the parsed number when it is not 0 (a
negative number included), and 1 when the text parses to `NaN` or to 0. `handleCreateOrder`
does not check the quantities; the order form does: a submit runs the handler only when every
quantity is at least 1, so every order item stored through a submit of the form has the
quantity of its line, at least 1. -/
theorem order_quantity_through_form (value : String) :
    quantityFromInput value ≠ 0 ∧
    (∀ n : Int, parseInt value = some n → n ≠ 0 → quantityFromInput value = n) ∧
    (parseInt value = none ∨ parseInt value = some 0 → quantityFromInput value = 1) ∧
    ∀ (f : CreateFaults) (newOrderId : Nat) (user : Option Nat) (products : List Product)
      (selectedCustomer : Option Nat) (selectedProducts : List SelectedProduct)
      (deliveryDate : Nat) (isPaidNewOrder : Bool) (db : Db) (res : Db × CreateOutcome),
      submitOrderForm f newOrderId user products selectedCustomer selectedProducts deliveryDate
        isPaidNewOrder db = some res →
      res.2 = .created →
      ∃ items, res.1.order_items = db.order_items ++ items ∧
        items.map (fun it => it.quantity) = selectedProducts.map (fun line => line.quantity) ∧
        ∀ it ∈ items, 1 ≤ it.quantity := by
  have hval : ∀ x : Option Int, jsOrNull x 1 ≠ 0 ∧
      (∀ n : Int, x = some n → n ≠ 0 → jsOrNull x 1 = n) ∧
      (x = none ∨ x = some 0 → jsOrNull x 1 = 1) := by
    intro x
    cases x with
    | none => simp [jsOrNull]
    | some v =>
      by_cases hv : v = 0
      · simp [jsOrNull, jsOr, hv]
      · simp [jsOrNull, jsOr, hv]
  refine ⟨(hval _).1, (hval _).2.1, (hval _).2.2, ?_⟩
  intro f newOrderId user products selectedCustomer selectedProducts deliveryDate
    isPaidNewOrder db res hsubmit hcreated
  unfold submitOrderForm at hsubmit
  by_cases hvalid : orderFormValid selectedCustomer selectedProducts = true
  · rw [if_pos hvalid] at hsubmit
    have hres := Option.some.inj hsubmit
    subst hres
    obtain ⟨userId, _, hdb⟩ := handleCreateOrder_created f newOrderId user products
      selectedCustomer selectedProducts deliveryDate isPaidNewOrder db hcreated
    refine ⟨selectedProducts.map (orderItemFor products newOrderId), by rw [hdb], ?_, ?_⟩
    · simp [List.map_map, Function.comp, orderItemFor]
    · intro it hit
      obtain ⟨line, hline, rfl⟩ := List.mem_map.mp hit
      have hall := (Bool.and_eq_true _ _).mp hvalid
      have hl := List.all_eq_true.mp hall.2 line hline
      have := (Bool.and_eq_true _ _).mp hl
      simpa [orderItemFor] using this.2
  · rw [if_neg hvalid] at hsubmit
    cases hsubmit

/-- Witness for C23, amended: the text "7" stores 7; the text "0" stores 1. -/
theorem order_quantity_through_form_witness :
    quantityFromInput "7" = 7 ∧ quantityFromInput "0" = 1 ∧ quantityFromInput "7" ≠ 0 :=
  ⟨by decide, by decide, (order_quantity_through_form "7").1⟩

end Home

namespace Inventory

/-- A submit of the product form runs `handleSubmitProduct` only on a quantity that is at
least 0, and every product row of the store after it is a row of the store before or carries
the submitted quantity. -/
theorem submitProductForm_quantity (writeFails : Bool) (newProductId : Nat)
    (user : Option Nat) (currentProduct : Option Product) (productName : String)
    (productQuantity productPrice productPoints : Int) (db : Db) (res : Db × SubmitOutcome)
    (hsubmit : submitProductForm writeFails newProductId user currentProduct productName
      productQuantity productPrice productPoints db = some res) :
    0 ≤ productQuantity ∧
    ∀ p ∈ res.1.products, p ∈ db.products ∨ p.quantity = productQuantity := by
  unfold submitProductForm at hsubmit
  by_cases hvalid : productFormValid productName productQuantity productPrice
      productPoints = true
  · rw [if_pos hvalid] at hsubmit
    have hres := Option.some.inj hsubmit
    subst hres
    have hq : 0 ≤ productQuantity := by
      simp only [productFormValid, Bool.and_eq_true, decide_eq_true_eq] at hvalid
      exact hvalid.1.1.2
    refine ⟨hq, ?_⟩
    intro p hp
    cases user with
    | none => exact Or.inl (by simpa [handleSubmitProduct] using hp)
    | some userId =>
      cases writeFails with
      | true =>
        cases currentProduct <;> exact Or.inl (by simpa [handleSubmitProduct] using hp)
      | false =>
        cases currentProduct with
        | none =>
          simp only [handleSubmitProduct, Bool.false_eq_true, if_false] at hp
          rcases List.mem_append.mp hp with hold | hnew
          · exact Or.inl hold
          · have hpq := List.eq_of_mem_singleton hnew
            exact Or.inr (by rw [hpq])
        | some cur =>
          simp only [handleSubmitProduct, Bool.false_eq_true, if_false] at hp
          obtain ⟨r, hr, rfl⟩ := List.mem_map.mp hp
          by_cases hm : (r.id == cur.id && r.user_id == userId) = true
          · exact Or.inr (by simp [hm])
          · exact Or.inl (by simpa [hm] using hr)
  · rw [if_neg hvalid] at hsubmit
    cases hsubmit

/-- C24. For every text of the quantity field of the product form, the quantity
`parseInt(value) || 0` that a submit of the form hands to `handleSubmitProduct` is an integer,
the parsed one or 0 when the text parses to `NaN`, and it is at least 0: the form submits only
then (`min="0"`). Every product row that the submit creates or updates carries that quantity,
so no product is created or updated with a negative quantity. -/
theorem product_quantity_through_form (value : String) (writeFails : Bool)
    (newProductId : Nat) (user : Option Nat) (currentProduct : Option Product)
    (productName : String) (productPrice productPoints : Int) (db : Db)
    (res : Db × SubmitOutcome)
    (hsubmit : submitProductForm writeFails newProductId user currentProduct productName
      (quantityFromInput value) productPrice productPoints db = some res) :
    0 ≤ quantityFromInput value ∧
    (parseInt value = some (quantityFromInput value) ∨
      (parseInt value = none ∧ quantityFromInput value = 0)) ∧
    ∀ p ∈ res.1.products,
      p ∈ db.products ∨ (p.quantity = quantityFromInput value ∧ 0 ≤ p.quantity) := by
  have h := submitProductForm_quantity writeFails newProductId user currentProduct productName
    (quantityFromInput value) productPrice productPoints db res hsubmit
  refine ⟨h.1, ?_, ?_⟩
  · cases hp : parseInt value with
    | none => exact Or.inr ⟨rfl, by simp [quantityFromInput, Home.jsOrNull_zero, hp]⟩
    | some n => exact Or.inl (by simp [quantityFromInput, Home.jsOrNull_zero, hp])
  · intro p hp
    rcases h.2 p hp with hold | hnew
    · exact Or.inl hold
    · exact Or.inr ⟨hnew, by rw [hnew]; exact h.1⟩

/-- Witness for C24: the text "12" in the form of a new product Q; the submit stores Q with
quantity 12. With the text "-5" the submit does not run the handler. -/
theorem product_quantity_through_form_witness :
    submitProductForm false 9 (some 1) none "Q" (quantityFromInput "12") 10 1 Scenario.dbA =
      some (handleSubmitProduct false 9 (some 1) none "Q" 12 10 1 Scenario.dbA) ∧
    (handleSubmitProduct false 9 (some 1) none "Q" 12 10 1 Scenario.dbA).1.products =
      [Scenario.P,
        { id := 9, user_id := 1, name := "Q", quantity := 12, price_per_unit := 10,
          points_per_unit := 1 }] ∧
    submitProductForm false 9 (some 1) none "Q" (quantityFromInput "-5") 10 1 Scenario.dbA =
      none ∧
    (0 : Int) ≤ quantityFromInput "12" :=
  ⟨by decide, by decide, by decide,
    (product_quantity_through_form "12" false 9 (some 1) none "Q" 10 1 Scenario.dbA
      (handleSubmitProduct false 9 (some 1) none "Q" 12 10 1 Scenario.dbA) (by decide)).1⟩

end Inventory

/-! ## Order totals on the History page -/

namespace History

/-- C28, the failing input evaluated. An item of 5 units of P with snapshots 3 and 10, on a
page whose catalog does not hold P: its line shows 15 points and the price 50, and
`calculateOrderTotals` returns 0 and 0. With P in the catalog it returns 15 and 50. -/
theorem calculateOrderTotals_drops_missing_product :
    linePoints [Scenario.productB] Scenario.line1 = 15 ∧
    linePrice [Scenario.productB] Scenario.line1 = 50 ∧
    calculateOrderTotals [Scenario.productB] [Scenario.line1] =
      { totalPoints := 0, totalPrice := 0 } ∧
    calculateOrderTotals [Scenario.P, Scenario.productB] [Scenario.line1] =
      { totalPoints := 15, totalPrice := 50 } := by
  decide

end History

/-! ## Entries created and updated by key -/

theorem upsert_keys {β : Type} (init : β) (upd : β → β) (m : List (String × β))
    (key : String) :
    (upsert init upd m key).map Prod.fst =
      if m.any (fun e => e.1 == key) then m.map Prod.fst else m.map Prod.fst ++ [key] := by
  have hfst : (Prod.fst ∘ fun e : String × β =>
      if (e.1 == key) = true then (e.1, upd e.2) else e) = Prod.fst := by
    funext e
    by_cases h : (e.1 == key) = true <;> simp [Function.comp, h]
  unfold upsert
  simp only [List.map_map, hfst]
  split <;> simp

theorem upsert_nodup {β : Type} (init : β) (upd : β → β) (m : List (String × β))
    (key : String) (hnd : (m.map Prod.fst).Nodup) :
    ((upsert init upd m key).map Prod.fst).Nodup := by
  rw [upsert_keys]
  split
  · exact hnd
  · next hany =>
    rw [List.nodup_append]
    refine ⟨hnd, by simp, ?_⟩
    intro x hx hx'
    have hxk : x = key := by simpa using hx'
    subst hxk
    obtain ⟨e, he, hek⟩ := List.mem_map.mp hx
    apply hany
    exact List.any_eq_true.mpr ⟨e, he, by simp [hek]⟩

theorem upsert_key_mem {β : Type} (init : β) (upd : β → β) (m : List (String × β))
    (key : String) : key ∈ (upsert init upd m key).map Prod.fst := by
  rw [upsert_keys]
  split
  · next hany =>
    obtain ⟨e, he, hek⟩ := List.any_eq_true.mp hany
    have : e.1 = key := by simpa using hek
    rw [← this]
    exact List.mem_map.mpr ⟨e, he, rfl⟩
  · simp

theorem upsert_keys_subset {β : Type} (init : β) (upd : β → β) (m : List (String × β))
    (key k : String) (hk : k ∈ m.map Prod.fst) : k ∈ (upsert init upd m key).map Prod.fst := by
  rw [upsert_keys]
  split
  · exact hk
  · exact List.mem_append_left _ hk

theorem keySum_upsert {β : Type} (μ : β → Int) (a : Int) (init : β) (upd : β → β)
    (hinit : μ init = 0) (hupd : ∀ b, μ (upd b) = μ b + a)
    (m : List (String × β)) (key : String) (hnd : (m.map Prod.fst).Nodup) (k : String) :
    keySum μ (upsert init upd m key) k = keySum μ m k + if key = k then a else 0 := by
  have hcomm : ∀ l : List (String × β),
      (l.map (fun e : String × β =>
        if (e.1 == key) = true then (e.1, upd e.2) else e)).filter (fun e => e.1 == k) =
      (l.filter (fun e => e.1 == k)).map (fun e : String × β =>
        if (e.1 == key) = true then (e.1, upd e.2) else e) := by
    intro l
    rw [List.filter_map]
    congr 1
    apply List.filter_congr
    intro e _
    by_cases h : (e.1 == key) = true <;> simp [Function.comp, h]
  by_cases hk : key = k
  · subst hk
    simp only [if_true]
    unfold keySum upsert
    by_cases hany : m.any (fun e => e.1 == key) = true
    · obtain ⟨e, he, hek⟩ := List.any_eq_true.mp hany
      have hek' : e.1 = key := by simpa using hek
      have hsing := filter_key_eq_singleton key e.2 m hnd (by rw [← hek']; exact he)
      simp only [hany, if_true, hcomm, hsing]
      simp [hupd]
    · have hnil : m.filter (fun e => e.1 == key) = [] := by
        rw [List.filter_eq_nil_iff]
        intro e he hek
        exact hany (List.any_eq_true.mpr ⟨e, he, hek⟩)
      simp only [hany, Bool.false_eq_true, if_false, hcomm, List.filter_append, hnil]
      simp [hupd, hinit]
  · simp only [hk, if_false, add_zero]
    unfold keySum upsert
    have hsame : ∀ l : List (String × β),
        (l.filter (fun e => e.1 == k)).map (fun e : String × β =>
          if (e.1 == key) = true then (e.1, upd e.2) else e) = l.filter (fun e => e.1 == k) := by
      intro l
      conv_rhs => rw [← List.map_id (l.filter (fun e => e.1 == k))]
      apply List.map_congr_left
      intro e he
      have hek : e.1 = k := by simpa using (List.mem_filter.mp he).2
      have : ¬ e.1 = key := fun h => hk (h.symm.trans hek)
      simp [this]
    split
    · rw [hcomm, hsame]
    · rw [hcomm, hsame, List.filter_append]
      simp [hk]

theorem sum_map_update_key {β : Type} (μ : β → Int) (a : Int) (upd : β → β)
    (hupd : ∀ b, μ (upd b) = μ b + a) (key : String) :
    ∀ (m : List (String × β)), (m.map Prod.fst).Nodup →
      ((m.map (fun e : String × β =>
        if (e.1 == key) = true then (e.1, upd e.2) else e)).map (fun e => μ e.2)).sum =
      (m.map (fun e => μ e.2)).sum + if m.any (fun e => e.1 == key) then a else 0 := by
  intro m
  induction m with
  | nil => intro _; simp
  | cons e t ih =>
    intro hnd
    rw [List.map_cons, List.nodup_cons] at hnd
    have iht := ih hnd.2
    by_cases he : e.1 = key
    · have hnone : t.any (fun x => x.1 == key) = false := by
        cases hany : t.any (fun x => x.1 == key) with
        | false => rfl
        | true =>
          exfalso
          obtain ⟨x, hx, hxk⟩ := List.any_eq_true.mp hany
          have : x.1 = key := by simpa using hxk
          apply hnd.1
          rw [he, ← this]
          exact List.mem_map.mpr ⟨x, hx, rfl⟩
      rw [hnone] at iht
      simp only [List.map_cons, List.sum_cons, List.any_cons]
      rw [iht]
      simp [he, hupd]
      ring
    · have heb : (e.1 == key) = false := by simpa using he
      simp only [List.map_cons, List.sum_cons, List.any_cons, heb, Bool.false_or,
        Bool.false_eq_true, if_false]
      rw [iht]
      ring

theorem sum_upsert {β : Type} (μ : β → Int) (a : Int) (init : β) (upd : β → β)
    (hinit : μ init = 0) (hupd : ∀ b, μ (upd b) = μ b + a)
    (m : List (String × β)) (key : String) (hnd : (m.map Prod.fst).Nodup) :
    ((upsert init upd m key).map (fun e => μ e.2)).sum = (m.map (fun e => μ e.2)).sum + a := by
  unfold upsert
  by_cases hany : m.any (fun e => e.1 == key) = true
  · simp only [hany, if_true]
    rw [sum_map_update_key μ a upd hupd key m hnd, hany]
    simp
  · have hnd' : ((m ++ [(key, init)]).map Prod.fst).Nodup := by
      rw [List.map_append, List.nodup_append]
      refine ⟨hnd, by simp, ?_⟩
      intro x hx hx'
      have hxk : x = key := by simpa using hx'
      subst hxk
      obtain ⟨e, he, hek⟩ := List.mem_map.mp hx
      apply hany
      exact List.any_eq_true.mpr ⟨e, he, by simp [hek]⟩
    simp only [hany, Bool.false_eq_true, if_false]
    rw [sum_map_update_key μ a upd hupd key _ hnd']
    simp [hinit]

/-! ## Loans per partner on the Stats page -/

namespace Stats

theorem addLoan_listed (m : List (String × PartnerTotals)) (loan : LoanRow) (n : String)
    (p : ProductRef) (hn : loan.partners = some n) (hp : loan.products = some p)
    (hk : n ∉ inheritedKeys) :
    addLoan m loan =
      upsert { quantity := 0, points := 0, price := 0 }
        (fun t : PartnerTotals =>
          { quantity := t.quantity + loan.quantity
            points := t.points + loan.quantity * p.points_per_unit
            price := t.price + loan.quantity * p.price_per_unit }) m n := by
  simp [addLoan, upsert, hn, hp, hk]

theorem addLoan_skipped (m : List (String × PartnerTotals)) (loan : LoanRow)
    (h : listed loan = false) : addLoan m loan = m := by
  cases hn : loan.partners with
  | none => simp [addLoan, hn]
  | some n =>
    cases hp : loan.products with
    | none => simp [addLoan, hn, hp]
    | some p =>
      have hk : n ∈ inheritedKeys := by
        by_contra hk
        simp [listed, hn, hp, hk] at h
      simp [addLoan, hn, hp, hk]

theorem loansOf_append (k : String) (l₁ l₂ : List LoanRow) :
    loansOf k (l₁ ++ l₂) = loansOf k l₁ ++ loansOf k l₂ := by
  simp [loansOf, List.filter_append]

theorem loopInvariant_step (m : List (String × PartnerTotals)) (done : List LoanRow)
    (loan : LoanRow) (h : LoopInvariant m done) :
    LoopInvariant (addLoan m loan) (done ++ [loan]) := by
  obtain ⟨hnd, hq, hpt, hpr, hsum, hcov, hfrom⟩ := h
  cases hc : listed loan with
  | false =>
    have hnot : ∀ k, k ∉ inheritedKeys → loansOf k [loan] = [] := by
      intro k hk
      cases hn : loan.partners with
      | none => simp [loansOf, hn]
      | some n =>
        cases hp : loan.products with
        | none => simp [loansOf, hp]
        | some p =>
          have hin : n ∈ inheritedKeys := by
            by_contra hin
            simp [listed, hn, hp, hin] at hc
          have hne : ¬ n = k := fun e => hk (e ▸ hin)
          simp [loansOf, hn, hne]
    rw [addLoan_skipped m loan hc]
    refine ⟨hnd, ?_, ?_, ?_, ?_, ?_, ?_⟩
    · intro k hk; rw [loansOf_append, hnot k hk, List.append_nil]; exact hq k hk
    · intro k hk; rw [loansOf_append, hnot k hk, List.append_nil]; exact hpt k hk
    · intro k hk; rw [loansOf_append, hnot k hk, List.append_nil]; exact hpr k hk
    · rw [List.filter_append, hsum]
      simp [hc]
    · intro l hl n hn hp hk
      rcases List.mem_append.mp hl with hold | hnew
      · exact hcov l hold n hn hp hk
      · have : l = loan := by simpa using hnew
        subst this
        simp [listed, hn, hp, hk] at hc
    · intro k hk
      obtain ⟨hin, l, hl, h1, h2⟩ := hfrom k hk
      exact ⟨hin, l, List.mem_append_left _ hl, h1, h2⟩
  | true =>
    cases hn : loan.partners with
    | none => simp [listed, hn] at hc
    | some n =>
      cases hp : loan.products with
      | none => simp [listed, hn, hp] at hc
      | some p =>
        have hin : n ∉ inheritedKeys := by
          simpa [listed, hn, hp] using hc
        have hone : ∀ k, loansOf k [loan] = if n = k then [loan] else [] := by
          intro k
          by_cases hk : n = k <;> simp [loansOf, hn, hp, hk]
        rw [addLoan_listed m loan n p hn hp hin]
        refine ⟨upsert_nodup _ _ m n hnd, ?_, ?_, ?_, ?_, ?_, ?_⟩
        · intro k hki
          rw [keySum_upsert (fun t : PartnerTotals => t.quantity) loan.quantity _ _ rfl
            (fun _ => rfl) m n hnd k, loansOf_append, hone, hq k hki]
          by_cases hk : n = k <;> simp [hk]
        · intro k hki
          rw [keySum_upsert (fun t : PartnerTotals => t.points) (loanPoints loan) _ _ rfl
            (fun _ => by simp [loanPoints, hp]) m n hnd k, loansOf_append, hone, hpt k hki]
          by_cases hk : n = k <;> simp [hk]
        · intro k hki
          rw [keySum_upsert (fun t : PartnerTotals => t.price) (loanPrice loan) _ _ rfl
            (fun _ => by simp [loanPrice, hp]) m n hnd k, loansOf_append, hone, hpr k hki]
          by_cases hk : n = k <;> simp [hk]
        · rw [sum_upsert (fun t : PartnerTotals => t.quantity) loan.quantity _ _ rfl
            (fun _ => rfl) m n hnd, List.filter_append, hsum]
          simp [hc]
        · intro l hl k hk hpk hki
          rcases List.mem_append.mp hl with hold | hnew
          · exact upsert_keys_subset _ _ m n k (hcov l hold k hk hpk hki)
          · have : l = loan := by simpa using hnew
            subst this
            have hkn : n = k := by
              rw [hn] at hk
              exact Option.some.inj hk
            subst hkn
            exact upsert_key_mem _ _ m n
        · intro k hk
          rw [upsert_keys] at hk
          split at hk
          · obtain ⟨hki, l, hl, h1, h2⟩ := hfrom k hk
            exact ⟨hki, l, List.mem_append_left _ hl, h1, h2⟩
          · rcases List.mem_append.mp hk with hold | hnew
            · obtain ⟨hki, l, hl, h1, h2⟩ := hfrom k hold
              exact ⟨hki, l, List.mem_append_left _ hl, h1, h2⟩
            · have : k = n := by simpa using hnew
              subst this
              exact ⟨hin, loan, by simp, hn, by simp [hp]⟩

theorem loopInvariant_foldl (rest : List LoanRow) :
    ∀ (m : List (String × PartnerTotals)) (done : List LoanRow), LoopInvariant m done →
      LoopInvariant (rest.foldl addLoan m) (done ++ rest) := by
  induction rest with
  | nil => intro m done h; simpa using h
  | cons loan rest ih =>
    intro m done h
    have := ih (addLoan m loan) (done ++ [loan]) (loopInvariant_step m done loan h)
    simpa [List.append_assoc] using this

theorem loopInvariant_all (loans : List LoanRow) :
    LoopInvariant (loans.foldl addLoan []) loans := by
  have h0 : LoopInvariant [] [] := by
    refine ⟨by simp, ?_, ?_, ?_, by simp, ?_, ?_⟩ <;> simp [keySum, loansOf]
  simpa using loopInvariant_foldl loans [] [] h0

/-- The list of `Object.entries` holds the entries of the object, each once. -/
theorem objectEntries_perm {β : Type} (object : List (String × β)) :
    (objectEntries object).Perm object := by
  unfold objectEntries
  have h1 := List.perm_insertionSort
    (fun a b : String × β => (arrayIndex a.1).getD 0 ≤ (arrayIndex b.1).getD 0)
    (object.filter (fun e => (arrayIndex e.1).isSome))
  have h2 : (object.filter (fun e => (arrayIndex e.1).isSome) ++
      object.filter (fun e => (arrayIndex e.1).isNone)).Perm object := by
    have h3 := List.filter_append_perm (fun e : String × β => (arrayIndex e.1).isSome) object
    have h4 : (fun e : String × β => !(arrayIndex e.1).isSome) =
        (fun e : String × β => (arrayIndex e.1).isNone) := by
      funext e
      cases arrayIndex e.1 <;> simp
    rw [h4] at h3
    exact h3
  exact (h1.append_right _).trans h2

/-- C27, counterexample. Two partners, 11 and 12, carry the same name and hold one loan each,
of 3 and of 4 units: `processPartnerLoanData` returns a single entry, whose quantity 7 is not
the sum over the loans of either partner. And of the loans `loanRows`, which all have a
partner and a product and lend 19 units, the 5 units of the partner named "constructor" have
no entry: the entries hold 14 units. -/
theorem processPartnerLoanData_merges_namesakes :
    (Scenario.dbNamesakes.loans.map (fun l => l.partner_id)).Nodup ∧
    ((Scenario.dbNamesakes.loans.filter (fun l => l.partner_id == 11)).map
      (fun l => l.quantity)).sum = 3 ∧
    ((Scenario.dbNamesakes.loans.filter (fun l => l.partner_id == 12)).map
      (fun l => l.quantity)).sum = 4 ∧
    processPartnerLoanData (fetchLoanRows Scenario.namesakes Scenario.dbNamesakes) =
      [{ name := "Ana", quantity := 7, points := 21, price := 70 }] ∧
    Scenario.loanRows.all counted = true ∧
    (Scenario.loanRows.map (fun l => l.quantity)).sum = 19 ∧
    processPartnerLoanData Scenario.loanRows =
      [{ name := "Ana", quantity := 10, points := 30, price := 100 },
       { name := "7", quantity := 2, points := 6, price := 20 },
       { name := "Zoe", quantity := 2, points := 6, price := 20 }] := by
  decide

/-- C27, amended. `processPartnerLoanData` gives one entry per partner name that is not the
name of an inherited property and that has a loan with both a partner and a product (partners
of the same name share it), and no other entry; the entries are in descending order of
quantity; the quantity, points and price of an entry are the sums, over the loans with a
product under that name, of the quantity, of quantity times the points of the product and of
quantity times the price of the product; and the quantities of all entries add up to the
quantity of the loans that have a partner, whose name is not inherited, and a product. -/
theorem processPartnerLoanData_per_name (loans : List LoanRow) :
    ((processPartnerLoanData loans).map (fun e => e.name)).Nodup ∧
    (∀ n : String, n ∈ (processPartnerLoanData loans).map (fun e => e.name) ↔
      n ∉ inheritedKeys ∧ ∃ l ∈ loans, l.partners = some n ∧ l.products.isSome = true) ∧
    (processPartnerLoanData loans).Pairwise (fun a b => b.quantity ≤ a.quantity) ∧
    (∀ e ∈ processPartnerLoanData loans,
      e.quantity = ((loansOf e.name loans).map (fun l => l.quantity)).sum ∧
      e.points = ((loansOf e.name loans).map loanPoints).sum ∧
      e.price = ((loansOf e.name loans).map loanPrice).sum) ∧
    ((processPartnerLoanData loans).map (fun e => e.quantity)).sum =
      ((loans.filter listed).map (fun l => l.quantity)).sum := by
  obtain ⟨hnd, hq, hpt, hpr, hsum, hcov, hfrom⟩ := loopInvariant_all loans
  have hperm := (List.perm_insertionSort
    (fun a b : String × PartnerTotals => b.2.quantity ≤ a.2.quantity)
    (objectEntries (loans.foldl addLoan []))).trans (objectEntries_perm _)
  haveI : IsTotal (String × PartnerTotals) (fun a b => b.2.quantity ≤ a.2.quantity) :=
    ⟨fun a b => le_total _ _⟩
  haveI : IsTrans (String × PartnerTotals) (fun a b => b.2.quantity ≤ a.2.quantity) :=
    ⟨fun a b c h1 h2 => le_trans h2 h1⟩
  have hsorted := List.sorted_insertionSort
    (fun a b : String × PartnerTotals => b.2.quantity ≤ a.2.quantity)
    (objectEntries (loans.foldl addLoan []))
  have hnames : (processPartnerLoanData loans).map (fun e => e.name) =
      ((objectEntries (loans.foldl addLoan [])).insertionSort
        (fun a b => b.2.quantity ≤ a.2.quantity)).map Prod.fst := by
    simp [processPartnerLoanData, List.map_map, Function.comp_def]
  have hmem : ∀ n : String, n ∈ (processPartnerLoanData loans).map (fun e => e.name) ↔
      n ∈ (loans.foldl addLoan []).map Prod.fst := by
    intro n
    rw [hnames]
    exact (hperm.map Prod.fst).mem_iff
  refine ⟨?_, ?_, ?_, ?_, ?_⟩
  · rw [hnames]
    exact (hperm.map Prod.fst).nodup_iff.mpr hnd
  · intro n
    rw [hmem]
    constructor
    · intro h
      exact hfrom n h
    · rintro ⟨hk, l, hl, h1, h2⟩
      exact hcov l hl n h1 h2 hk
  · unfold processPartnerLoanData
    rw [List.pairwise_map]
    exact hsorted
  · intro e he
    unfold processPartnerLoanData at he
    obtain ⟨x, hx, rfl⟩ := List.mem_map.mp he
    have hxm : x ∈ loans.foldl addLoan [] := hperm.mem_iff.mp hx
    have hki : x.1 ∉ inheritedKeys := (hfrom x.1 (List.mem_map_of_mem _ hxm)).1
    have hsingle := filter_key_eq_singleton x.1 x.2 (loans.foldl addLoan []) hnd hxm
    refine ⟨?_, ?_, ?_⟩
    · rw [← hq x.1 hki]
      simp [keySum, hsingle]
    · rw [← hpt x.1 hki]
      simp [keySum, hsingle]
    · rw [← hpr x.1 hki]
      simp [keySum, hsingle]
  · rw [← hsum]
    unfold processPartnerLoanData
    rw [List.map_map]
    exact (hperm.map (fun e : String × PartnerTotals => e.2.quantity)).sum_eq

end Stats

/-! ## Months of the monthly report -/

namespace Reports

theorem toDigitsCore_step (f n : Nat) (ds : List Char) :
    Nat.toDigitsCore 10 (f + 1) n ds =
      if n / 10 = 0 then Nat.digitChar (n % 10) :: ds
      else Nat.toDigitsCore 10 f (n / 10) (Nat.digitChar (n % 10) :: ds) := by
  simp [Nat.toDigitsCore]

theorem toDigitsCore_fuel : ∀ (f n : Nat) (ds : List Char), n < f →
    Nat.toDigitsCore 10 f n ds = Nat.toDigits 10 n ++ ds := by
  intro f
  induction f using Nat.strong_induction_on with
  | _ f ih =>
    intro n ds hn
    cases f with
    | zero => omega
    | succ f =>
      rw [Nat.toDigits, toDigitsCore_step, toDigitsCore_step]
      by_cases h0 : n / 10 = 0
      · simp [h0]
      · rw [if_neg h0, if_neg h0]
        have hlt : n / 10 < n := by omega
        rw [ih f (by omega) (n / 10) _ (by omega), ih n (by omega) (n / 10) _ hlt]
        simp

theorem toDigits_lt_ten (n : Nat) (h : n < 10) : Nat.toDigits 10 n = [Nat.digitChar n] := by
  have h1 : n / 10 = 0 := by omega
  have h2 : n % 10 = n := by omega
  rw [Nat.toDigits, toDigitsCore_step, if_pos h1, h2]

theorem toDigits_ge_ten (n : Nat) (h : 10 ≤ n) :
    Nat.toDigits 10 n = Nat.toDigits 10 (n / 10) ++ [Nat.digitChar (n % 10)] := by
  have h0 : ¬ n / 10 = 0 := by omega
  rw [Nat.toDigits, toDigitsCore_step, if_neg h0, toDigitsCore_fuel n (n / 10) _ (by omega)]

theorem addLeadingZeros_four (y : Nat) (h : y < 10000) :
    addLeadingZeros y 4 =
      [Nat.digitChar (y / 1000), Nat.digitChar (y / 100 % 10), Nat.digitChar (y / 10 % 10),
        Nat.digitChar (y % 10)] := by
  have hz : Char.ofNat 48 = Nat.digitChar 0 := by decide
  unfold addLeadingZeros
  rw [hz]
  by_cases h1 : y < 10
  · have e1 : y / 1000 = 0 := by omega
    have e2 : y / 100 % 10 = 0 := by omega
    have e3 : y / 10 % 10 = 0 := by omega
    have e4 : y % 10 = y := by omega
    rw [toDigits_lt_ten y h1, e1, e2, e3, e4]
    rfl
  · by_cases h2 : y < 100
    · have e1 : y / 1000 = 0 := by omega
      have e2 : y / 100 % 10 = 0 := by omega
      have e3 : y / 10 % 10 = y / 10 := by omega
      rw [toDigits_ge_ten y (by omega), toDigits_lt_ten (y / 10) (by omega), e1, e2, e3]
      rfl
    · by_cases h3 : y < 1000
      · have e1 : y / 1000 = 0 := by omega
        have e2 : y / 100 % 10 = y / 10 / 10 := by omega
        rw [toDigits_ge_ten y (by omega), toDigits_ge_ten (y / 10) (by omega),
          toDigits_lt_ten (y / 10 / 10) (by omega), e1, e2]
        rfl
      · have e2 : y / 100 % 10 = y / 10 / 10 % 10 := by omega
        have e5 : y / 1000 = y / 10 / 10 / 10 := by omega
        rw [toDigits_ge_ten y (by omega), toDigits_ge_ten (y / 10) (by omega),
          toDigits_ge_ten (y / 10 / 10) (by omega),
          toDigits_lt_ten (y / 10 / 10 / 10) (by omega), e2, e5]
        rfl

theorem addLeadingZeros_two (m : Nat) (h : m < 100) :
    addLeadingZeros m 2 = [Nat.digitChar (m / 10), Nat.digitChar (m % 10)] := by
  have hz : Char.ofNat 48 = Nat.digitChar 0 := by decide
  unfold addLeadingZeros
  rw [hz]
  by_cases h1 : m < 10
  · have e1 : m / 10 = 0 := by omega
    have e4 : m % 10 = m := by omega
    rw [toDigits_lt_ten m h1, e1, e4]
    rfl
  · rw [toDigits_ge_ten m (by omega), toDigits_lt_ten (m / 10) (by omega)]
    rfl

theorem digitChar_lt : ∀ a < 10, ∀ b < 10, a < b → Nat.digitChar a < Nat.digitChar b := by
  decide

theorem yearMonthKey_toList (y : Nat) (m : Fin 12) (h : y < 10000) :
    (yearMonthKey y m).toList =
      [Nat.digitChar (y / 1000), Nat.digitChar (y / 100 % 10), Nat.digitChar (y / 10 % 10),
        Nat.digitChar (y % 10), Char.ofNat 45, Nat.digitChar ((m.val + 1) / 10),
        Nat.digitChar ((m.val + 1) % 10)] := by
  simp [yearMonthKey, addLeadingZeros_four y h, addLeadingZeros_two (m.val + 1) (by omega)]

theorem yearMonthKey_strictMono (y₁ y₂ : Nat) (m₁ m₂ : Fin 12) (h₁ : y₁ < 10000)
    (h₂ : y₂ < 10000) (h : y₁ * 12 + m₁.val < y₂ * 12 + m₂.val) :
    (yearMonthKey y₁ m₁).toList < (yearMonthKey y₂ m₂).toList := by
  rw [yearMonthKey_toList y₁ m₁ h₁, yearMonthKey_toList y₂ m₂ h₂]
  have hm₁ := m₁.isLt
  have hm₂ := m₂.isLt
  by_cases ha : y₁ / 1000 = y₂ / 1000
  · rw [ha]
    apply List.Lex.cons
    by_cases hb : y₁ / 100 % 10 = y₂ / 100 % 10
    · rw [hb]
      apply List.Lex.cons
      by_cases hc : y₁ / 10 % 10 = y₂ / 10 % 10
      · rw [hc]
        apply List.Lex.cons
        by_cases hd : y₁ % 10 = y₂ % 10
        · rw [hd]
          apply List.Lex.cons
          apply List.Lex.cons
          have hy : y₁ = y₂ := by omega
          by_cases he : (m₁.val + 1) / 10 = (m₂.val + 1) / 10
          · rw [he]
            apply List.Lex.cons
            exact List.Lex.rel (digitChar_lt _ (by omega) _ (by omega) (by omega))
          · exact List.Lex.rel (digitChar_lt _ (by omega) _ (by omega) (by omega))
        · exact List.Lex.rel (digitChar_lt _ (by omega) _ (by omega) (by omega))
      · exact List.Lex.rel (digitChar_lt _ (by omega) _ (by omega) (by omega))
    · exact List.Lex.rel (digitChar_lt _ (by omega) _ (by omega) (by omega))
  · exact List.Lex.rel (digitChar_lt _ (by omega) _ (by omega) (by omega))

theorem yearMonthKey_lt (y₁ y₂ : Nat) (m₁ m₂ : Fin 12) (h₁ : y₁ < 10000) (h₂ : y₂ < 10000)
    (h : (yearMonthKey y₁ m₁).toList < (yearMonthKey y₂ m₂).toList) :
    y₁ * 12 + m₁.val < y₂ * 12 + m₂.val := by
  by_contra hc
  rcases Nat.lt_or_eq_of_le (not_lt.mp hc) with hlt | heq
  · exact lt_asymm h (yearMonthKey_strictMono y₂ y₁ m₂ m₁ h₂ h₁ hlt)
  · have hm₁ := m₁.isLt
    have hm₂ := m₂.isLt
    have hy : y₁ = y₂ := by omega
    have hm : m₁ = m₂ := Fin.ext (by omega)
    subst hy hm
    exact lt_irrefl _ h

/-- Beyond four digits the string order of the keys is not the order of the months: the key
of January 10000 sorts before the key of December 9999. -/
theorem yearMonthKey_five_digits :
    (yearMonthKey 10000 0).toList < (yearMonthKey 9999 11).toList := by
  decide

/-- A month key is not the name of an inherited property. -/
theorem yearMonthKey_not_inherited (y : Nat) (m : Fin 12) :
    yearMonthKey y m ∉ inheritedKeys := by
  have hin : Char.ofNat 45 ∈ (yearMonthKey y m).toList := by simp [yearMonthKey]
  have hout : ∀ k ∈ inheritedKeys, Char.ofNat 45 ∉ k.toList := by decide
  intro h
  exact hout _ h hin

theorem sorted_keys_strict (keys : List String) (hnd : keys.Nodup) :
    (keys.insertionSort (fun a b => a.toList ≤ b.toList)).Pairwise
      (fun a b => a.toList < b.toList) := by
  haveI : IsTotal String (fun a b => a.toList ≤ b.toList) := ⟨fun a b => le_total _ _⟩
  haveI : IsTrans String (fun a b => a.toList ≤ b.toList) := ⟨fun a b c h1 h2 => le_trans h1 h2⟩
  have hsorted := List.sorted_insertionSort (fun a b : String => a.toList ≤ b.toList) keys
  have hnd' : (keys.insertionSort (fun a b => a.toList ≤ b.toList)).Nodup :=
    (List.perm_insertionSort _ keys).nodup_iff.mpr hnd
  have hboth := List.Pairwise.and hsorted hnd'
  refine hboth.imp ?_
  intro a b hab
  refine lt_of_le_of_ne hab.1 ?_
  intro heq
  exact hab.2 (String.ext heq)

theorem fetchDeliveredOrders_mem (userId : Nat) (db : Db) (P : Option Nat → Prop) :
    (∃ o ∈ fetchDeliveredOrders userId db, P o.completed_at) ↔
      ∃ o ∈ db.orders, o.status = .delivered ∧ o.user_id = userId ∧ P o.completed_at := by
  unfold fetchDeliveredOrders
  constructor
  · rintro ⟨v, hv, hp⟩
    obtain ⟨o, ho, rfl⟩ := List.mem_map.mp hv
    rw [List.mem_filter] at ho
    have h2 : o.status = .delivered ∧ o.user_id = userId := by simpa using ho.2
    exact ⟨o, ho.1, h2.1, h2.2, hp⟩
  · rintro ⟨o, ho, h1, h2, hp⟩
    refine ⟨_, List.mem_map_of_mem _ (List.mem_filter.mpr ⟨ho, by simp [h1, h2]⟩), hp⟩

/-- C29. When the selection is not reversed, the report is produced; its rows are, one for
one, the entries of the sorted month keys; the keys are distinct, so no month has two rows;
they are in strictly increasing string order, which for years of four digits is the order of
the months: any instant of the month of an earlier row lies in an earlier calendar month than
any instant of the month of a later row; and a month has a row exactly when a delivered order
of the user has a `completed_at` in that month that is inside the selected range, from the
start of the start month to the end of the end month (any `completed_at` when a month field
is empty). -/
theorem monthlySalesReport_months (cal : Calendar) (products : List Product)
    (startMonth endMonth : String) (userId : Nat) (db : Db)
    (hsel : startMonth = "" ∨ endMonth = "" ∨
      cal.startOfMonth startMonth ≤ cal.endOfMonth endMonth) :
    ∃ sales rows,
      monthlySales cal products startMonth endMonth (fetchDeliveredOrders userId db) =
        some sales ∧
      monthlySalesReport cal products startMonth endMonth (fetchDeliveredOrders userId db) =
        some rows ∧
      List.Forall₂ (fun key row => (key, row) ∈ sales) (reportKeys sales) rows ∧
      (reportKeys sales).Nodup ∧
      (reportKeys sales).Pairwise (fun a b => a.toList < b.toList) ∧
      (reportKeys sales).Pairwise (fun a b => ∀ t₁ t₂ : Nat,
        cal.year t₁ < 10000 → cal.year t₂ < 10000 →
        cal.monthKey t₁ = a → cal.monthKey t₂ = b →
        cal.year t₁ * 12 + (cal.month t₁).val < cal.year t₂ * 12 + (cal.month t₂).val) ∧
      (∀ key, key ∈ reportKeys sales ↔
        ∃ o ∈ db.orders, o.status = .delivered ∧ o.user_id = userId ∧
          ∃ t, o.completed_at = some t ∧
            (startMonth = "" ∨ endMonth = "" ∨
              (cal.startOfMonth startMonth ≤ t ∧ t ≤ cal.endOfMonth endMonth)) ∧
            cal.monthKey t = key) := by
  have hinv := foldl_addOrderWith_inv cal startMonth endMonth
    (fun o => calculateOrderTotals products o.order_items) (fetchDeliveredOrders userId db) [] []
    (by simp) (by intro k; simp [keyTotal, ordersOfMonth])
  have hnd := hinv.1
  have hperm := List.perm_insertionSort (fun a b : String => a.toList ≤ b.toList)
    (((fetchDeliveredOrders userId db).foldl (addOrderWith cal startMonth endMonth
      (fun o => calculateOrderTotals products o.order_items)) []).map Prod.fst)
  have hstrict := sorted_keys_strict _ hnd
  refine ⟨_, _,
    monthlySales_eq_foldl cal products startMonth endMonth (fetchDeliveredOrders userId db) hsel,
    by rw [monthlySalesReport, monthlySales_eq_foldl cal products startMonth endMonth
      (fetchDeliveredOrders userId db) hsel]; rfl, ?_, ?_, hstrict, ?_, ?_⟩
  · exact forall₂_filterMap_lookup _ _ (fun k hk => hperm.mem_iff.mp hk)
  · exact hperm.nodup_iff.mpr hnd
  · refine hstrict.imp ?_
    intro a b hab t₁ t₂ hy₁ hy₂ h1 h2
    apply yearMonthKey_lt _ _ _ _ hy₁ hy₂
    have h1' : yearMonthKey (cal.year t₁) (cal.month t₁) = a := h1
    have h2' : yearMonthKey (cal.year t₂) (cal.month t₂) = b := h2
    rw [h1', h2']
    exact hab
  · intro key
    have hkeys := foldl_addOrderWith_keys cal startMonth endMonth
      (fun o => calculateOrderTotals products o.order_items) (fetchDeliveredOrders userId db)
      [] [] (by simp) key
    rw [List.nil_append] at hkeys
    unfold reportKeys
    rw [hperm.mem_iff, hkeys]
    simp only [inSelectedRange_iff]
    exact fetchDeliveredOrders_mem userId db
      (fun c => ∃ t, c = some t ∧
        (startMonth = "" ∨ endMonth = "" ∨
          (cal.startOfMonth startMonth ≤ t ∧ t ≤ cal.endOfMonth endMonth)) ∧
        cal.monthKey t = key)

/-- Witness for C29: March and April 2024 selected; order 1 delivered in April, order 2 in
March and order 3 in May. The report lists March, then April, and no row for May. -/
theorem monthlySalesReport_months_witness :
    monthlySalesReport Scenario.calendar [Scenario.P] "2024-03" "2024-04"
        (fetchDeliveredOrders 1 Scenario.dbThreeMonths) =
      some [{ name := "Mar 2024", totalSales := 10 }, { name := "Apr 2024", totalSales := 50 }] ∧
    ∃ sales, monthlySales Scenario.calendar [Scenario.P] "2024-03" "2024-04"
        (fetchDeliveredOrders 1 Scenario.dbThreeMonths) = some sales ∧
      reportKeys sales = ["2024-03", "2024-04"] ∧
      (reportKeys sales).Pairwise (fun a b => a.toList < b.toList) := by
  refine ⟨by decide, ?_⟩
  obtain ⟨sales, _, h1, _, _, _, h5, _⟩ :=
    monthlySalesReport_months Scenario.calendar [Scenario.P] "2024-03" "2024-04" 1
      Scenario.dbThreeMonths (Or.inr (Or.inr (by decide)))
  refine ⟨sales, h1, ?_, h5⟩
  have h2 : monthlySales Scenario.calendar [Scenario.P] "2024-03" "2024-04"
      (fetchDeliveredOrders 1 Scenario.dbThreeMonths) =
      some [("2024-04", { name := "Apr 2024", totalSales := 50 }),
        ("2024-03", { name := "Mar 2024", totalSales := 10 })] := by decide
  rw [h2] at h1
  have h3 := Option.some.inj h1
  rw [← h3]
  decide

/-! ## Pages of the PDF -/

theorem addPages_eq (H : ℚ) :
    ∀ (n : ℕ) (x : ℚ), ⌊x / 297⌋ + 1 = (n : ℤ) →
      addPages H x = (List.range n).map (fun j : ℕ => x - 297 * (j : ℚ) - H) := by
  intro n
  induction n with
  | zero =>
    intro x hx
    have hneg : x < 0 := by
      have h1 : ⌊x / 297⌋ < 0 := by omega
      have h2 : x / 297 < 0 := by
        have := Int.floor_lt.mp (show ⌊x / 297⌋ < (0 : ℤ) from h1)
        simpa using this
      by_contra hc
      have : 0 ≤ x / 297 := div_nonneg (not_lt.mp hc) (by norm_num)
      linarith
    rw [addPages]
    simp [not_le.mpr hneg]
  | succ n ih =>
    intro x hx
    have hfl : (0 : ℤ) ≤ ⌊x / 297⌋ := by push_cast at hx; omega
    have hpos : 0 ≤ x := by
      have h0 : 0 ≤ x / 297 := Int.floor_nonneg.mp hfl
      by_contra hc
      have : x / 297 < 0 := div_neg_of_neg_of_pos (not_le.mp hc) (by norm_num)
      linarith
    have hstep : ⌊(x - pageHeight) / 297⌋ + 1 = (n : ℤ) := by
      have h1 : (x - pageHeight) / 297 = x / 297 - 1 := by
        unfold pageHeight
        ring
      rw [h1, Int.floor_sub_one]
      push_cast at hx
      omega
    rw [addPages, if_pos hpos, ih _ hstep, List.range_succ_eq_map, List.map_cons, List.map_map]
    congr 1
    · simp
    · apply List.map_congr_left
      intro j _
      simp only [Function.comp, pageHeight, Nat.cast_succ]
      ring

/-- C30. For every image height `H ≥ 0` the page loop of `handleDownloadPDF` ends; it places
the image `1 + ⌊H / 297⌋` times, once per page, page `k` (counted from 0) at the vertical
offset `-297·k`; and when `H` is `m` times the page height there are `1 + m` pages, the last
with the image at offset `-H`, that is wholly above the page. -/
theorem pagePositions_eq (H : ℚ) (hH : 0 ≤ H) :
    pagePositions H =
      (List.range (1 + ⌊H / 297⌋.toNat)).map (fun k : ℕ => -(297 * (k : ℚ))) ∧
    (pagePositions H).length = 1 + ⌊H / 297⌋.toNat ∧
    ∀ m : ℕ, H = 297 * (m : ℚ) →
      (pagePositions H).length = 1 + m ∧ (pagePositions H).getLast? = some (-H) := by
  have hfl : (0 : ℤ) ≤ ⌊H / 297⌋ := Int.floor_nonneg.mpr (by positivity)
  have hstep : ⌊(H - pageHeight) / 297⌋ + 1 = ((⌊H / 297⌋.toNat : ℕ) : ℤ) := by
    have h1 : (H - pageHeight) / 297 = H / 297 - 1 := by
      unfold pageHeight
      ring
    rw [h1, Int.floor_sub_one, Int.toNat_of_nonneg hfl]
    omega
  have hmain : pagePositions H =
      (List.range (1 + ⌊H / 297⌋.toNat)).map (fun k : ℕ => -(297 * (k : ℚ))) := by
    rw [pagePositions, addPages_eq H _ _ hstep, Nat.add_comm 1, List.range_succ_eq_map,
      List.map_cons, List.map_map]
    congr 1
    · simp
    · apply List.map_congr_left
      intro j _
      simp only [Function.comp, pageHeight, Nat.cast_succ]
      ring
  refine ⟨hmain, by rw [hmain]; simp, ?_⟩
  intro m hm
  have hfloor : ⌊H / 297⌋.toNat = m := by
    have : H / 297 = (m : ℚ) := by rw [hm]; field_simp
    rw [this]
    simp
  rw [hmain, hfloor]
  refine ⟨by simp, ?_⟩
  rw [Nat.add_comm 1, List.range_succ, List.map_append, List.getLast?_append]
  simp [hm]

/-- Witness for C30: an image of height 594, twice the page height, gets three pages, the
third with the image at offset -594. -/
theorem pagePositions_eq_witness :
    pagePositions 594 = [0, -297, -594] ∧
    (pagePositions 594).getLast? = some (-594) := by
  have h := pagePositions_eq 594 (by norm_num)
  have hf : ⌊(594 : ℚ) / 297⌋.toNat = 2 := by
    have : (594 : ℚ) / 297 = ((2 : ℕ) : ℚ) := by norm_num
    rw [this]
    simp
  refine ⟨?_, ?_⟩
  · rw [h.1, hf]
    simp [List.range_succ]
    norm_num
  · have h2 := (h.2.2 2 (by norm_num)).2
    exact h2

end Reports

end FuxionFlow
